import Mathlib

/-!
# shoryu netplay session (pcsx2/Netplay/shoryu/session.h)

A shallow embedding of the message codec (`message::serialize`,
`message::deserialize`) and of the session object (`session::set`, `session::get`,
`session::recv_hdl`, `session::create_recv_handler`, ...) together with the properties
proved about them.

Conventions of the embedding:

* C++ integers are `Nat` (unsigned) or `Int` (signed); a narrowing conversion is written
  as an explicit `% 2 ^ w`.
* `enum class MessageType : uint8_t` is its underlying `uint8_t` value, because
  `deserialize` casts an arbitrary 5-bit tag to it.
* `std::string` and raw buffers are lists of bytes.
* An operation of the session is a function from the session to an `outcome` and the
  session after the call.  Accessing a vector out of bounds is `outcome.undefined`, a
  `throw std::exception(what)` is `outcome.threw what`.
* `async_transport` is not part of `session.h`; the session only calls `queue`, `send`,
  `send_sync` and `clear_queue` on it, and the embedding records these calls in order.
-/

namespace shoryu

/-! ## Archive primitives -/

/-- Modelled from the spec: `oarchive::operator<<` for an unsigned integer of `w` bytes
(the archive classes live in `async_transport.h`, which is not in this file).  The
spec asks for a fixed, symmetric byte order; least significant byte first is used. -/
def put_le : Nat → Nat → List Nat
  | 0, _ => []
  | w + 1, x => (x % 256) :: put_le w (x / 256)

/-- Modelled from the spec: `iarchive::operator>>` for an unsigned integer of `w`
bytes, the inverse of `put_le`; `none` when the stream is too short. -/
def get_le : Nat → List Nat → Option (Nat × List Nat)
  | 0, bs => some (0, bs)
  | _ + 1, [] => none
  | w + 1, b :: bs =>
    match get_le w bs with
    | none => none
    | some (v, rest) => some (b % 256 + 256 * v, rest)

/-- Modelled from the spec: `oarchive::write(p, n)`, the first `n` bytes of the
buffer `p`; reading past the end of the buffer is undefined (`none`). -/
def write_raw (p : List Nat) (n : Nat) : Option (List Nat) :=
  if p.length < n then none else some (p.take n)

/-- Modelled from the spec: `iarchive::read(p, n)`, the next `n` bytes of the stream. -/
def read_raw (n : Nat) (bs : List Nat) : Option (List Nat × List Nat) :=
  if bs.length < n then none else some (bs.take n, bs.drop n)

/-- Modelled from the spec: the width in bytes of a `size_t` (`std::string::length`,
`std::vector::size`) on the archive.  The spec only asks for a fixed layout; 4 bytes
are used, as on a 32-bit build. -/
def SIZE_T_BYTES : Nat := 4

/-- Modelled from the spec: `a << int64_t`, two's complement in 8 bytes. -/
def put_i64 (x : Int) : List Nat := put_le 8 (x % (2 : Int) ^ 64).toNat

/-- Modelled from the spec: `a >> int64_t`. -/
def get_i64 (bs : List Nat) : Option (Int × List Nat) :=
  match get_le 8 bs with
  | none => none
  | some (u, rest) => some (if u < 2 ^ 63 then (u : Int) else (u : Int) - (2 : Int) ^ 64, rest)

/-- The user supplied serialization of a template parameter (`FrameType::serialize` /
`FrameType::deserialize`, `operator<<` / `operator>>` of `StateType`). -/
structure archive_ops (α : Type) where
  put : α → List Nat
  get : List Nat → Option (α × List Nat)

/-- The user type reads back what it wrote and leaves the rest of the stream. -/
def archive_ops.lawful {α : Type} (c : archive_ops α) : Prop :=
  ∀ (x : α) (rest : List Nat), c.get (c.put x ++ rest) = some (x, rest)

/-! ## Messages -/

/-- The enum `MessageType : uint8_t`, as its underlying value. -/
abbrev MessageType := Nat

namespace MessageType
def None : MessageType := 0
def Frame : MessageType := 1
def Data : MessageType := 2
def Ping : MessageType := 3
def Join : MessageType := 4
def Deny : MessageType := 5
def Info : MessageType := 6
def Wait : MessageType := 7
def Delay : MessageType := 8
def Ready : MessageType := 9
def EndSession : MessageType := 10
end MessageType

/-- A `boost::asio::ip::udp::endpoint`: IPv4 address (`to_ulong`) and port. -/
structure endpoint where
  addr : Nat
  port : Nat
deriving DecidableEq, Repr

/-- The struct `message_data`: a buffer and the number of bytes of it in use. -/
structure message_data where
  p : List Nat
  data_length : Nat
deriving DecidableEq, Repr, Inhabited

/-- The struct `message<T, StateType>`. -/
structure message (T S : Type) where
  cmd : MessageType
  state : S
  frame_id : Int
  eps : List endpoint
  usernames : List (List Nat)
  host_ep : endpoint
  rand_seed : Nat
  delay : Nat
  side : Nat
  peers_needed : Nat
  peers_count : Nat
  frame : T
  data : message_data
  username : List Nat
deriving DecidableEq, Repr

/-- A length-prefixed `std::string`: `a << length; if(length) a.write(c_str, length)`. -/
def put_string (u : List Nat) : List Nat :=
  put_le SIZE_T_BYTES u.length ++ u

/-- The loop of `serialize` for `Info`: address, port and `usernames[i]` for every
`eps[i]`; `usernames[i]` past the end of `usernames` is undefined (`none`). -/
def serialize_eps : List endpoint → List (List Nat) → Option (List Nat)
  | [], _ => some []
  | _ :: _, [] => none
  | e :: es, u :: us =>
    match serialize_eps es us with
    | none => none
    | some tl => some (put_le 4 e.addr ++ put_le 2 e.port ++ put_string u ++ tl)

/-- The first byte: `uint8_t cmdSide = ((int)cmd & 0x1F) | ((side & 0x07) << 5)`. -/
def header_byte (cmd : MessageType) (side : Nat) : Nat :=
  ((cmd &&& 0x1F) ||| ((side &&& 0x07) <<< 5)) % 256

/-- The header byte and the payload of `message::serialize`, one branch per `case`
(the `Data` case falls through into `Deny`, the `Delay` case into `default`). -/
def message.serialize {T S : Type} (fc : archive_ops T) (sc : archive_ops S)
    (m : message T S) : Option (List Nat) :=
  let cmdSide : Nat := header_byte m.cmd m.side
  if m.cmd = MessageType.Join then
    some (cmdSide :: (sc.put m.state ++ put_le 4 m.host_ep.addr ++ put_le 2 m.host_ep.port
      ++ put_string m.username))
  else if m.cmd = MessageType.Data then
    match write_raw m.data.p m.data.data_length with
    | none => none
    | some raw =>
      some (cmdSide :: (put_i64 m.frame_id ++ put_le 4 m.data.data_length ++ raw
        ++ sc.put m.state))
  else if m.cmd = MessageType.Deny then
    some (cmdSide :: sc.put m.state)
  else if m.cmd = MessageType.Wait then
    some (cmdSide :: (put_le 1 m.peers_needed ++ put_le 1 m.peers_count))
  else if m.cmd = MessageType.Frame then
    some (cmdSide :: (put_le 1 (m.frame_id % 256).toNat
      ++ put_le 1 ((m.frame_id / 2 ^ 8) % 256).toNat
      ++ put_le 1 ((m.frame_id / 2 ^ 16) % 256).toNat
      ++ fc.put m.frame))
  else if m.cmd = MessageType.Info then
    match serialize_eps m.eps m.usernames with
    | none => none
    | some body =>
      some (cmdSide :: (put_le 4 m.rand_seed ++ put_le 1 m.side
        ++ put_le SIZE_T_BYTES m.eps.length ++ body ++ sc.put m.state))
  else if m.cmd = MessageType.Delay then
    some (cmdSide :: put_le 1 m.delay)
  else
    some [cmdSide]

/-- The loop `repeat(size)` of `deserialize` for `Info` (the macro `repeat` is defined
outside this file and is taken as `size` rounds of its body): each round appends one
endpoint to `eps` and one name to `usernames`. -/
def deserialize_eps : Nat → List Nat → Option ((List endpoint × List (List Nat)) × List Nat)
  | 0, bs => some (([], []), bs)
  | n + 1, bs =>
    match get_le 4 bs with
    | none => none
    | some (addr, bs1) =>
      match get_le 2 bs1 with
      | none => none
      | some (port, bs2) =>
        match get_le SIZE_T_BYTES bs2 with
        | none => none
        | some (length, bs3) =>
          match read_raw length bs3 with
          | none => none
          | some (name, bs4) =>
            match deserialize_eps n bs4 with
            | none => none
            | some ((es, us), bs5) => some ((⟨addr, port⟩ :: es, name :: us), bs5)

/-- The method `message::deserialize`, run on the message `m` (whose fields not
named by the kind keep their previous value); returns the message and the unread
rest of the stream. -/
def message.deserialize {T S : Type} (fc : archive_ops T) (sc : archive_ops S)
    (m : message T S) (bs : List Nat) : Option (message T S × List Nat) :=
  match get_le 1 bs with
  | none => none
  | some (cmdSide, bs0) =>
    let m := { m with cmd := cmdSide &&& 0x1F, side := cmdSide >>> 5 }
    if m.cmd = MessageType.Join then
      match sc.get bs0 with
      | none => none
      | some (state, bs1) =>
        match get_le 4 bs1 with
        | none => none
        | some (addr, bs2) =>
          match get_le 2 bs2 with
          | none => none
          | some (port, bs3) =>
            match get_le SIZE_T_BYTES bs3 with
            | none => none
            | some (length, bs4) =>
              let m := { m with state := state, host_ep := ⟨addr, port⟩ }
              if 0 < length then
                match read_raw length bs4 with
                | none => none
                | some (str, bs5) => some ({ m with username := str }, bs5)
              else some (m, bs4)
    else if m.cmd = MessageType.Data then
      match get_i64 bs0 with
      | none => none
      | some (frame_id, bs1) =>
        match get_le 4 bs1 with
        | none => none
        | some (data_length, bs2) =>
          match read_raw data_length bs2 with
          | none => none
          | some (buf, bs3) =>
            match sc.get bs3 with
            | none => none
            | some (state, bs4) =>
              some ({ m with frame_id := frame_id, data := ⟨buf, data_length⟩,
                             state := state }, bs4)
    else if m.cmd = MessageType.Deny then
      match sc.get bs0 with
      | none => none
      | some (state, bs1) => some ({ m with state := state }, bs1)
    else if m.cmd = MessageType.Wait then
      match get_le 1 bs0 with
      | none => none
      | some (peers_needed, bs1) =>
        match get_le 1 bs1 with
        | none => none
        | some (peers_count, bs2) =>
          some ({ m with peers_needed := peers_needed, peers_count := peers_count }, bs2)
    else if m.cmd = MessageType.Frame then
      match get_le 1 bs0 with
      | none => none
      | some (p0, bs1) =>
        match get_le 1 bs1 with
        | none => none
        | some (p1, bs2) =>
          match get_le 1 bs2 with
          | none => none
          | some (p2, bs3) =>
            match fc.get bs3 with
            | none => none
            | some (frame, bs4) =>
              some ({ m with frame_id := ((p0 ||| (p1 <<< 8) ||| (p2 <<< 16) : Nat) : Int),
                             frame := frame }, bs4)
    else if m.cmd = MessageType.Info then
      match get_le 4 bs0 with
      | none => none
      | some (rand_seed, bs1) =>
        match get_le 1 bs1 with
        | none => none
        | some (side, bs2) =>
          match get_le SIZE_T_BYTES bs2 with
          | none => none
          | some (size, bs3) =>
            match deserialize_eps size bs3 with
            | none => none
            | some ((es, us), bs4) =>
              match sc.get bs4 with
              | none => none
              | some (state, bs5) =>
                some ({ m with rand_seed := rand_seed, side := side, eps := m.eps ++ es,
                               usernames := m.usernames ++ us, state := state }, bs5)
    else if m.cmd = MessageType.Delay then
      match get_le 1 bs0 with
      | none => none
      | some (delay, bs1) => some ({ m with delay := delay }, bs1)
    else
      some (m, bs0)

/-- The constructor `message(MessageType type)`: only `cmd` is set; the containers
are empty and the scalar fields, indeterminate in C++, are taken as zero. -/
def message.ctor {T S : Type} [Inhabited T] [Inhabited S] (type : MessageType) :
    message T S :=
  { cmd := type, state := default, frame_id := 0, eps := [], usernames := [],
    host_ep := ⟨0, 0⟩, rand_seed := 0, delay := 0, side := 0, peers_needed := 0,
    peers_count := 0, frame := default, data := ⟨[], 0⟩, username := [] }

/-- The two statements `message_type msg(MessageType::Delay); msg.delay = d;` with an
`int d`: the `uint8_t` field keeps `d` modulo 256. -/
def message.delay_of {T S : Type} [Inhabited T] [Inhabited S] (d : Int) : message T S :=
  let msg : message T S := message.ctor MessageType.Delay
  { msg with delay := (d % 256).toNat }

/-! ## Containers -/

/-- The call `unordered_map::find(k) != end()`, with the value found. -/
def um_find {V : Type} : List (Int × V) → Int → Option V
  | [], _ => none
  | (k', v) :: rest, k => if k' = k then some v else um_find rest k

/-- The call `unordered_map::erase(k)`. -/
def um_erase {V : Type} (m : List (Int × V)) (k : Int) : List (Int × V) :=
  m.filter (fun kv => decide (kv.1 ≠ k))

/-- The assignment `m[k] = v` on an `unordered_map`. -/
def um_set {V : Type} (m : List (Int × V)) (k : Int) (v : V) : List (Int × V) :=
  (k, v) :: um_erase m k

/-- The read `m[k]` on an `unordered_map`: a missing key is inserted with a default
constructed value. -/
def um_index {V : Type} [Inhabited V] (m : List (Int × V)) (k : Int) : V × List (Int × V) :=
  match um_find m k with
  | some v => (v, m)
  | none => (default, um_set m k default)

/-- The access `v[i]` on a `std::vector` with an `int` index; out of bounds is `none`. -/
def vec_at {α : Type} (v : List α) (i : Int) : Option α :=
  if i < 0 then none else v.get? i.toNat

/-- The assignment `v[i] = x` on a `std::vector`, for an index known to be in bounds. -/
def vec_set {α : Type} (v : List α) (i : Int) (x : α) : List α :=
  v.set i.toNat x

/-- The order of `std::map<endpoint, _>`: `operator<` of the endpoint compares the
address, then the port. -/
def endpoint.lt (a b : endpoint) : Bool :=
  decide (a.addr < b.addr) || (decide (a.addr = b.addr) && decide (a.port < b.port))

/-- The call `std::map::find` on a map keyed by endpoint. -/
def map_find {V : Type} : List (endpoint × V) → endpoint → Option V
  | [], _ => none
  | (k', v) :: rest, k => if k' = k then some v else map_find rest k

/-- The assignment `m[k] = v` on a `std::map` keyed by endpoint, kept in key order (the
order in which the handlers iterate over it). -/
def map_set {V : Type} (k : endpoint) (v : V) : List (endpoint × V) → List (endpoint × V)
  | [] => [(k, v)]
  | (k', v') :: rest =>
    if k = k' then (k, v) :: rest
    else if k.lt k' then (k, v) :: (k', v') :: rest
    else (k', v') :: map_set k v rest

/-! ## The session -/

/-- Modelled from the spec: the operations of the async transport that the session
calls on its member `_async` (`async_transport.h` is not part of this file): `queue(ep,
msg)`, `send(ep)`, the overload `send(ep, delay, loss)` of test builds, and
`clear_queue(ep)`.  The session is observed through the sequence of these calls. -/
inductive transport_call (M : Type) where
  | queue (ep : endpoint) (msg : M)
  | send (ep : endpoint)
  | send_artificial (ep : endpoint)
  | clear_queue (ep : endpoint)
deriving DecidableEq, Repr

/-- The struct `session::peer_info`. -/
structure peer_info where
  state : MessageType
  time : Nat
  delay : Int
deriving DecidableEq, Repr

/-- How a call ends: it returns, it throws `std::exception(what)`, it runs into undefined
behaviour (a vector indexed out of bounds), or it waits on a condition variable that
nothing signals. -/
inductive outcome (α : Type) where
  | ret (v : α)
  | threw (what : String)
  | undefined
  | blocks
deriving DecidableEq, Repr

/-- The data members of the class `session<FrameType, StateType>`.  `_async` is the list
of calls made on the transport so far, `_connection_sem` the count of the semaphore. -/
structure session (F S : Type) where
  _shutdown : Bool
  _states : List (endpoint × peer_info)
  _current_state : MessageType
  _players_needed : Nat
  _host_ep : endpoint
  _connection_sem : Nat
  _state : S
  _first_received_frame : Int
  _last_received_frame : Int
  _delay : Int
  _frame : Int
  _data_index : Int
  _side : Int
  _packet_loss : Int
  _send_delay_max : Int
  _send_delay_min : Int
  _end_session_request : Bool
  _username : List Nat
  _username_map : List (endpoint × List Nat)
  _last_error : String
  _async : List (transport_call (message F S))
  _eps : List endpoint
  _frame_table : List (List (Int × F))
  _data_table : List (List (Int × message_data))
deriving DecidableEq, Repr

variable {F S : Type}

/-- The method `semaphore::post`: `++count_` on an `unsigned int`. -/
def semaphore_post (count : Nat) : Nat := (count + 1) % 2 ^ 32

/-- The method `session::clear`. -/
def session.clear (s : session F S) : session F S :=
  { s with
    _username_map := [], _connection_sem := 0, _last_received_frame := -1,
    _first_received_frame := -1, _delay := 0, _side := 0, _frame := 0, _data_index := 0,
    _current_state := MessageType.None, _eps := [], _end_session_request := false,
    _frame_table := [], _last_error := "", _data_table := [] }

/-- The constructor `session()`: the three test knobs are zero, the containers are
empty, then `clear()`. -/
def session.ctor [Inhabited S] : session F S :=
  session.clear
    { _shutdown := false, _states := [], _current_state := MessageType.None,
      _players_needed := 0, _host_ep := ⟨0, 0⟩, _connection_sem := 0, _state := default,
      _first_received_frame := 0, _last_received_frame := 0, _delay := 0, _frame := 0,
      _data_index := 0, _side := 0, _packet_loss := 0, _send_delay_max := 0,
      _send_delay_min := 0, _end_session_request := false, _username := [],
      _username_map := [], _last_error := "", _async := [], _eps := [],
      _frame_table := [], _data_table := [] }

/-- The method `session::connection_established`: both tables get `_eps.size() + 1`
rows (`resize` keeps the rows already there). -/
def session.connection_established (s : session F S) : session F S :=
  { s with
    _frame_table := (s._frame_table ++ List.replicate (s._eps.length + 1
        - s._frame_table.length) []).take (s._eps.length + 1),
    _data_table := (s._data_table ++ List.replicate (s._eps.length + 1
        - s._data_table.length) []).take (s._eps.length + 1) }

/-- The start of `session::create` up to the wait of `create_handler`: `_shutdown = false`,
`try_prepare()`, `_state = state`, `_players_needed = players`, `_current_state = Wait`. -/
def session.create_begin (s : session F S) (players : Nat) (state : S) : session F S :=
  let s1 : session F S := session.clear { s with _shutdown := false }
  { s1 with
    _state := state, _players_needed := players % 2 ^ 32,
    _current_state := MessageType.Wait }

/-- The call that `session::send(const endpoint&)` makes on the transport: the plain
`_async.send(ep)` unless a test knob asks for artificial delay or loss. -/
def session.send_call (s : session F S) (ep : endpoint) : transport_call (message F S) :=
  if s._packet_loss = 0 ∧ s._send_delay_max = 0 then transport_call.send ep
  else transport_call.send_artificial ep

/-- The method `session::send(const endpoint&)`. -/
def session.send_ep (s : session F S) (ep : endpoint) : session F S :=
  { s with _async := s._async ++ [s.send_call ep] }

/-- The loop of `session::send()`, from index `i` on: `break` at `i == 1` on a joiner,
`continue` at `i == _side`, else the endpoint is flushed.  Returns the endpoints
flushed, in order. -/
def send_targets (side : Int) : Nat → List endpoint → List endpoint
  | _, [] => []
  | i, ep :: rest =>
    if i = 1 ∧ side ≠ 0 then []
    else if (i : Int) = side then send_targets side (i + 1) rest
    else ep :: send_targets side (i + 1) rest

/-- The method `session::send()`. -/
def session.send (s : session F S) : session F S :=
  (send_targets s._side 0 s._eps).foldl session.send_ep s

/-- The method `session::queue_message`: a joiner queues to `_eps[0]`, the host to
`_eps[1]`, `_eps[2]`, ... -/
def session.queue_message (s : session F S) (msg : message F S) :
    outcome Unit × session F S :=
  if s._side ≠ 0 then
    match s._eps with
    | [] => (outcome.undefined, s)
    | e0 :: _ => (outcome.ret (), { s with _async := s._async ++ [transport_call.queue e0 msg] })
  else
    let calls := (s._eps.drop 1).map (fun e => transport_call.queue e msg)
    (outcome.ret (), { s with _async := s._async ++ calls })

/-- The method `session::clear_queue`. -/
def session.clear_queue (s : session F S) : outcome Unit × session F S :=
  if s._current_state = MessageType.None then (outcome.threw "invalid state", s)
  else
    let calls := s._eps.map (fun e => (transport_call.clear_queue e : transport_call (message F S)))
    (outcome.ret (), { s with _async := s._async ++ calls })

/-- The method `session::send_end_session_request`. -/
def session.send_end_session_request [Inhabited F] [Inhabited S] (s : session F S) :
    outcome Unit × session F S :=
  let s1 : session F S := { s with _end_session_request := true }
  match s1.queue_message (message.ctor MessageType.EndSession) with
  | (outcome.ret _, s2) => (outcome.ret (), s2.send)
  | r => r

/-- The method `session::reannounce_delay`; `msg.delay = delay()` narrows the `int` to
`uint8_t`. -/
def session.reannounce_delay [Inhabited F] [Inhabited S] (s : session F S) :
    outcome Unit × session F S :=
  if s._current_state = MessageType.None then (outcome.threw "invalid state", s)
  else
    match s.queue_message (message.delay_of s._delay) with
    | (outcome.ret _, s2) => (outcome.ret (), s2.send)
    | r => r

/-- The method `session::queue_data`. -/
def session.queue_data [Inhabited F] [Inhabited S] (s : session F S) (data : message_data) :
    outcome Unit × session F S :=
  if s._current_state = MessageType.None then (outcome.threw "invalid state", s)
  else
    let msg : message F S := message.ctor MessageType.Data
    let s1 : session F S := { s with _data_index := s._data_index + 1 }
    s1.queue_message { msg with data := data, frame_id := s._data_index }

/-- What `session::get` and `session::get_data` hand back: how the call ended, the
session after it, the caller's object passed by reference, and whether the calling
thread had to wait on the condition variable (its predicate was false on entry). -/
structure wait_result (F S V : Type) where
  result : outcome Bool
  s : session F S
  out : V
  waited : Bool

/-- The method `session::get_data`, run against a session that no other thread changes
during the call: a wait whose predicate is false ends at the timeout (`timeout > 0`)
or never. -/
def session.get_data (s : session F S) (side : Int) (data : message_data) (timeout : Int) :
    wait_result F S message_data :=
  if s._current_state = MessageType.None then ⟨outcome.threw "invalid state", s, data, false⟩
  else
    match vec_at s._data_table side with
    | none => ⟨outcome.undefined, s, data, false⟩
    | some row =>
      if (um_find row s._data_index).isSome then
        let r := um_index row s._data_index
        ⟨outcome.ret true,
          { s with _data_table := vec_set s._data_table side (um_erase r.2 s._data_index),
                   _data_index := s._data_index + 1 }, r.1, false⟩
      else if 0 < timeout then ⟨outcome.ret false, s, data, true⟩
      else ⟨outcome.blocks, s, data, true⟩

/-- The macro `NETPLAY_DELAY_SERVER`, not defined in this build. -/
def NETPLAY_DELAY_SERVER : Bool := false

/-- The method `session::set`. -/
def session.set [Inhabited F] [Inhabited S] (s : session F S) (frame : F) :
    outcome Unit × session F S :=
  if s._current_state = MessageType.None then (outcome.threw "invalid state", s)
  else
    let destFrame : Int :=
      if !NETPLAY_DELAY_SERVER && decide (s._side = 0) then s._frame + 1
      else s._frame + s._delay
    match vec_at s._frame_table s._side with
    | none => (outcome.undefined, s)
    | some row =>
      let s1 : session F S :=
        { s with _frame_table := vec_set s._frame_table s._side (um_set row destFrame frame) }
      let msg : message F S := message.ctor MessageType.Frame
      match s1.queue_message
          { msg with frame_id := destFrame, frame := frame,
                     side := (s._side % 256).toNat } with
      | (outcome.ret _, s2) => (outcome.ret (), s2.send)
      | r => r

/-- The method `session::get(int side, FrameType& f, int64_t frame, int timeout)`, run
against a session that no other thread changes during the call. -/
def session.get [Inhabited F] (s : session F S) (side : Int) (f : F) (frame : Int)
    (timeout : Int) : wait_result F S F :=
  if s._current_state = MessageType.None then ⟨outcome.threw "invalid state", s, f, false⟩
  else if frame < s._delay then ⟨outcome.ret true, s, f, false⟩
  else
    match vec_at s._frame_table side with
    | none => ⟨outcome.undefined, s, f, false⟩
    | some row =>
      if (um_find row frame).isSome then
        let r := um_index row frame
        ⟨outcome.ret true,
          { s with _frame_table := vec_set s._frame_table side (um_erase r.2 (frame - 1)) },
          r.1, false⟩
      else if 0 < timeout then ⟨outcome.ret false, s, f, true⟩
      else ⟨outcome.blocks, s, f, true⟩

/-- The method `session::next_frame`. -/
def session.next_frame (s : session F S) : session F S :=
  { s with _frame := s._frame + 1 }

/-- The method `session::calculate_delay(uint32_t rtt)`. -/
def calculate_delay (rtt : Nat) : Int := ((rtt % 2 ^ 32 / 32 + 1 : Nat) : Int)

/-- The maximum of the `rtt_avg` of the peers, as computed by `join_handler`:
`int rtt = 0; for (ep : _eps) if (rtt < peer.rtt_avg) rtt = peer.rtt_avg;`. -/
def join_handler_rtt (rtt_avg : endpoint → Int) (eps : List endpoint) : Int :=
  eps.foldl (fun rtt ep => if rtt < rtt_avg ep then rtt_avg ep else rtt) 0

/-- The `Delay` message a joiner queues to the host in `join_handler`:
`msg.delay = calculate_delay(rtt)` stores the `int` into the `uint8_t` field. -/
def join_handler_delay_msg [Inhabited F] [Inhabited S] (s : session F S)
    (rtt_avg : endpoint → Int) : message F S :=
  message.delay_of (calculate_delay (join_handler_rtt rtt_avg s._eps % 2 ^ 32).toNat)

/-- The call `_async.queue(ep, msg)`. -/
def session.queue (s : session F S) (ep : endpoint) (msg : message F S) : session F S :=
  { s with _async := s._async ++ [transport_call.queue ep msg] }

/-- The read `m[k]` on a `std::map` keyed by endpoint: a missing key is inserted with a
default constructed value. -/
def map_index {V : Type} (dflt : V) (m : List (endpoint × V)) (k : endpoint) :
    V × List (endpoint × V) :=
  match map_find m k with
  | some v => (v, m)
  | none => (dflt, map_set k dflt m)

/-- The loop of `create_recv_handler` that collects `ready_list` from `_states`: the
`j`-th round reads the clock (`time_ms j`), appends the key when its `Join` is less
than 1000 ms old (`uint64_t` subtraction), and breaks once the list has
`_players_needed` entries. -/
def ready_loop (time_ms : Nat → Nat) (needed : Nat) :
    Nat → List (endpoint × peer_info) → List endpoint → List endpoint
  | _, [], rl => rl
  | j, (k, pi) :: rest, rl =>
    let rl1 :=
      if (time_ms j % 2 ^ 64 + 2 ^ 64 - pi.time % 2 ^ 64) % 2 ^ 64 < 1000
          ∧ pi.state = MessageType.Join then rl ++ [k]
      else rl
    if needed ≤ rl1.length then rl1 else ready_loop time_ms needed (j + 1) rest rl1

/-- The loop of `create_recv_handler` that fills `msg.usernames`: `_username` at index
`_side`, `_username_map[_eps[i]]` elsewhere. -/
def info_usernames (side : Int) (username : List Nat) :
    Nat → List endpoint → List (endpoint × List Nat) →
      List (List Nat) × List (endpoint × List Nat)
  | _, [], um => ([], um)
  | i, e :: rest, um =>
    if (i : Int) ≠ side then
      let r := map_index [] um e
      let t := info_usernames side username (i + 1) rest r.2
      (r.1 :: t.1, t.2)
    else
      let t := info_usernames side username (i + 1) rest um
      (username :: t.1, t.2)

/-- The loop `for (i = 1; i < ready_list.size(); i++) { msg.side = i; queue(ready_list[i], msg); }`
of `create_recv_handler`, from index `i` on. -/
def info_queue_loop (msg : message F S) : Nat → List endpoint → session F S → session F S
  | _, [], s => s
  | i, e :: rest, s => info_queue_loop msg (i + 1) rest (s.queue e { msg with side := i % 256 })

/-- The `Join` branch of `create_recv_handler`.  The second component tells whether
the handler returned from inside the branch (the `Deny` reply). -/
def session.create_recv_join [Inhabited F] [Inhabited S] (chk : S → S → Bool)
    (time_ms : Nat → Nat) (seed : Nat) (s : session F S) (ep : endpoint)
    (msg : message F S) : session F S × Bool :=
  let s1 : session F S := { s with _username_map := map_set ep msg.username s._username_map }
  if !chk s1._state msg.state then
    let deny0 : message F S := message.ctor MessageType.Deny
    let deny : message F S := { deny0 with state := s1._state }
    let s2 := (List.replicate 5 ep).foldl session.send_ep (s1.queue ep deny)
    ({ s2 with _connection_sem := semaphore_post s2._connection_sem }, true)
  else
    let s2 : session F S :=
      if s1._current_state = MessageType.Wait then
        { s1 with _states := map_set ep ⟨MessageType.Join, time_ms 0 % 2 ^ 64, 0⟩ s1._states }
      else
        let r := map_index (⟨0, 0, 0⟩ : peer_info) s1._states ep
        { s1 with _states := map_set ep { r.1 with time := time_ms 0 % 2 ^ 64 } r.2 }
    let ready_list := ready_loop time_ms s2._players_needed 1 s2._states [msg.host_ep]
    if s2._players_needed ≤ ready_list.length then
      let s3 : session F S :=
        if s2._current_state = MessageType.Wait then
          let names := info_usernames s2._side s2._username 0 ready_list s2._username_map
          let info0 : message F S := message.ctor MessageType.None
          let info : message F S :=
            { info0 with cmd := MessageType.Info, rand_seed := seed % 2 ^ 32,
                         eps := ready_list, state := s2._state, usernames := names.1 }
          let s4 : session F S := { s2 with _eps := ready_list, _username_map := names.2 }
          let s5 := info_queue_loop info 1 (ready_list.drop 1) s4
          { s5 with _current_state := MessageType.Ping, _side := 0 }
        else s2
      ((ready_list.drop 1).foldl session.send_ep s3, false)
    else (s2, false)

/-- The `Ping` branch of `create_recv_handler` and of `join_recv_handler`. -/
def session.recv_ping [Inhabited F] [Inhabited S] (s : session F S) (ep : endpoint) :
    session F S :=
  let none0 : message F S := message.ctor MessageType.None
  (s.queue ep none0).send_ep ep

/-- The loop over `_states` in the `Delay` branch of `create_recv_handler`: sums the
delays of the peers in state `Delay` and, at the `n1`-th of them, divides and breaks.
Returns `(d, ready)`. -/
def delay_loop (n1 : Nat) : List (endpoint × peer_info) → Int → Int → Int × Int
  | [], d, ready => (d, ready)
  | (_, pi) :: rest, d, ready =>
    if pi.state = MessageType.Delay then
      if ready + 1 = (n1 : Int) then ((d + pi.delay) / (n1 : Int), ready + 1)
      else delay_loop n1 rest (d + pi.delay) (ready + 1)
    else delay_loop n1 rest d ready

/-- The `Delay` branch of `create_recv_handler`; `_players_needed - 1` is computed on
`unsigned int`, `msg.delay = d` stores the `int` into the `uint8_t` field. -/
def session.create_recv_delay [Inhabited F] [Inhabited S] (s : session F S) (ep : endpoint)
    (msg : message F S) : session F S :=
  let s1 : session F S :=
    { s with _states := map_set ep ⟨MessageType.Delay, 0, (msg.delay : Int)⟩ s._states }
  let n1 : Nat := (s1._players_needed + 2 ^ 32 - 1) % 2 ^ 32
  let r := delay_loop n1 s1._states 0 0
  if r.2 = (n1 : Int) then
    if s1._current_state ≠ MessageType.Ready then
      let dmsg : message F S := message.delay_of r.1
      let s2 : session F S := { s1 with _delay := r.1 }
      let s3 := s2._eps.foldl (fun t e => t.queue e dmsg) s2
      { s3 with _current_state := MessageType.Ready,
                _connection_sem := semaphore_post s3._connection_sem }
    else s1
  else s1

/-- The method `session::create_recv_handler`.  `chk` is `_state_check_handler`,
`time_ms j` the value of the `j`-th call of `time_ms()` in this run of the handler and
`seed` the value of `time(0)`. -/
def session.create_recv_handler [Inhabited F] [Inhabited S] (chk : S → S → Bool)
    (time_ms : Nat → Nat) (seed : Nat) (s : session F S) (ep : endpoint)
    (msg : message F S) : session F S :=
  let r1 : session F S × Bool :=
    if msg.cmd = MessageType.Join then s.create_recv_join chk time_ms seed ep msg
    else (s, false)
  if r1.2 then r1.1
  else
    let s2 := if msg.cmd = MessageType.Ping then r1.1.recv_ping ep else r1.1
    if msg.cmd = MessageType.Delay then s2.create_recv_delay ep msg else s2

/-- The loop of `join_recv_handler` for `Info`: `_username_map[_eps[i]] = msg.usernames[i]`;
`none` when `usernames` is shorter than `_eps`. -/
def join_usernames : List endpoint → List (List Nat) → List (endpoint × List Nat) →
    Option (List (endpoint × List Nat))
  | [], _, um => some um
  | _ :: _, [], _ => none
  | e :: es, u :: us, um => join_usernames es us (map_set e u um)

/-- The method `session::join_recv_handler`. -/
def session.join_recv_handler [Inhabited F] [Inhabited S] (chk : S → S → Bool)
    (s : session F S) (ep : endpoint) (msg : message F S) : outcome Unit × session F S :=
  if ep ≠ s._host_ep then (outcome.ret (), s)
  else
    let r1 : outcome Unit × session F S :=
      if msg.cmd = MessageType.Info then
        let s1 : session F S := { s with _side := (msg.side : Int), _eps := msg.eps }
        match join_usernames s1._eps msg.usernames s1._username_map with
        | none => (outcome.undefined, s1)
        | some um =>
          let st := if !chk s1._state msg.state then MessageType.Deny else MessageType.Info
          (outcome.ret (),
            { s1 with _username_map := um, _current_state := st,
                      _connection_sem := semaphore_post s1._connection_sem })
      else (outcome.ret (), s)
    match r1 with
    | (outcome.ret _, s1) =>
      let s2 : session F S :=
        if msg.cmd = MessageType.Deny then
          { s1 with _current_state := MessageType.Deny,
                    _connection_sem := semaphore_post s1._connection_sem }
        else s1
      let s3 : session F S :=
        if msg.cmd = MessageType.Delay then
          let s4 : session F S :=
            { s2 with _delay := (msg.delay : Int), _current_state := MessageType.Ready }
          let ready0 : message F S := message.ctor MessageType.Ready
          let s5 := (s4.queue ep ready0).send_ep ep
          { s5 with _connection_sem := semaphore_post s5._connection_sem }
        else s2
      (outcome.ret (), if msg.cmd = MessageType.Ping then s3.recv_ping ep else s3)
    | r => r

/-- The echo loop of `recv_hdl` on the host, from index `i` on: every `_eps[i]` but the
one at index `side` gets the message queued and is flushed. -/
def echo_loop (side : Int) (msg : message F S) : Nat → List endpoint → session F S → session F S
  | _, [], s => s
  | i, e :: rest, s =>
    if (i : Int) = side then echo_loop side msg (i + 1) rest s
    else echo_loop side msg (i + 1) rest ((s.queue e msg).send_ep e)

/-- The `Frame` block of `recv_hdl`: the frame is stored in the table of the sending
side (undefined when that side is no row of the table) and the first / last received
frame numbers are updated. -/
def session.recv_frame (s : session F S) (side : Int) (msg : message F S) :
    outcome Unit × session F S :=
  if msg.cmd = MessageType.Frame then
    match vec_at s._frame_table side with
    | none => (outcome.undefined, s)
    | some row =>
      let first :=
        if s._first_received_frame < 0 then msg.frame_id
        else if msg.frame_id < s._first_received_frame then msg.frame_id
        else s._first_received_frame
      let last :=
        if s._last_received_frame < 0 then msg.frame_id
        else if msg.frame_id > s._last_received_frame then msg.frame_id
        else s._last_received_frame
      (outcome.ret (),
        { s with _frame_table := vec_set s._frame_table side (um_set row msg.frame_id msg.frame),
                 _first_received_frame := first, _last_received_frame := last })
  else (outcome.ret (), s)

/-- The `Data` block of `recv_hdl`. -/
def session.recv_data (s : session F S) (ep : endpoint) (side : Int) (msg : message F S) :
    outcome Unit × session F S :=
  if msg.cmd = MessageType.Data then
    match vec_at s._data_table side with
    | none => (outcome.undefined, s)
    | some row =>
      let s1 : session F S :=
        { s with _data_table := vec_set s._data_table side (um_set row msg.frame_id msg.data) }
      (outcome.ret (), if s1._side = 0 ∨ side = 0 then s1.send_ep ep else s1)
  else (outcome.ret (), s)

/-- The `Delay` block of `recv_hdl`. -/
def session.recv_delay (s : session F S) (ep : endpoint) (side : Int) (msg : message F S) :
    session F S :=
  if msg.cmd = MessageType.Delay then
    let s1 : session F S := { s with _delay := (msg.delay : Int) }
    if s1._side = 0 ∨ side = 0 then s1.send_ep ep else s1
  else s

/-- The `EndSession` block of `recv_hdl`. -/
def session.recv_end_session (s : session F S) (ep : endpoint) (side : Int)
    (msg : message F S) : session F S :=
  if msg.cmd = MessageType.EndSession then
    let s1 : session F S := { s with _end_session_request := true }
    if s1._side = 0 ∨ side = 0 then s1.send_ep ep else s1
  else s

/-- The method `session::recv_hdl`: a message of the own side is ignored; the host
echoes a message of a joiner to the other joiners; then the four blocks run in turn. -/
def session.recv_hdl (s : session F S) (ep : endpoint) (msg : message F S) :
    outcome Unit × session F S :=
  if (msg.side : Int) = s._side then (outcome.ret (), s)
  else
    let side : Int := (msg.side : Int)
    let s1 : session F S :=
      if s._side = 0 ∧ side ≠ 0 then echo_loop side msg 1 (s._eps.drop 1) s else s
    match s1.recv_frame side msg with
    | (outcome.ret _, s2) =>
      match s2.recv_data ep side msg with
      | (outcome.ret _, s3) =>
        (outcome.ret (), ((s3.recv_delay ep side msg).recv_end_session ep side msg))
      | r => r
    | r => r

/-- A sequence of messages handled by `recv_hdl`, one after the other, stopping at the
first call that does not return. -/
def session.recv_hdl_run (s : session F S) : List (endpoint × message F S) →
    outcome Unit × session F S
  | [] => (outcome.ret (), s)
  | (ep, msg) :: rest =>
    match s.recv_hdl ep msg with
    | (outcome.ret _, s1) => s1.recv_hdl_run rest
    | r => r

/-- A sequence of messages handled by `create_recv_handler`, one after the other; the
`j`-th message comes with its own clock readings and seed. -/
def session.create_recv_run [Inhabited F] [Inhabited S] (chk : S → S → Bool)
    (s : session F S) : List ((Nat → Nat) × Nat × endpoint × message F S) → session F S
  | [] => s
  | (time_ms, seed, ep, msg) :: rest =>
    (s.create_recv_handler chk time_ms seed ep msg).create_recv_run chk rest

/-- The `queue` calls among the calls made on the transport, in order. -/
def queue_calls {M : Type} : List (transport_call M) → List (endpoint × M)
  | [] => []
  | transport_call.queue ep msg :: rest => (ep, msg) :: queue_calls rest
  | _ :: rest => queue_calls rest

/-! ## Vocabulary of the properties and example inputs -/

/-- A connected session, as `create` / `join` leave it through
`connection_established`: the handshake is over (`_current_state != None`), both tables
have `_eps.size() + 1` rows, and the local side is an index of the roster, which holds
at most 8 peers. -/
def session.connected (s : session F S) : Prop :=
  s._current_state ≠ MessageType.None ∧
  s._frame_table.length = s._eps.length + 1 ∧
  s._data_table.length = s._eps.length + 1 ∧
  0 ≤ s._side ∧ s._side < (s._eps.length : Int) ∧ s._eps.length ≤ 8

/-- The one-byte serialization of a frame or state that is a single `uint8_t`. -/
def byte_ops : archive_ops (Fin 256) :=
  { put := fun x => [x.val],
    get := fun bs =>
      match bs with
      | [] => none
      | b :: rest => some (⟨b % 256, Nat.mod_lt _ (by decide)⟩, rest) }

/-- A `Frame` message of side 3 for tick 70000 with a one-byte frame. -/
def demo_frame_msg : message (Fin 256) (Fin 256) :=
  { (message.ctor MessageType.Frame : message (Fin 256) (Fin 256)) with
    frame_id := 70000, side := 3, frame := 7 }

/-- The host of a two-player session after the handshake: delay 3, tick 3, the frames of
side 1 for the ticks 3 and 4 stored. -/
def demo_host : session Nat Nat :=
  { (session.ctor : session Nat Nat) with
    _current_state := MessageType.Ready, _delay := 3, _frame := 3, _players_needed := 2,
    _eps := [⟨1, 7000⟩, ⟨2, 7000⟩],
    _frame_table := [[], [(4, 40), (3, 30)], []],
    _data_table := [[], [], []] }

/-- The joiner of the same session (side 1). -/
def demo_joiner : session Nat Nat :=
  { demo_host with _side := 1, _frame_table := [[(3, 31)], [], []] }

/-- The host of a three-player session after the handshake. -/
def demo_host3 : session Nat Nat :=
  { demo_host with
    _players_needed := 3, _eps := [⟨1, 7000⟩, ⟨2, 7000⟩, ⟨3, 7000⟩],
    _frame_table := [[], [], [], []], _data_table := [[], [], [], []] }

/-- A `Ping` message of side 1. -/
def demo_ping : message Nat Nat :=
  { (message.ctor MessageType.Ping : message Nat Nat) with side := 1 }

/-- Two `Frame` messages, of side 1 for tick 5 and of side 2 for tick 3. -/
def demo_frames : List (endpoint × message Nat Nat) :=
  [(⟨2, 7000⟩, { (message.ctor MessageType.Frame : message Nat Nat) with
      side := 1, frame_id := 5, frame := 50 }),
   (⟨3, 7000⟩, { (message.ctor MessageType.Frame : message Nat Nat) with
      side := 2, frame_id := 3, frame := 30 })]

/-- The host endpoint of the handshake examples. -/
def demo_H : endpoint := ⟨1, 7000⟩

/-- The endpoint of the first joiner of the handshake examples. -/
def demo_A : endpoint := ⟨2, 7000⟩

/-- The endpoint of the second joiner of the handshake examples. -/
def demo_B : endpoint := ⟨3, 7000⟩

/-- An endpoint that never sends a `Join`. -/
def demo_X : endpoint := ⟨9, 9⟩

/-- The state check of the examples: equality of the states. -/
def demo_chk (a b : Nat) : Bool := a == b

/-- The clock of the examples: every reading is 5000 ms. -/
def demo_clock (_ : Nat) : Nat := 5000

/-- The `Join` message of the examples: the joiner names the host endpoint and carries
the same state as the host. -/
def demo_join : message Nat Nat :=
  { (message.ctor MessageType.Join : message Nat Nat) with host_ep := demo_H, state := 0 }

/-- A `Delay` message reporting `d`. -/
def demo_delay (d : Nat) : message Nat Nat :=
  { (message.ctor MessageType.Delay : message Nat Nat) with delay := d }

/-- The host right after `create(2, ...)` has started to wait: a new session object,
`_players_needed = 2`, `_current_state = Wait`. -/
def demo_create2 : session Nat Nat := (session.ctor : session Nat Nat).create_begin 2 0

/-- The host right after `create(3, ...)` has started to wait. -/
def demo_create3 : session Nat Nat := (session.ctor : session Nat Nat).create_begin 3 0

/-- A joiner of a two-player session during the handshake, after the `Info` of the
host: side 1, roster `[H, A]`. -/
def demo_join2 : session Nat Nat :=
  { (session.ctor : session Nat Nat) with
    _host_ep := demo_H, _current_state := MessageType.Info, _side := 1,
    _eps := [demo_H, demo_A] }

/-- The invariant of a `std::map` keyed by endpoint: the entries are in strictly
increasing key order. -/
def map_sorted {V : Type} (m : List (endpoint × V)) : Prop :=
  m.Pairwise (fun a b => a.1.lt b.1 = true)

/-- The entries of the peer map that are in state `Delay`, in key order. -/
def delay_entries (m : List (endpoint × peer_info)) : List (endpoint × peer_info) :=
  m.filter (fun kv => decide (kv.2.state = MessageType.Delay))

/-- The integer mean of the delays of the first `n` entries in state `Delay`. -/
def mean_delay (m : List (endpoint × peer_info)) (n : Nat) : Int :=
  (((delay_entries m).take n).map (fun kv => kv.2.delay)).sum / (n : Int)

/-- The peer map of the host once it has recorded the `Delay` report of `ep`. -/
def record_delay (m : List (endpoint × peer_info)) (ep : endpoint) (d : Nat) :
    List (endpoint × peer_info) :=
  map_set ep ⟨MessageType.Delay, 0, (d : Int)⟩ m

/-- The delay that the endpoint `e` has reported according to the peer map of the host:
the `delay` of its entry when that entry is in state `Delay`. -/
def reported_delay (m : List (endpoint × peer_info)) (e : endpoint) : Option Int :=
  match map_find m e with
  | some pi => if pi.state = MessageType.Delay then some pi.delay else none
  | none => none

/-- The host of a three-player session in the handshake: both joiners have sent their
`Join` (the roster is `[H, A, B]`, the `Info` messages are queued), and the first joiner
has reported a delay of 4. -/
def demo_ping3 : session Nat Nat :=
  demo_create3.create_recv_run demo_chk
    [(demo_clock, 0, demo_A, demo_join), (demo_clock, 0, demo_B, demo_join),
     (demo_clock, 0, demo_A, demo_delay 4)]

/-- Two `Frame` messages of side 1 whose ids, as `int64_t` values, are -3 and 5 (ids
that the 24-bit wire form cannot carry, but that `recv_hdl` accepts). -/
def demo_frames_negative : List (endpoint × message Nat Nat) :=
  [(⟨2, 7000⟩, { (message.ctor MessageType.Frame : message Nat Nat) with
      side := 1, frame_id := -3 }),
   (⟨2, 7000⟩, { (message.ctor MessageType.Frame : message Nat Nat) with
      side := 1, frame_id := 5 })]

/-- Every field of the message holds a value of its C++ type, `cmd` is one of the
eleven kinds and `side` fits its three bits. -/
def message.in_range {T S : Type} (m : message T S) : Prop :=
  m.cmd ≤ 10 ∧ m.side < 8 ∧
  (-(2 : Int) ^ 63 ≤ m.frame_id ∧ m.frame_id < (2 : Int) ^ 63) ∧
  (m.host_ep.addr < 2 ^ 32 ∧ m.host_ep.port < 2 ^ 16) ∧
  m.rand_seed < 2 ^ 32 ∧ m.delay < 256 ∧ m.peers_needed < 256 ∧ m.peers_count < 256 ∧
  (m.data.data_length < 2 ^ 32 ∧ m.data.data_length ≤ m.data.p.length) ∧
  m.username.length < 2 ^ 32 ∧
  m.eps.length < 2 ^ 32 ∧
  (∀ e ∈ m.eps, e.addr < 2 ^ 32 ∧ e.port < 2 ^ 16) ∧
  (∀ u ∈ m.usernames, u.length < 2 ^ 32)

/-- A default constructed `message`: the containers are empty, the scalar fields hold
whatever they hold. -/
def message.fresh {T S : Type} (m : message T S) : Prop :=
  m.eps = [] ∧ m.usernames = [] ∧ m.username = []

/-! ## Second part: shutdown, the side channels and the handshake -/

/-- The method `session::shutdown`: `_shutdown = true; clear(); _frame_cond.notify_all();
_connection_sem.post();`.  None of its statements throws. -/
def session.shutdown (s : session F S) : outcome Unit × session F S :=
  let s1 : session F S := session.clear { s with _shutdown := true }
  (outcome.ret (), { s1 with _connection_sem := semaphore_post s1._connection_sem })

/-- A `Frame` message of side 2 whose `frame_id` is -1. -/
def demo_frame_minus_one : message (Fin 256) (Fin 256) :=
  { (message.ctor MessageType.Frame : message (Fin 256) (Fin 256)) with
    frame_id := -1, side := 2, frame := 7 }

/-- A `Frame` message that carries the side of the host. -/
def demo_own_frame : message Nat Nat :=
  { (message.ctor MessageType.Frame : message Nat Nat) with frame_id := 9, frame := 90 }

/-- A `Data` message of side 1: the blob `[1, 2]` with index 3, and 7 in the `state`
field. -/
def demo_data_msg : message (Fin 256) (Fin 256) :=
  { (message.ctor MessageType.Data : message (Fin 256) (Fin 256)) with
    frame_id := 3, side := 1, data := ⟨[1, 2], 2⟩, state := 7 }

/-- The bytes of `demo_data_msg` in the wire form of the table of message kinds: the
header byte, the `int64` index, the `u32` length and the two raw bytes. -/
def demo_data_wire : List Nat := [34, 3, 0, 0, 0, 0, 0, 0, 0, 2, 0, 0, 0, 1, 2]

/-- The method `session::delay(int d)`: `_delay = d`. -/
def session.delay (s : session F S) (d : Int) : session F S :=
  { s with _delay := d }

/-- The first joiner (side 1) of the three-player session of `demo_host3`, whose local
delay has been set to 5. -/
def demo_joiner3 : session Nat Nat :=
  ({ demo_host3 with _side := 1 } : session Nat Nat).delay 5

/-- A sequence of messages handled by `join_recv_handler`, one after the other,
stopping at the first call that does not return. -/
def session.join_recv_run [Inhabited F] [Inhabited S] (chk : S → S → Bool)
    (s : session F S) : List (endpoint × message F S) → outcome Unit × session F S
  | [] => (outcome.ret (), s)
  | (ep, msg) :: rest =>
    match s.join_recv_handler chk ep msg with
    | (outcome.ret _, s1) => s1.join_recv_run chk rest
    | r => r

/-- A joiner that the host `demo_H` has denied. -/
def demo_denied : session Nat Nat :=
  { (session.ctor : session Nat Nat) with
    _host_ep := demo_H, _current_state := MessageType.Deny, _connection_sem := 1 }

/-- A message of kind `Deny` carrying state 1. -/
def demo_deny : message Nat Nat :=
  { (message.ctor MessageType.Deny : message Nat Nat) with state := 1 }

/-- The polling loop at the end of `create_handler`:
`while(true) { if(timeout > 0 && (time_ms() - start_time > timeout)) return false;
if(check_peers_readiness()) return true; sleep(50); }`.  `time_ms k` is the clock reading
of round `k` (`msec` is declared outside these files and is taken as `uint64_t`, like
`peer_info::time`), `unacked k` the value that `send()` returns in round `k`; a loop
still polling after `fuel` rounds is reported as `blocks`. -/
def create_poll (timeout : Int) (start_time : Nat) (time_ms : Nat → Nat)
    (unacked : Nat → Int) : Nat → Nat → session F S → outcome Bool × session F S
  | 0, _, s => (outcome.blocks, s)
  | fuel + 1, k, s =>
    if 0 < timeout ∧
        timeout < (((time_ms k % 2 ^ 64 + 2 ^ 64 - start_time % 2 ^ 64) % 2 ^ 64 : Nat) : Int)
    then (outcome.ret false, s)
    else if unacked k = 0 then (outcome.ret true, s.send)
    else create_poll timeout start_time time_ms unacked fuel (k + 1) s.send

/-- The method `create_handler` from its wait on `_connection_sem` on, run at a moment
after which no other thread posts the semaphore: with a count of zero the timed wait
ends at the timeout (`timeout != 0`) and the plain wait never ends; otherwise the count
is decremented, `if(_current_state != MessageType::Ready) return false;`, and the
polling loop follows. -/
def session.create_handler_wake (s : session F S) (timeout : Int) (start_time : Nat)
    (time_ms : Nat → Nat) (unacked : Nat → Int) (fuel : Nat) : outcome Bool × session F S :=
  if s._connection_sem = 0 then
    if timeout ≠ 0 then (outcome.ret false, s) else (outcome.blocks, s)
  else
    let s1 : session F S := { s with _connection_sem := s._connection_sem - 1 }
    if s1._current_state ≠ MessageType.Ready then (outcome.ret false, s1)
    else create_poll timeout start_time time_ms unacked fuel 0 s1

/-- The end of `session::create`, given how `create_handler` ended:
`if(create_handler(players, timeout) && _current_state != MessageType::None)
connection_established(); else { connected = false; _current_state = MessageType::None; }
return connected;`. -/
def session.create_end (r : outcome Bool × session F S) : outcome Bool × session F S :=
  match r with
  | (outcome.ret true, s) =>
    if s._current_state ≠ MessageType.None then (outcome.ret true, s.connection_established)
    else (outcome.ret false, { s with _current_state := MessageType.None })
  | (outcome.ret false, s) => (outcome.ret false, { s with _current_state := MessageType.None })
  | r => r

/-- The host of a two-player session that has reached `Ready`: the joiner `demo_A` has
sent its `Join` and then reported a delay of 4. -/
def demo_ready2 : session Nat Nat :=
  demo_create2.create_recv_run demo_chk
    [(demo_clock, 0, demo_A, demo_join), (demo_clock, 0, demo_A, demo_delay 4)]

/-- A `Join` message whose state, 1, differs from the state 0 of the host. -/
def demo_join_other : message Nat Nat :=
  { demo_join with state := 1 }

/-- The keys of the peer map whose entry is a `Join` less than 1000 ms old, in key
order; the entry at position `i` of the list is judged at the clock reading
`time_ms (j + i)` (`uint64_t` subtraction). -/
def fresh_joins (time_ms : Nat → Nat) : Nat → List (endpoint × peer_info) → List endpoint
  | _, [] => []
  | j, (k, pi) :: rest =>
    if (time_ms j % 2 ^ 64 + 2 ^ 64 - pi.time % 2 ^ 64) % 2 ^ 64 < 1000
        ∧ pi.state = MessageType.Join then k :: fresh_joins time_ms (j + 1) rest
    else fresh_joins time_ms (j + 1) rest

/-- The `Data` message that `queue_data` builds for the blob `b` when the data index is
`idx`: `message_type msg(MessageType::Data); msg.data = data; msg.frame_id = _data_index++;`.
The method assigns nothing else: `side` in particular is as the constructor left it. -/
def data_msg [Inhabited F] [Inhabited S] (idx : Int) (b : message_data) : message F S :=
  { (message.ctor MessageType.Data : message F S) with data := b, frame_id := idx }

/-- The `Data` message that `queue_data` builds for the blob `[1, 2]` at data index 0, as
it reaches a peer when the `side` field, which `queue_data` never assigns, holds `sd`. -/
def demo_data_arriving (sd : Nat) : message Nat Nat :=
  { (data_msg 0 ⟨[1, 2], 2⟩ : message Nat Nat) with side := sd }

/-! ## Third part: routing, the frame table over time, the end of a session -/

/-- The start of `session::join` up to the first `Join` that `join_handler` sends:
`_shutdown = false`, `try_prepare()`, `_state = state`, and `_host_ep = host_ep` as the
first statement of `join_handler`. -/
def session.join_begin (s : session F S) (host_ep : endpoint) (state : S) : session F S :=
  let s1 : session F S := session.clear { s with _shutdown := false }
  { s1 with _state := state, _host_ep := host_ep }

/-- The value that `session::send()` returns, computed by its loop from index `i` on
with `n` accumulated so far: `break` at `i == 1` on a joiner, `continue` at
`i == _side`, else `n += send(_eps[i])`.  `sent i` is the value that the call
`send(_eps[i])` hands back from the transport, which is outside these files; the `int`
additions are taken as exact. -/
def send_count (side : Int) (sent : Nat → Int) : Nat → List endpoint → Int → Int
  | _, [], n => n
  | i, _ :: rest, n =>
    if i = 1 ∧ side ≠ 0 then n
    else if (i : Int) = side then send_count side sent (i + 1) rest n
    else send_count side sent (i + 1) rest (n + sent i)

/-- The operations on a session that do not begin with `clear()` (as `shutdown`,
`create` and `join` do): the calls of the simulator and `recv_hdl`, the receive handler
of a connected session. -/
inductive session_op (F S : Type) where
  | set (frame : F)
  | get (side : Int) (f : F) (frame : Int) (timeout : Int)
  | get_data (side : Int) (data : message_data) (timeout : Int)
  | queue_data (data : message_data)
  | reannounce_delay
  | clear_queue
  | send_end_session_request
  | next_frame
  | delay (d : Int)
  | send
  | recv_hdl (ep : endpoint) (msg : message F S)

/-- The session as one operation leaves it, however the call ended. -/
def session.after [Inhabited F] [Inhabited S] (s : session F S) :
    session_op F S → session F S
  | session_op.set frame => (s.set frame).2
  | session_op.get side f frame timeout => (s.get side f frame timeout).s
  | session_op.get_data side data timeout => (s.get_data side data timeout).s
  | session_op.queue_data data => (s.queue_data data).2
  | session_op.reannounce_delay => s.reannounce_delay.2
  | session_op.clear_queue => s.clear_queue.2
  | session_op.send_end_session_request => s.send_end_session_request.2
  | session_op.next_frame => s.next_frame
  | session_op.delay d => s.delay d
  | session_op.send => s.send
  | session_op.recv_hdl ep msg => (s.recv_hdl ep msg).2

/-- The session after a sequence of operations, one after the other. -/
def session.after_all [Inhabited F] [Inhabited S] (s : session F S)
    (ops : List (session_op F S)) : session F S :=
  ops.foldl session.after s

/-- An `EndSession` message that carries side 1. -/
def demo_end_session : message Nat Nat :=
  { (message.ctor MessageType.EndSession : message Nat Nat) with side := 1 }

/-- The calls `get(side, f, n, timeout)` for `n = first, first + 1, ...`, `count` of
them in a row, each with a caller's object holding `f0`; returns how each call ended,
what it left in `f` and whether it had to wait. -/
def session.get_run [Inhabited F] (s : session F S) (side : Int) (f0 : F) (timeout : Int) :
    Int → Nat → List (outcome Bool × F × Bool) × session F S
  | _, 0 => ([], s)
  | n, count + 1 =>
    let r := s.get side f0 n timeout
    let t := r.s.get_run side f0 timeout (n + 1) count
    ((r.result, r.out, r.waited) :: t.1, t.2)

/-- The host of the two-player session with delay 3 after its simulator has published
the frames 10, 11, 12 and 13 at the ticks 0, 1, 2 and 3: they sit in row 0 of its frame
table under the keys 1, 2, 3 and 4. -/
def demo_host_ticks : session Nat Nat :=
  ({ demo_host with _frame := 0 } : session Nat Nat).after_all
    [session_op.set 10, session_op.next_frame, session_op.set 11, session_op.next_frame,
     session_op.set 12, session_op.next_frame, session_op.set 13]

/-- The loop of the simulator, `set(frame); get(_side, f, _frame, timeout); next_frame();`,
run one tick for each frame of a list, with a caller's object holding `f0` at every
`get`.  Returns how each `get` ended, what it left in `f` and whether it had to wait;
the run stops at a call that throws, is undefined or never returns. -/
def session.lockstep_run [Inhabited F] [Inhabited S] (s : session F S) (f0 : F)
    (timeout : Int) : List F → List (outcome Bool × F × Bool) × session F S
  | [] => ([], s)
  | frame :: rest =>
    match s.set frame with
    | (outcome.ret _, s1) =>
      let r := s1.get s1._side f0 s1._frame timeout
      match r.result with
      | outcome.ret b =>
        let t := r.s.next_frame.lockstep_run f0 timeout rest
        ((outcome.ret b, r.out, r.waited) :: t.1, t.2)
      | o => ([(o, r.out, r.waited)], r.s)
    | (outcome.threw what, s1) => ([(outcome.threw what, f0, false)], s1)
    | (outcome.undefined, s1) => ([(outcome.undefined, f0, false)], s1)
    | (outcome.blocks, s1) => ([(outcome.blocks, f0, false)], s1)

/-! ## Theorems -/

theorem get_le_put_le (w x : Nat) (rest : List Nat) (h : x < 256 ^ w) :
    get_le w (put_le w x ++ rest) = some (x, rest) := by
  induction w generalizing x with
  | zero =>
    have : x = 0 := by simpa using h
    simp [get_le, put_le, this]
  | succ w ih =>
    have hx : x / 256 < 256 ^ w := by
      rw [Nat.div_lt_iff_lt_mul (by norm_num)]
      calc x < 256 ^ (w + 1) := h
        _ = 256 ^ w * 256 := by ring
    show get_le (w + 1) ((x % 256) :: (put_le w (x / 256) ++ rest)) = some (x, rest)
    have : x % 256 % 256 + 256 * (x / 256) = x := by omega
    simp only [get_le, ih _ hx, this]

theorem read_raw_append (u rest : List Nat) :
    read_raw u.length (u ++ rest) = some (u, rest) := by
  simp [read_raw]

theorem get_i64_put_i64 (x : Int) (rest : List Nat)
    (h : -(2 : Int) ^ 63 ≤ x ∧ x < (2 : Int) ^ 63) :
    get_i64 (put_i64 x ++ rest) = some (x, rest) := by
  have hlt : (x % (2 : Int) ^ 64).toNat < 256 ^ 8 := by
    have h1 : x % (2 : Int) ^ 64 < (2 : Int) ^ 64 := Int.emod_lt_of_pos _ (by norm_num)
    have h0 : 0 ≤ x % (2 : Int) ^ 64 := Int.emod_nonneg _ (by norm_num)
    omega
  simp only [get_i64, put_i64, get_le_put_le _ _ _ hlt]
  have h0 : 0 ≤ x % (2 : Int) ^ 64 := Int.emod_nonneg _ (by norm_num)
  have hcast : (((x % (2 : Int) ^ 64).toNat : Nat) : Int) = x % (2 : Int) ^ 64 :=
    Int.toNat_of_nonneg h0
  by_cases hx : 0 ≤ x
  · have e : x % (2 : Int) ^ 64 = x := Int.emod_eq_of_lt hx (by omega)
    have : (x % (2 : Int) ^ 64).toNat < 2 ^ 63 := by omega
    rw [if_pos this, hcast, e]
  · have e : x % (2 : Int) ^ 64 = x + (2 : Int) ^ 64 := by
      rw [← Int.add_emod_self]
      exact Int.emod_eq_of_lt (by omega) (by omega)
    have : ¬ (x % (2 : Int) ^ 64).toNat < 2 ^ 63 := by omega
    rw [if_neg this, hcast, e]
    congr 2; ring

theorem header_byte_decode (cmd side : Nat) (hc : cmd ≤ 10) (hs : side < 8) :
    header_byte cmd side < 256 ∧ header_byte cmd side &&& 0x1F = cmd ∧
      header_byte cmd side >>> 5 = side := by
  interval_cases cmd <;> interval_cases side <;> decide

theorem frame_id_parts (x : Int) :
    ((((x % 256).toNat % 256) ||| ((((x / 2 ^ 8) % 256).toNat % 256) <<< 8)
      ||| ((((x / 2 ^ 16) % 256).toNat % 256) <<< 16) : Nat) : Int) = x % 2 ^ 24 := by
  have ha0 : 0 ≤ x % 256 := Int.emod_nonneg _ (by norm_num)
  have hb0 : 0 ≤ (x / 2 ^ 8) % 256 := Int.emod_nonneg _ (by norm_num)
  have hc0 : 0 ≤ (x / 2 ^ 16) % 256 := Int.emod_nonneg _ (by norm_num)
  have ha1 : x % 256 < 256 := Int.emod_lt_of_pos _ (by norm_num)
  have hb1 : (x / 2 ^ 8) % 256 < 256 := Int.emod_lt_of_pos _ (by norm_num)
  have hc1 : (x / 2 ^ 16) % 256 < 256 := Int.emod_lt_of_pos _ (by norm_num)
  obtain ⟨a, ha⟩ : ∃ a : Nat, (x % 256).toNat = a := ⟨_, rfl⟩
  obtain ⟨b, hb⟩ : ∃ b : Nat, ((x / 2 ^ 8) % 256).toNat = b := ⟨_, rfl⟩
  obtain ⟨c, hc⟩ : ∃ c : Nat, ((x / 2 ^ 16) % 256).toNat = c := ⟨_, rfl⟩
  have hai : (a : Int) = x % 256 := by rw [← ha]; exact Int.toNat_of_nonneg ha0
  have hbi : (b : Int) = (x / 2 ^ 8) % 256 := by rw [← hb]; exact Int.toNat_of_nonneg hb0
  have hci : (c : Int) = (x / 2 ^ 16) % 256 := by rw [← hc]; exact Int.toNat_of_nonneg hc0
  rw [ha, hb, hc]
  have hal : a < 256 := by omega
  have hbl : b < 256 := by omega
  have hcl : c < 256 := by omega
  rw [Nat.mod_eq_of_lt hal, Nat.mod_eq_of_lt hbl, Nat.mod_eq_of_lt hcl]
  have e1 : a ||| (b <<< 8) = 2 ^ 8 * b + a := by
    rw [Nat.mul_add_lt_is_or (by omega : a < 2 ^ 8) b, Nat.or_comm, Nat.shiftLeft_eq,
      Nat.mul_comm]
  have e2 : (2 ^ 8 * b + a) ||| (c <<< 16) = 2 ^ 16 * c + (2 ^ 8 * b + a) := by
    rw [Nat.mul_add_lt_is_or (by omega : 2 ^ 8 * b + a < 2 ^ 16) c, Nat.or_comm,
      Nat.shiftLeft_eq, Nat.mul_comm]
  rw [e1, e2]
  push_cast
  rw [hai, hbi, hci]
  norm_num
  omega

theorem serialize_eps_round_trip (eps : List endpoint) (us : List (List Nat))
    (rest : List Nat) (hlen : eps.length = us.length)
    (he : ∀ e ∈ eps, e.addr < 2 ^ 32 ∧ e.port < 2 ^ 16)
    (hu : ∀ u ∈ us, u.length < 2 ^ 32) :
    ∃ body, serialize_eps eps us = some body ∧
      deserialize_eps eps.length (body ++ rest) = some ((eps, us), rest) := by
  induction eps generalizing us with
  | nil =>
    cases us with
    | nil => exact ⟨[], rfl, rfl⟩
    | cons u us => simp at hlen
  | cons e es ih =>
    cases us with
    | nil => simp at hlen
    | cons u us =>
      have hlen2 : es.length = us.length := by simpa using hlen
      obtain ⟨tl, h1, h2⟩ := ih us hlen2 (fun x hx => he x (List.mem_cons_of_mem _ hx))
        (fun x hx => hu x (List.mem_cons_of_mem _ hx))
      have hea := he e (List.mem_cons_self _ _)
      have hul := hu u (List.mem_cons_self _ _)
      refine ⟨put_le 4 e.addr ++ put_le 2 e.port ++ put_string u ++ tl, by simp [serialize_eps, h1], ?_⟩
      have ha : e.addr < 256 ^ 4 := by omega
      have hp : e.port < 256 ^ 2 := by omega
      have hl : u.length < 256 ^ SIZE_T_BYTES := by simp only [SIZE_T_BYTES]; omega
      simp only [List.length_cons, deserialize_eps, put_string, List.append_assoc,
        get_le_put_le _ _ _ ha, get_le_put_le _ _ _ hp, get_le_put_le _ _ _ hl,
        read_raw_append, h2]

theorem get_le_one (b : Nat) (bs : List Nat) : get_le 1 (b :: bs) = some (b % 256, bs) := by
  simp [get_le]

/-- C1: codec round trip.  For every kind `cmd ∈ 0..10`, every `side ∈ 0..7`, every
message whose fields hold values of their C++ types (for `Frame` with
`frame_id ∈ 0..2^24-1`, for `Info` with as many `usernames` as `eps`), `serialize`
succeeds, and `deserialize` run on a fresh message over the written bytes followed by any
`rest` returns exactly `rest` (it consumes the bytes written and no more) and a message
with the same `cmd`, the same `side` and the same value of every field the kind
writes. -/
theorem codec_round_trip {T S : Type} (fc : archive_ops T) (sc : archive_ops S)
    (hfc : fc.lawful) (hsc : sc.lawful) (m m0 : message T S) (rest : List Nat)
    (hr : m.in_range) (h0 : m0.fresh)
    (hframe : m.cmd = MessageType.Frame → 0 ≤ m.frame_id ∧ m.frame_id < 2 ^ 24)
    (hinfo : m.cmd = MessageType.Info → m.eps.length = m.usernames.length) :
    ∃ bytes m', m.serialize fc sc = some bytes ∧
      message.deserialize fc sc m0 (bytes ++ rest) = some (m', rest) ∧
      m'.cmd = m.cmd ∧ m'.side = m.side ∧
      (m.cmd = MessageType.Frame → m'.frame_id = m.frame_id ∧ m'.frame = m.frame) ∧
      (m.cmd = MessageType.Data → m'.frame_id = m.frame_id ∧
        m'.data = ⟨m.data.p.take m.data.data_length, m.data.data_length⟩ ∧
        m'.state = m.state) ∧
      (m.cmd = MessageType.Join → m'.state = m.state ∧ m'.host_ep = m.host_ep ∧
        m'.username = m.username) ∧
      (m.cmd = MessageType.Deny → m'.state = m.state) ∧
      (m.cmd = MessageType.Info → m'.rand_seed = m.rand_seed ∧ m'.eps = m.eps ∧
        m'.usernames = m.usernames ∧ m'.state = m.state) ∧
      (m.cmd = MessageType.Wait → m'.peers_needed = m.peers_needed ∧
        m'.peers_count = m.peers_count) ∧
      (m.cmd = MessageType.Delay → m'.delay = m.delay) := by
  obtain ⟨cmd, state, frame_id, eps, usernames, host_ep, rand_seed, delay, side,
    peers_needed, peers_count, frame, data, username⟩ := m
  obtain ⟨hc, hs, hfid, ⟨had, hpo⟩, hrs, hdl, hpn, hpc, ⟨hdl1, hdl2⟩, hul, hel, hes, hus⟩ := hr
  obtain ⟨e0, u0, n0⟩ := h0
  simp only at hc hs hfid had hpo hrs hdl hpn hpc hdl1 hdl2 hul hel hes hus hframe hinfo
  obtain ⟨hb1, hb2, hb3⟩ := header_byte_decode cmd side hc hs
  have hhdr : ∀ tl : List Nat, get_le 1 (header_byte cmd side :: tl) =
      some (header_byte cmd side, tl) := by
    intro tl; rw [get_le_one, Nat.mod_eq_of_lt hb1]
  have hws : ∀ x : S, ∀ tl : List Nat, sc.get (sc.put x ++ tl) = some (x, tl) := hsc
  have hwf : ∀ x : T, ∀ tl : List Nat, fc.get (fc.put x ++ tl) = some (x, tl) := hfc
  have h4 : ∀ x : Nat, ∀ tl : List Nat, x < 2 ^ 32 →
      get_le 4 (put_le 4 x ++ tl) = some (x, tl) :=
    fun x tl h => get_le_put_le 4 x tl (by omega)
  have hsz : ∀ x : Nat, ∀ tl : List Nat, x < 2 ^ 32 →
      get_le SIZE_T_BYTES (put_le SIZE_T_BYTES x ++ tl) = some (x, tl) :=
    fun x tl h => get_le_put_le _ x tl (by simp only [SIZE_T_BYTES]; omega)
  have h2 : ∀ x : Nat, ∀ tl : List Nat, x < 2 ^ 16 →
      get_le 2 (put_le 2 x ++ tl) = some (x, tl) :=
    fun x tl h => get_le_put_le 2 x tl (by omega)
  have h1 : ∀ x : Nat, ∀ tl : List Nat, x < 256 →
      get_le 1 (put_le 1 x ++ tl) = some (x, tl) :=
    fun x tl h => get_le_put_le 1 x tl (by omega)
  have hwr : write_raw data.p data.data_length = some (data.p.take data.data_length) := by
    simp [write_raw, hdl2]
  have hrr : ∀ tl : List Nat, read_raw data.data_length
      (data.p.take data.data_length ++ tl) = some (data.p.take data.data_length, tl) := by
    intro tl
    have := read_raw_append (data.p.take data.data_length) tl
    rwa [List.length_take, Nat.min_eq_left hdl2] at this
  have k1 := fun tl => h4 host_ep.addr tl had
  have k2 := fun tl => h2 host_ep.port tl hpo
  have k3 := fun tl => hsz username.length tl hul
  have k4 := fun tl => get_i64_put_i64 frame_id tl hfid
  have k5 := fun tl => h4 data.data_length tl hdl1
  have k6 := fun tl => h4 rand_seed tl hrs
  have k7 := fun tl => h1 side tl (by omega)
  have k8 := fun tl => hsz eps.length tl hel
  have k9 := fun tl => h1 peers_needed tl hpn
  have k10 := fun tl => h1 peers_count tl hpc
  have k11 := fun tl => h1 delay tl hdl
  have hinf : cmd = 6 → ∃ body, serialize_eps eps usernames = some body ∧
      deserialize_eps eps.length (body ++ (sc.put state ++ rest)) =
        some ((eps, usernames), sc.put state ++ rest) := fun h =>
    serialize_eps_round_trip eps usernames _ (hinfo h) hes hus
  have hfr : cmd = 1 → ((((frame_id % 256).toNat % 256) |||
      ((((frame_id / 256) % 256).toNat % 256) <<< 8) |||
      ((((frame_id / 65536) % 256).toNat % 256) <<< 16) : Nat) : Int) = frame_id := by
    intro h
    have := frame_id_parts frame_id
    norm_num at this
    rw [this]
    have := hframe h
    omega
  interval_cases cmd
  · simp [message.serialize, message.deserialize, MessageType.None, MessageType.Frame,
      MessageType.Data, MessageType.Ping, MessageType.Join, MessageType.Deny,
      MessageType.Info, MessageType.Wait, MessageType.Delay, MessageType.Ready,
      MessageType.EndSession, hhdr, hb2, hb3]
  · have := hfr rfl
    simp [message.serialize, message.deserialize, MessageType.None, MessageType.Frame,
      MessageType.Data, MessageType.Ping, MessageType.Join, MessageType.Deny,
      MessageType.Info, MessageType.Wait, MessageType.Delay, MessageType.Ready,
      MessageType.EndSession, hhdr, hb2, hb3, hwf, put_le, get_le_one, this]
  · simp [message.serialize, message.deserialize, MessageType.None, MessageType.Frame,
      MessageType.Data, MessageType.Ping, MessageType.Join, MessageType.Deny,
      MessageType.Info, MessageType.Wait, MessageType.Delay, MessageType.Ready,
      MessageType.EndSession, hhdr, hb2, hb3, hws, hwr, hrr, k4, k5]
  · simp [message.serialize, message.deserialize, MessageType.None, MessageType.Frame,
      MessageType.Data, MessageType.Ping, MessageType.Join, MessageType.Deny,
      MessageType.Info, MessageType.Wait, MessageType.Delay, MessageType.Ready,
      MessageType.EndSession, hhdr, hb2, hb3]
  · have hj : ∃ x, (if 0 < username.length then
          some (({ m0 with cmd := 4, side := side, state := state, host_ep := host_ep,
                           username := username } : message T S), rest)
        else
          some (({ m0 with cmd := 4, side := side, state := state, host_ep := host_ep }
            : message T S), username ++ rest)) = some (x, rest) ∧
        x.cmd = 4 ∧ x.side = side ∧ x.state = state ∧ x.host_ep = host_ep ∧
          x.username = username := by
      cases username with
      | nil => simp [n0]
      | cons c cs => simp
    simpa [message.serialize, message.deserialize, MessageType.None, MessageType.Frame,
      MessageType.Data, MessageType.Ping, MessageType.Join, MessageType.Deny,
      MessageType.Info, MessageType.Wait, MessageType.Delay, MessageType.Ready,
      MessageType.EndSession, hhdr, hb2, hb3, hws, k1, k2, k3, put_string, read_raw_append]
      using hj
  · simp [message.serialize, message.deserialize, MessageType.None, MessageType.Frame,
      MessageType.Data, MessageType.Ping, MessageType.Join, MessageType.Deny,
      MessageType.Info, MessageType.Wait, MessageType.Delay, MessageType.Ready,
      MessageType.EndSession, hhdr, hb2, hb3, hws]
  · obtain ⟨body, hb, hd⟩ := hinf rfl
    simp [message.serialize, message.deserialize, MessageType.None, MessageType.Frame,
      MessageType.Data, MessageType.Ping, MessageType.Join, MessageType.Deny,
      MessageType.Info, MessageType.Wait, MessageType.Delay, MessageType.Ready,
      MessageType.EndSession, hhdr, hb2, hb3, hws, hb, hd, k6, k7, k8, e0, u0]
  · simp [message.serialize, message.deserialize, MessageType.None, MessageType.Frame,
      MessageType.Data, MessageType.Ping, MessageType.Join, MessageType.Deny,
      MessageType.Info, MessageType.Wait, MessageType.Delay, MessageType.Ready,
      MessageType.EndSession, hhdr, hb2, hb3, k9, k10]
  · simp [message.serialize, message.deserialize, MessageType.None, MessageType.Frame,
      MessageType.Data, MessageType.Ping, MessageType.Join, MessageType.Deny,
      MessageType.Info, MessageType.Wait, MessageType.Delay, MessageType.Ready,
      MessageType.EndSession, hhdr, hb2, hb3, k11]
  · simp [message.serialize, message.deserialize, MessageType.None, MessageType.Frame,
      MessageType.Data, MessageType.Ping, MessageType.Join, MessageType.Deny,
      MessageType.Info, MessageType.Wait, MessageType.Delay, MessageType.Ready,
      MessageType.EndSession, hhdr, hb2, hb3]
  · simp [message.serialize, message.deserialize, MessageType.None, MessageType.Frame,
      MessageType.Data, MessageType.Ping, MessageType.Join, MessageType.Deny,
      MessageType.Info, MessageType.Wait, MessageType.Delay, MessageType.Ready,
      MessageType.EndSession, hhdr, hb2, hb3]

/-! ### Containers -/

theorem um_find_erase {V : Type} (m : List (Int × V)) (k k' : Int) :
    um_find (um_erase m k) k' = if k' = k then none else um_find m k' := by
  induction m with
  | nil => simp [um_erase, um_find]
  | cons kv rest ih =>
    obtain ⟨a, v⟩ := kv
    simp only [um_erase] at ih
    by_cases h1 : a = k
    · subst h1
      by_cases h2 : k' = a
      · subst h2; simpa [um_erase, um_find] using ih
      · have h3 : ¬ a = k' := fun h => h2 h.symm
        simpa [um_erase, um_find, h2, h3] using ih
    · by_cases h2 : k' = k
      · subst h2
        simpa [um_erase, um_find, h1] using ih
      · by_cases h3 : a = k'
        · simp [um_erase, um_find, h1, h2, h3]
        · simpa [um_erase, um_find, h1, h2, h3] using ih

theorem um_find_set {V : Type} (m : List (Int × V)) (k k' : Int) (v : V) :
    um_find (um_set m k v) k' = if k' = k then some v else um_find m k' := by
  by_cases h : k' = k
  · subst h; simp [um_set, um_find]
  · have h' : ¬ k = k' := fun e => h e.symm
    simp [um_set, um_find, h, h', um_find_erase]

theorem um_index_of_find {V : Type} [Inhabited V] (m : List (Int × V)) (k : Int) (v : V)
    (h : um_find m k = some v) : um_index m k = (v, m) := by
  simp [um_index, h]

theorem vec_at_set_self {α : Type} (v : List α) (i : Int) (x y : α)
    (h : vec_at v i = some y) : vec_at (vec_set v i x) i = some x := by
  unfold vec_at at h ⊢
  by_cases hi : i < 0
  · simp [hi] at h
  · simp only [hi, if_false] at h ⊢
    have hlt : i.toNat < v.length := by
      by_contra hc
      rw [List.get?_eq_none.mpr (by omega)] at h
      exact Option.noConfusion h
    simp [vec_set, List.get?_eq_getElem?, List.getElem?_set, hlt]

theorem vec_at_set_other {α : Type} (v : List α) (i j : Int) (x : α) (hi : 0 ≤ i)
    (h : j ≠ i) : vec_at (vec_set v i x) j = vec_at v j := by
  unfold vec_at
  by_cases hj : j < 0
  · simp [hj]
  · have hne : i.toNat ≠ j.toNat := by omega
    simp [hj, vec_set, List.get?_eq_getElem?, List.getElem?_set, hne]

theorem vec_set_length {α : Type} (v : List α) (i : Int) (x : α) :
    (vec_set v i x).length = v.length := by
  simp [vec_set]

theorem vec_at_nonneg {α : Type} (v : List α) (i : Int) (y : α) (h : vec_at v i = some y) :
    0 ≤ i := by
  unfold vec_at at h
  by_cases hi : i < 0
  · simp [hi] at h
  · omega

/-! ### `get` -/

/-- C2: in a connected session (`_current_state != None`), for every side, every timeout
and every frame number `n < _delay`, `get(side, f, n, timeout)` returns true without
waiting on the condition variable, and leaves the whole session (the frame table
included) and the caller's frame `f` as they were. -/
theorem get_before_delay [Inhabited F] (s : session F S) (side : Int) (f : F)
    (n timeout : Int) (hc : s._current_state ≠ MessageType.None) (hn : n < s._delay) :
    (s.get side f n timeout).result = outcome.ret true ∧
      (s.get side f n timeout).waited = false ∧
      (s.get side f n timeout).s = s ∧
      (s.get side f n timeout).out = f := by
  simp [session.get, hc, hn]

/-- C3: in a connected session, for every side and every `n >= _delay` such that the
frame table of that side holds `n`, `get(side, f, n, timeout)` returns true without
waiting, with `f` the stored entry for `n`; afterwards the table of that side is the
previous one with exactly key `n - 1` removed, the tables of the other sides and every
other member of the session are unchanged. -/
theorem get_stored_frame [Inhabited F] (s : session F S) (side : Int) (f v : F)
    (n timeout : Int) (row : List (Int × F))
    (hc : s._current_state ≠ MessageType.None) (hn : s._delay ≤ n)
    (hrow : vec_at s._frame_table side = some row) (hv : um_find row n = some v) :
    (s.get side f n timeout).result = outcome.ret true ∧
      (s.get side f n timeout).waited = false ∧
      (s.get side f n timeout).out = v ∧
      (∃ row', vec_at (s.get side f n timeout).s._frame_table side = some row' ∧
        ∀ k, um_find row' k = if k = n - 1 then none else um_find row k) ∧
      (∀ side', side' ≠ side →
        vec_at (s.get side f n timeout).s._frame_table side' = vec_at s._frame_table side') ∧
      (s.get side f n timeout).s._frame_table.length = s._frame_table.length ∧
      (s.get side f n timeout).s =
        { s with _frame_table := (s.get side f n timeout).s._frame_table } := by
  have hn' : ¬ n < s._delay := by omega
  have h0 := vec_at_nonneg _ _ _ hrow
  have hget : s.get side f n timeout =
      ⟨outcome.ret true,
        { s with _frame_table := vec_set s._frame_table side (um_erase row (n - 1)) },
        v, false⟩ := by
    simp [session.get, hc, hn', hrow, hv, um_index_of_find row n v hv]
  rw [hget]
  refine ⟨rfl, rfl, rfl, ⟨um_erase row (n - 1), ?_, ?_⟩, ?_, ?_, rfl⟩
  · exact vec_at_set_self _ _ _ _ hrow
  · intro k; exact um_find_erase row (n - 1) k
  · intro side' hs; exact vec_at_set_other _ _ _ _ h0 hs
  · exact vec_set_length _ _ _

theorem byte_ops_lawful : byte_ops.lawful := by
  intro x rest
  simp [byte_ops, Nat.mod_eq_of_lt x.isLt]

theorem codec_round_trip_witness :
    demo_frame_msg.in_range ∧ (message.ctor MessageType.None : message (Fin 256) (Fin 256)).fresh ∧
    (∃ bytes m', demo_frame_msg.serialize byte_ops byte_ops = some bytes ∧
      message.deserialize byte_ops byte_ops (message.ctor MessageType.None) (bytes ++ [9])
        = some (m', [9]) ∧
      m'.cmd = demo_frame_msg.cmd ∧ m'.side = demo_frame_msg.side ∧
      (demo_frame_msg.cmd = MessageType.Frame →
        m'.frame_id = demo_frame_msg.frame_id ∧ m'.frame = demo_frame_msg.frame)) := by
  have hr : demo_frame_msg.in_range := by
    simp [message.in_range, demo_frame_msg, message.ctor, MessageType.Frame]
  have h0 : (message.ctor MessageType.None : message (Fin 256) (Fin 256)).fresh := by
    simp [message.fresh, message.ctor]
  obtain ⟨bytes, m', h1, h2, h3, h4, h5, _⟩ :=
    codec_round_trip byte_ops byte_ops byte_ops_lawful byte_ops_lawful demo_frame_msg
      (message.ctor MessageType.None) [9] hr h0
      (by simp [demo_frame_msg, message.ctor])
      (by simp [demo_frame_msg, message.ctor, MessageType.Frame, MessageType.Info])
  exact ⟨hr, h0, bytes, m', h1, h2, h3, h4, h5⟩

theorem get_before_delay_witness :
    demo_host._current_state ≠ MessageType.None ∧ (1 : Int) < demo_host._delay ∧
      (demo_host.get 1 0 1 0).result = outcome.ret true ∧
      (demo_host.get 1 0 1 0).waited = false ∧
      (demo_host.get 1 0 1 0).s = demo_host ∧
      (demo_host.get 1 0 1 0).out = 0 :=
  ⟨by decide, by decide, get_before_delay demo_host 1 0 1 0 (by decide) (by decide)⟩

theorem get_stored_frame_witness :
    demo_host._current_state ≠ MessageType.None ∧ demo_host._delay ≤ 4 ∧
      vec_at demo_host._frame_table 1 = some [(4, 40), (3, 30)] ∧
      um_find [(4, (40 : Nat)), (3, 30)] 4 = some 40 ∧
      (demo_host.get 1 0 4 0).result = outcome.ret true ∧
      (demo_host.get 1 0 4 0).out = 40 ∧
      (demo_host.get 1 0 4 0).s._frame_table = [[], [(4, 40)], []] := by
  have h := get_stored_frame demo_host 1 0 40 4 0 [(4, 40), (3, 30)] (by decide) (by decide)
    (by decide) (by decide)
  exact ⟨by decide, by decide, by decide, by decide, h.1, h.2.2.1, by decide⟩

/-! ### Calls on the transport -/

theorem queue_calls_append {M : Type} (a b : List (transport_call M)) :
    queue_calls (a ++ b) = queue_calls a ++ queue_calls b := by
  induction a with
  | nil => rfl
  | cons c rest ih => cases c <;> simp [queue_calls, ih]

theorem queue_calls_map_queue {M : Type} (l : List endpoint) (msg : M) :
    queue_calls (l.map (fun e => transport_call.queue e msg)) = l.map (fun e => (e, msg)) := by
  induction l with
  | nil => rfl
  | cons e rest ih => simp [queue_calls, ih]

theorem send_call_def (s : session F S) :
    s.send_call = fun ep =>
      if s._packet_loss = 0 ∧ s._send_delay_max = 0 then transport_call.send ep
      else transport_call.send_artificial ep := rfl

theorem queue_calls_map_send (s : session F S) (l : List endpoint) :
    queue_calls (l.map s.send_call) = [] := by
  induction l with
  | nil => rfl
  | cons e rest ih =>
    by_cases h : s._packet_loss = 0 ∧ s._send_delay_max = 0 <;>
      simp [session.send_call, h, queue_calls] <;> simpa [session.send_call, h] using ih

theorem foldl_send_ep_eq (l : List endpoint) (s : session F S) :
    l.foldl session.send_ep s = { s with _async := s._async ++ l.map s.send_call } := by
  induction l generalizing s with
  | nil => simp
  | cons e rest ih =>
    rw [List.foldl_cons, ih]
    simp [session.send_ep, session.send_call]

theorem foldl_queue_eq (l : List endpoint) (msg : message F S) (s : session F S) :
    l.foldl (fun t e => t.queue e msg) s =
      { s with _async := s._async ++ l.map (fun e => transport_call.queue e msg) } := by
  induction l generalizing s with
  | nil => simp
  | cons e rest ih =>
    rw [List.foldl_cons, ih]
    simp [session.queue]

theorem send_eq (s : session F S) :
    s.send = { s with _async := s._async ++ (send_targets s._side 0 s._eps).map s.send_call } :=
  foldl_send_ep_eq _ s

theorem vec_at_some_of_lt {α : Type} (v : List α) (i : Int) (h0 : 0 ≤ i)
    (h1 : i < (v.length : Int)) : ∃ y, vec_at v i = some y := by
  have hlt : i.toNat < v.length := by omega
  refine ⟨v[i.toNat], ?_⟩
  have hi : ¬ i < 0 := by omega
  simp [vec_at, hi, List.get?_eq_getElem?, List.getElem?_eq_getElem hlt]

/-! ### `set` -/

theorem set_eq [Inhabited F] [Inhabited S] (s : session F S) (frame : F)
    (row : List (Int × F)) (hst : s._current_state ≠ MessageType.None)
    (hrow : vec_at s._frame_table s._side = some row)
    (hne : s._side ≠ 0 → s._eps ≠ []) :
    ∃ msg tail, s.set frame = (outcome.ret (),
        { s with
          _frame_table := vec_set s._frame_table s._side
            (um_set row (if s._side = 0 then s._frame + 1 else s._frame + s._delay) frame),
          _async := s._async ++ tail }) ∧
      msg.cmd = MessageType.Frame ∧
      msg.frame_id = (if s._side = 0 then s._frame + 1 else s._frame + s._delay) ∧
      msg.side = (s._side % 256).toNat ∧ msg.frame = frame ∧
      queue_calls tail =
        (if s._side ≠ 0 then s._eps.take 1 else s._eps.drop 1).map (fun e => (e, msg)) := by
  refine ⟨{ (message.ctor MessageType.Frame : message F S) with
            frame_id := (if s._side = 0 then s._frame + 1 else s._frame + s._delay),
            frame := frame, side := (s._side % 256).toNat },
    (if s._side ≠ 0 then s._eps.take 1 else s._eps.drop 1).map
        (fun e => transport_call.queue e
          { (message.ctor MessageType.Frame : message F S) with
            frame_id := (if s._side = 0 then s._frame + 1 else s._frame + s._delay),
            frame := frame, side := (s._side % 256).toNat })
      ++ (send_targets s._side 0 s._eps).map s.send_call,
    ?_, rfl, rfl, rfl, rfl, ?_⟩
  · by_cases hz : s._side = 0
    · rw [hz] at hrow
      simp [session.set, hst, NETPLAY_DELAY_SERVER, hz, hrow, session.queue_message, send_eq,
        send_call_def]
    · obtain ⟨e0, rest, he⟩ : ∃ e0 rest, s._eps = e0 :: rest := by
        cases h : s._eps with
        | nil => exact absurd h (hne hz)
        | cons e0 rest => exact ⟨e0, rest, rfl⟩
      simp [session.set, hst, NETPLAY_DELAY_SERVER, hz, hrow, session.queue_message, send_eq,
        send_call_def, he]
  · rw [queue_calls_append, queue_calls_map_queue, queue_calls_map_send, List.append_nil]

/-- C4: in a connected session `set(frame)` returns normally, stores the frame in the
table of the local side at key `_frame + 1` on the host (`_side == 0`) and at key
`_frame + _delay` on a joiner, leaves the other keys, the other sides and the tick counter
`_frame` as they were, and queues one `Frame` message, carrying that key as `frame_id`,
the local side and the frame, to every recipient (`_eps[0]` on a joiner, `_eps[1..]` on
the host). -/
theorem set_stores_and_queues [Inhabited F] [Inhabited S] (s : session F S) (frame : F)
    (hc : s.connected) :
    (s.set frame).1 = outcome.ret () ∧
    (s.set frame).2._frame = s._frame ∧
    (∃ row row', vec_at s._frame_table s._side = some row ∧
      vec_at (s.set frame).2._frame_table s._side = some row' ∧
      ∀ k, um_find row' k =
        if k = (if s._side = 0 then s._frame + 1 else s._frame + s._delay) then some frame
        else um_find row k) ∧
    (∀ side', side' ≠ s._side →
      vec_at (s.set frame).2._frame_table side' = vec_at s._frame_table side') ∧
    (∃ msg tail, (s.set frame).2._async = s._async ++ tail ∧
      msg.cmd = MessageType.Frame ∧
      msg.frame_id = (if s._side = 0 then s._frame + 1 else s._frame + s._delay) ∧
      (msg.side : Int) = s._side ∧ msg.frame = frame ∧
      queue_calls tail =
        (if s._side ≠ 0 then s._eps.take 1 else s._eps.drop 1).map (fun e => (e, msg))) ∧
    (s.set frame).2 = { s with _frame_table := (s.set frame).2._frame_table,
                               _async := (s.set frame).2._async } := by
  obtain ⟨hst, hft, _, hs0, hs1, hs8⟩ := hc
  obtain ⟨row, hrow⟩ := vec_at_some_of_lt s._frame_table s._side hs0 (by omega)
  have hside : ((s._side % 256).toNat : Int) = s._side := by omega
  have hne : s._side ≠ 0 → s._eps ≠ [] := by
    intro _ h
    rw [h] at hs1
    simp at hs1
    omega
  obtain ⟨msg, tail, hset, h1, h2, h3, h4, h5⟩ := set_eq s frame row hst hrow hne
  rw [hset]
  refine ⟨rfl, rfl, ⟨row, _, hrow, vec_at_set_self _ _ _ _ hrow, ?_⟩, ?_, ?_, rfl⟩
  · intro k; exact um_find_set _ _ _ _
  · intro side' hne'; exact vec_at_set_other _ _ _ _ hs0 hne'
  · exact ⟨msg, tail, rfl, h1, h2, by rw [h3]; exact hside, h4, h5⟩

theorem set_stores_and_queues_witness :
    demo_joiner.connected ∧ (demo_joiner.set 5).1 = outcome.ret () ∧
      (demo_joiner.set 5).2._frame = 3 ∧
      vec_at (demo_joiner.set 5).2._frame_table 1 = some [(6, 5)] := by
  have hc : demo_joiner.connected := by
    unfold session.connected
    decide
  have h := set_stores_and_queues demo_joiner 5 hc
  exact ⟨hc, h.1, h.2.1, by decide⟩

/-! ### `recv_hdl` -/

theorem queue_calls_send_call (s : session F S) (ep : endpoint) :
    queue_calls [s.send_call ep] = [] :=
  queue_calls_map_send s [ep]

theorem echo_loop_queue_calls (side : Int) (msg : message F S) (i : Nat) (l : List endpoint)
    (s : session F S) :
    queue_calls (echo_loop side msg i l s)._async =
      queue_calls s._async ++
        ((l.enumFrom i).filter (fun p => decide ((p.1 : Int) ≠ side))).map
          (fun p => (p.2, msg)) := by
  induction l generalizing i s with
  | nil => simp [echo_loop]
  | cons e rest ih =>
    by_cases h : (i : Int) = side
    · simp [echo_loop, h, ih]
    · simp [echo_loop, h, ih, session.queue, session.send_ep, queue_calls_append,
        queue_calls, queue_calls_send_call]

theorem recv_frame_async (s : session F S) (side : Int) (msg : message F S) :
    (s.recv_frame side msg).2._async = s._async := by
  unfold session.recv_frame
  by_cases h : msg.cmd = MessageType.Frame
  · simp only [h, if_true]
    cases vec_at s._frame_table side <;> rfl
  · simp only [h, if_false]

theorem recv_data_queue_calls (s : session F S) (ep : endpoint) (side : Int)
    (msg : message F S) :
    queue_calls (s.recv_data ep side msg).2._async = queue_calls s._async := by
  unfold session.recv_data
  by_cases h : msg.cmd = MessageType.Data
  · simp only [h, if_true]
    cases vec_at s._data_table side with
    | none => rfl
    | some row =>
      by_cases hc : s._side = 0 ∨ side = 0
      · simp [hc, session.send_ep, queue_calls_append, queue_calls_send_call]
      · simp [hc]
  · simp only [h, if_false]

theorem recv_delay_queue_calls (s : session F S) (ep : endpoint) (side : Int)
    (msg : message F S) :
    queue_calls (s.recv_delay ep side msg)._async = queue_calls s._async := by
  unfold session.recv_delay
  by_cases h : msg.cmd = MessageType.Delay
  · by_cases hc : s._side = 0 ∨ side = 0
    · simp [h, hc, session.send_ep, queue_calls_append, queue_calls_send_call]
    · simp [h, hc]
  · simp only [h, if_false]

theorem recv_end_session_queue_calls (s : session F S) (ep : endpoint) (side : Int)
    (msg : message F S) :
    queue_calls (s.recv_end_session ep side msg)._async = queue_calls s._async := by
  unfold session.recv_end_session
  by_cases h : msg.cmd = MessageType.EndSession
  · by_cases hc : s._side = 0 ∨ side = 0
    · simp [h, hc, session.send_ep, queue_calls_append, queue_calls_send_call]
    · simp [h, hc]
  · simp only [h, if_false]

theorem recv_hdl_queue_calls (s : session F S) (ep : endpoint) (msg : message F S) :
    queue_calls (s.recv_hdl ep msg).2._async =
      queue_calls (if (msg.side : Int) ≠ s._side ∧ s._side = 0 ∧ (msg.side : Int) ≠ 0
        then echo_loop (msg.side : Int) msg 1 (s._eps.drop 1) s else s)._async := by
  by_cases h0 : (msg.side : Int) = s._side
  · simp [session.recv_hdl, h0]
  · simp only [session.recv_hdl, h0, if_false, ne_eq, not_false_eq_true, true_and]
    generalize (if s._side = 0 ∧ ¬ (msg.side : Int) = 0
      then echo_loop (msg.side : Int) msg 1 (s._eps.drop 1) s else s) = s1
    have h1 := recv_frame_async s1 (msg.side : Int) msg
    rcases hf : s1.recv_frame (msg.side : Int) msg with ⟨o2, s2⟩
    rw [hf] at h1
    simp only at h1
    cases o2 with
    | ret v =>
      simp only
      have h2 := recv_data_queue_calls s2 ep (msg.side : Int) msg
      rcases hd : s2.recv_data ep (msg.side : Int) msg with ⟨o3, s3⟩
      rw [hd] at h2
      simp only at h2
      cases o3 with
      | ret v =>
        simp only [recv_end_session_queue_calls, recv_delay_queue_calls, h2, h1]
      | threw w => simp only [h2, h1]
      | undefined => simp only [h2, h1]
      | blocks => simp only [h2, h1]
    | threw w => simp only [h1]
    | undefined => simp only [h1]
    | blocks => simp only [h1]

theorem enum_filter_from_one (l : List endpoint) (side : Int) :
    ((l.drop 1).enumFrom 1).filter (fun p => decide ((p.1 : Int) ≠ side)) =
      l.enum.filter (fun p => decide (1 ≤ p.1 ∧ (p.1 : Int) ≠ side)) := by
  cases l with
  | nil => rfl
  | cons e rest =>
    rw [List.enum_cons, List.filter_cons_of_neg (by simp)]
    simp only [List.drop_succ_cons, List.drop_zero]
    apply List.filter_congr
    intro p hp
    have := List.le_fst_of_mem_enumFrom hp
    simp [this]

/-- C5: host echo.  When the host (`_side == 0`) handles in `recv_hdl` a message whose
side `s` is not 0, the `queue` calls it makes are exactly one call with that same
message for every `_eps[i]` with `1 <= i < n` and `i != s`, in index order; each index
occurs once, and neither index 0 nor the index of the originator is among them.  A
joiner (`_side != 0`) handling any message makes no `queue` call. -/
theorem recv_hdl_echo (s : session F S) (ep : endpoint) (msg : message F S) :
    (s._side = 0 → (msg.side : Int) ≠ 0 →
      queue_calls (s.recv_hdl ep msg).2._async =
        queue_calls s._async ++
          (s._eps.enum.filter (fun p => decide (1 ≤ p.1 ∧ (p.1 : Int) ≠ msg.side))).map
            (fun p => (p.2, msg))) ∧
    ((s._eps.enum.filter (fun p => decide (1 ≤ p.1 ∧ (p.1 : Int) ≠ msg.side))).map
        Prod.fst).Nodup ∧
    (∀ p ∈ s._eps.enum.filter (fun p => decide (1 ≤ p.1 ∧ (p.1 : Int) ≠ msg.side)),
      p.1 ≠ 0 ∧ p.1 ≠ msg.side ∧ p.1 < s._eps.length ∧ s._eps[p.1]? = some p.2) ∧
    (s._side ≠ 0 →
      queue_calls (s.recv_hdl ep msg).2._async = queue_calls s._async) := by
  refine ⟨?_, ?_, ?_, ?_⟩
  · intro hz hs
    have hne : (msg.side : Int) ≠ s._side := by rw [hz]; exact hs
    rw [recv_hdl_queue_calls, if_pos ⟨hne, hz, hs⟩, echo_loop_queue_calls, enum_filter_from_one]
  · exact ((List.nodup_enum_map_fst s._eps).sublist
      ((List.filter_sublist _).map Prod.fst))
  · intro p hp
    obtain ⟨hm, hq⟩ := List.mem_filter.mp hp
    have hq' : 1 ≤ p.1 ∧ (p.1 : Int) ≠ msg.side := by simpa using hq
    refine ⟨by omega, ?_, List.fst_lt_of_mem_enum hm, ?_⟩
    · intro h; exact hq'.2 (by rw [h])
    · exact List.mk_mem_enum_iff_getElem?.mp hm
  · intro hz
    have : ¬ ((msg.side : Int) ≠ s._side ∧ s._side = 0 ∧ (msg.side : Int) ≠ 0) :=
      fun h => hz h.2.1
    rw [recv_hdl_queue_calls, if_neg this]

theorem recv_hdl_echo_witness :
    demo_host3._side = 0 ∧ (demo_ping.side : Int) ≠ 0 ∧
      queue_calls (demo_host3.recv_hdl ⟨2, 7000⟩ demo_ping).2._async =
        [((⟨3, 7000⟩ : endpoint), demo_ping)] := by
  have h := (recv_hdl_echo demo_host3 ⟨2, 7000⟩ demo_ping).1 (by decide) (by decide)
  refine ⟨by decide, by decide, ?_⟩
  rw [h]
  decide

theorem echo_loop_fields (side : Int) (msg : message F S) (i : Nat) (l : List endpoint)
    (s : session F S) :
    (echo_loop side msg i l s)._side = s._side ∧
    (echo_loop side msg i l s)._first_received_frame = s._first_received_frame ∧
    (echo_loop side msg i l s)._last_received_frame = s._last_received_frame ∧
    (echo_loop side msg i l s)._frame_table = s._frame_table ∧
    (echo_loop side msg i l s)._data_table = s._data_table := by
  induction l generalizing i s with
  | nil => exact ⟨rfl, rfl, rfl, rfl, rfl⟩
  | cons e rest ih =>
    by_cases h : (i : Int) = side
    · simpa [echo_loop, h] using ih (i + 1) s
    · simpa [echo_loop, h, session.queue, session.send_ep]
        using ih (i + 1) ((s.queue e msg).send_ep e)

theorem recv_data_fields (s : session F S) (ep : endpoint) (side : Int) (msg : message F S) :
    (s.recv_data ep side msg).2._side = s._side ∧
    (s.recv_data ep side msg).2._first_received_frame = s._first_received_frame ∧
    (s.recv_data ep side msg).2._last_received_frame = s._last_received_frame ∧
    (s.recv_data ep side msg).2._frame_table = s._frame_table ∧
    (s.recv_data ep side msg).2._data_table.length = s._data_table.length := by
  unfold session.recv_data
  by_cases h : msg.cmd = MessageType.Data
  · simp only [h, if_true]
    cases vec_at s._data_table side with
    | none => exact ⟨rfl, rfl, rfl, rfl, rfl⟩
    | some row =>
      by_cases hc : s._side = 0 ∨ side = 0
      · simp [hc, session.send_ep, vec_set_length]
      · simp [hc, vec_set_length]
  · simp only [h, if_false, and_self]

theorem recv_delay_fields (s : session F S) (ep : endpoint) (side : Int) (msg : message F S) :
    (s.recv_delay ep side msg)._side = s._side ∧
    (s.recv_delay ep side msg)._first_received_frame = s._first_received_frame ∧
    (s.recv_delay ep side msg)._last_received_frame = s._last_received_frame ∧
    (s.recv_delay ep side msg)._frame_table = s._frame_table ∧
    (s.recv_delay ep side msg)._data_table = s._data_table := by
  unfold session.recv_delay
  by_cases h : msg.cmd = MessageType.Delay
  · by_cases hc : s._side = 0 ∨ side = 0
    · simp [h, hc, session.send_ep]
    · simp [h, hc]
  · simp only [h, if_false, and_self]

theorem recv_end_session_fields (s : session F S) (ep : endpoint) (side : Int)
    (msg : message F S) :
    (s.recv_end_session ep side msg)._side = s._side ∧
    (s.recv_end_session ep side msg)._first_received_frame = s._first_received_frame ∧
    (s.recv_end_session ep side msg)._last_received_frame = s._last_received_frame ∧
    (s.recv_end_session ep side msg)._frame_table = s._frame_table ∧
    (s.recv_end_session ep side msg)._data_table = s._data_table := by
  unfold session.recv_end_session
  by_cases h : msg.cmd = MessageType.EndSession
  · by_cases hc : s._side = 0 ∨ side = 0
    · simp [h, hc, session.send_ep]
    · simp [h, hc]
  · simp only [h, if_false, and_self]

theorem recv_data_ret (s : session F S) (ep : endpoint) (side : Int) (msg : message F S)
    (h : msg.cmd = MessageType.Data → (vec_at s._data_table side).isSome) :
    (s.recv_data ep side msg).1 = outcome.ret () := by
  unfold session.recv_data
  by_cases hd : msg.cmd = MessageType.Data
  · simp only [hd, if_true]
    cases hv : vec_at s._data_table side with
    | none => simp [hv] at h; exact absurd hd h
    | some row => rfl
  · simp only [hd, if_false]

theorem recv_data_of_not (s : session F S) (ep : endpoint) (side : Int) (msg : message F S)
    (h : ¬ msg.cmd = MessageType.Data) : s.recv_data ep side msg = (outcome.ret (), s) := by
  simp only [session.recv_data, h, if_false]

theorem recv_delay_of_not (s : session F S) (ep : endpoint) (side : Int) (msg : message F S)
    (h : ¬ msg.cmd = MessageType.Delay) : s.recv_delay ep side msg = s := by
  simp only [session.recv_delay, h, if_false]

theorem recv_end_session_of_not (s : session F S) (ep : endpoint) (side : Int)
    (msg : message F S) (h : ¬ msg.cmd = MessageType.EndSession) :
    s.recv_end_session ep side msg = s := by
  simp only [session.recv_end_session, h, if_false]

theorem recv_hdl_unfold (s : session F S) (ep : endpoint) (msg : message F S)
    (h0 : ¬ (msg.side : Int) = s._side) :
    ∃ s1 : session F S,
      (s1._side = s._side ∧ s1._first_received_frame = s._first_received_frame ∧
        s1._last_received_frame = s._last_received_frame ∧
        s1._frame_table = s._frame_table ∧ s1._data_table = s._data_table) ∧
      s.recv_hdl ep msg =
        (match s1.recv_frame (msg.side : Int) msg with
         | (outcome.ret _, s2) =>
           match s2.recv_data ep (msg.side : Int) msg with
           | (outcome.ret _, s3) =>
             (outcome.ret (), ((s3.recv_delay ep (msg.side : Int) msg).recv_end_session ep
               (msg.side : Int) msg))
           | r => r
         | r => r) := by
  refine ⟨if s._side = 0 ∧ (msg.side : Int) ≠ 0
      then echo_loop (msg.side : Int) msg 1 (s._eps.drop 1) s else s, ?_, ?_⟩
  · split_ifs
    · exact echo_loop_fields _ _ _ _ _
    · exact ⟨rfl, rfl, rfl, rfl, rfl⟩
  · simp only [session.recv_hdl, h0, if_false]

theorem recv_hdl_step (s : session F S) (ep : endpoint) (msg : message F S) :
    (s.recv_hdl ep msg).2._side = s._side ∧
    (s.recv_hdl ep msg).2._frame_table.length = s._frame_table.length ∧
    (s.recv_hdl ep msg).2._data_table.length = s._data_table.length ∧
    (msg.cmd = MessageType.Frame → (msg.side : Int) ≠ s._side →
        (vec_at s._frame_table (msg.side : Int)).isSome →
      (s.recv_hdl ep msg).2._first_received_frame =
        (if s._first_received_frame < 0 then msg.frame_id
         else if msg.frame_id < s._first_received_frame then msg.frame_id
         else s._first_received_frame) ∧
      (s.recv_hdl ep msg).2._last_received_frame =
        (if s._last_received_frame < 0 then msg.frame_id
         else if msg.frame_id > s._last_received_frame then msg.frame_id
         else s._last_received_frame)) ∧
    (¬ (msg.cmd = MessageType.Frame ∧ (msg.side : Int) ≠ s._side ∧
        (vec_at s._frame_table (msg.side : Int)).isSome) →
      (s.recv_hdl ep msg).2._first_received_frame = s._first_received_frame ∧
      (s.recv_hdl ep msg).2._last_received_frame = s._last_received_frame) ∧
    ((msg.cmd = MessageType.Frame → (vec_at s._frame_table (msg.side : Int)).isSome) →
      (msg.cmd = MessageType.Data → (vec_at s._data_table (msg.side : Int)).isSome) →
      (s.recv_hdl ep msg).1 = outcome.ret ()) := by
  by_cases h0 : (msg.side : Int) = s._side
  · simp [session.recv_hdl, h0]
  · obtain ⟨s1, ⟨e1, e2, e3, e4, e5⟩, hr⟩ := recv_hdl_unfold s ep msg h0
    rw [hr]
    by_cases hF : msg.cmd = MessageType.Frame
    · have hD : ¬ msg.cmd = MessageType.Data := by rw [hF]; decide
      have hL : ¬ msg.cmd = MessageType.Delay := by rw [hF]; decide
      have hE : ¬ msg.cmd = MessageType.EndSession := by rw [hF]; decide
      cases hv : vec_at s._frame_table (msg.side : Int) with
      | none =>
        have : s1.recv_frame (msg.side : Int) msg = (outcome.undefined, s1) := by
          simp [session.recv_frame, hF, e4, hv]
        simp [this, e1, e2, e3, e4, e5, hF]
      | some row =>
        have : s1.recv_frame (msg.side : Int) msg = (outcome.ret (),
            { s1 with
              _frame_table := vec_set s1._frame_table (msg.side : Int)
                (um_set row msg.frame_id msg.frame),
              _first_received_frame :=
                (if s1._first_received_frame < 0 then msg.frame_id
                 else if msg.frame_id < s1._first_received_frame then msg.frame_id
                 else s1._first_received_frame),
              _last_received_frame :=
                (if s1._last_received_frame < 0 then msg.frame_id
                 else if msg.frame_id > s1._last_received_frame then msg.frame_id
                 else s1._last_received_frame) }) := by
          simp [session.recv_frame, hF, e4, hv]
        rw [this]
        simp only
        rw [recv_data_of_not _ _ _ _ hD]
        simp only
        rw [recv_delay_of_not _ _ _ _ hL, recv_end_session_of_not _ _ _ _ hE]
        simp [e1, e2, e3, e4, e5, hF, h0, vec_set_length]
    · have hf : s1.recv_frame (msg.side : Int) msg = (outcome.ret (), s1) := by
        simp [session.recv_frame, hF]
      rw [hf]
      simp only
      have d1 := recv_data_fields s1 ep (msg.side : Int) msg
      have d2 := recv_data_ret s1 ep (msg.side : Int) msg
      rcases hd : s1.recv_data ep (msg.side : Int) msg with ⟨o3, s3⟩
      rw [hd] at d1 d2
      simp only at d1 d2
      obtain ⟨f1, f2, f3, f4, f5⟩ := d1
      have g1 := recv_delay_fields s3 ep (msg.side : Int) msg
      have g2 := recv_end_session_fields (s3.recv_delay ep (msg.side : Int) msg) ep
        (msg.side : Int) msg
      obtain ⟨g11, g12, g13, g14, g15⟩ := g1
      obtain ⟨g21, g22, g23, g24, g25⟩ := g2
      cases o3 with
      | ret v =>
        simp only
        refine ⟨by rw [g21, g11, f1, e1], by rw [g24, g14, f4, e4], by rw [g25, g15, f5, e5],
          fun h => absurd h hF, fun _ => ⟨by rw [g22, g12, f2, e2], by rw [g23, g13, f3, e3]⟩,
          fun _ _ => trivial⟩
      | threw w =>
        simp only
        refine ⟨by rw [f1, e1], by rw [f4, e4], by rw [f5, e5],
          fun h => absurd h hF, fun _ => ⟨by rw [f2, e2], by rw [f3, e3]⟩, ?_⟩
        intro _ h2
        rw [e5] at d2
        exact d2 h2
      | undefined =>
        simp only
        refine ⟨by rw [f1, e1], by rw [f4, e4], by rw [f5, e5],
          fun h => absurd h hF, fun _ => ⟨by rw [f2, e2], by rw [f3, e3]⟩, ?_⟩
        intro _ h2
        rw [e5] at d2
        exact d2 h2
      | blocks =>
        simp only
        refine ⟨by rw [f1, e1], by rw [f4, e4], by rw [f5, e5],
          fun h => absurd h hF, fun _ => ⟨by rw [f2, e2], by rw [f3, e3]⟩, ?_⟩
        intro _ h2
        rw [e5] at d2
        exact d2 h2

theorem recv_hdl_le (s : session F S) (ep : endpoint) (msg : message F S)
    (h : s._first_received_frame ≤ s._last_received_frame) :
    (s.recv_hdl ep msg).2._first_received_frame ≤
      (s.recv_hdl ep msg).2._last_received_frame := by
  obtain ⟨_, _, _, h4, h5, _⟩ := recv_hdl_step s ep msg
  by_cases hc : msg.cmd = MessageType.Frame ∧ (msg.side : Int) ≠ s._side ∧
      (vec_at s._frame_table (msg.side : Int)).isSome
  · obtain ⟨a, b⟩ := h4 hc.1 hc.2.1 hc.2.2
    rw [a, b]
    split_ifs <;> omega
  · obtain ⟨a, b⟩ := h5 hc
    rw [a, b]
    exact h

theorem recv_hdl_run_le (s : session F S) (msgs : List (endpoint × message F S))
    (h : s._first_received_frame ≤ s._last_received_frame) :
    (s.recv_hdl_run msgs).2._first_received_frame ≤
      (s.recv_hdl_run msgs).2._last_received_frame := by
  induction msgs generalizing s with
  | nil => exact h
  | cons p rest ih =>
    obtain ⟨ep, msg⟩ := p
    have hstep := recv_hdl_le s ep msg h
    simp only [session.recv_hdl_run]
    rcases hr : s.recv_hdl ep msg with ⟨o, s1⟩
    rw [hr] at hstep
    cases o with
    | ret v => exact ih s1 hstep
    | threw w => exact hstep
    | undefined => exact hstep
    | blocks => exact hstep

theorem vec_at_isSome_of_lt {α : Type} (v : List α) (i : Nat) (h : (i : Int) < v.length) :
    (vec_at v (i : Int)).isSome := by
  obtain ⟨y, hy⟩ := vec_at_some_of_lt v (i : Int) (by omega) h
  simp [hy]

theorem recv_hdl_run_inv (s : session F S) (msgs : List (endpoint × message F S))
    (seen : List Int)
    (hinv : (seen = [] ∧ s._first_received_frame = -1 ∧ s._last_received_frame = -1) ∨
      (s._first_received_frame ∈ seen ∧ s._last_received_frame ∈ seen ∧
        ∀ i ∈ seen, 0 ≤ i ∧ s._first_received_frame ≤ i ∧ i ≤ s._last_received_frame))
    (hrange : ∀ p ∈ msgs,
      (p.2.cmd = MessageType.Frame → (p.2.side : Int) < s._frame_table.length) ∧
      (p.2.cmd = MessageType.Data → (p.2.side : Int) < s._data_table.length))
    (hnn : ∀ p ∈ msgs, p.2.cmd = MessageType.Frame → (p.2.side : Int) ≠ s._side →
      0 ≤ p.2.frame_id) :
    (s.recv_hdl_run msgs).1 = outcome.ret () ∧
    ((seen ++ (msgs.filter (fun p => decide (p.2.cmd = MessageType.Frame ∧
          (p.2.side : Int) ≠ s._side))).map (fun p => p.2.frame_id) = [] ∧
        (s.recv_hdl_run msgs).2._first_received_frame = -1 ∧
        (s.recv_hdl_run msgs).2._last_received_frame = -1) ∨
      ((s.recv_hdl_run msgs).2._first_received_frame ∈
          seen ++ (msgs.filter (fun p => decide (p.2.cmd = MessageType.Frame ∧
            (p.2.side : Int) ≠ s._side))).map (fun p => p.2.frame_id) ∧
        (s.recv_hdl_run msgs).2._last_received_frame ∈
          seen ++ (msgs.filter (fun p => decide (p.2.cmd = MessageType.Frame ∧
            (p.2.side : Int) ≠ s._side))).map (fun p => p.2.frame_id) ∧
        ∀ i ∈ seen ++ (msgs.filter (fun p => decide (p.2.cmd = MessageType.Frame ∧
            (p.2.side : Int) ≠ s._side))).map (fun p => p.2.frame_id),
          0 ≤ i ∧ (s.recv_hdl_run msgs).2._first_received_frame ≤ i ∧
            i ≤ (s.recv_hdl_run msgs).2._last_received_frame)) := by
  induction msgs generalizing s seen with
  | nil => simpa [session.recv_hdl_run] using hinv
  | cons p rest ih =>
    obtain ⟨ep, msg⟩ := p
    have hr0 := hrange (ep, msg) (List.mem_cons_self _ _)
    have hsF : msg.cmd = MessageType.Frame → (vec_at s._frame_table (msg.side : Int)).isSome :=
      fun h => vec_at_isSome_of_lt _ _ (hr0.1 h)
    have hsD : msg.cmd = MessageType.Data → (vec_at s._data_table (msg.side : Int)).isSome :=
      fun h => vec_at_isSome_of_lt _ _ (hr0.2 h)
    obtain ⟨k1, k2, k3, k4, k5, k6⟩ := recv_hdl_step s ep msg
    have hret := k6 hsF hsD
    simp only [session.recv_hdl_run]
    rcases hr : s.recv_hdl ep msg with ⟨o, s1⟩
    rw [hr] at k1 k2 k3 k4 k5 hret
    simp only at k1 k2 k3 k4 k5 hret
    subst hret
    simp only
    have hrange' : ∀ p ∈ rest,
        (p.2.cmd = MessageType.Frame → (p.2.side : Int) < s1._frame_table.length) ∧
        (p.2.cmd = MessageType.Data → (p.2.side : Int) < s1._data_table.length) := by
      intro p hp
      rw [k2, k3]
      exact hrange p (List.mem_cons_of_mem _ hp)
    have hnn' : ∀ p ∈ rest, p.2.cmd = MessageType.Frame → (p.2.side : Int) ≠ s1._side →
        0 ≤ p.2.frame_id := by
      intro p hp
      rw [k1]
      exact hnn p (List.mem_cons_of_mem _ hp)
    by_cases hc : msg.cmd = MessageType.Frame ∧ (msg.side : Int) ≠ s._side
    · obtain ⟨a, b⟩ := k4 hc.1 hc.2 (hsF hc.1)
      have hid := hnn (ep, msg) (List.mem_cons_self _ _) hc.1 hc.2
      simp only at hid
      have hinv' : (seen ++ [msg.frame_id] = [] ∧ s1._first_received_frame = -1 ∧
            s1._last_received_frame = -1) ∨
          (s1._first_received_frame ∈ seen ++ [msg.frame_id] ∧
            s1._last_received_frame ∈ seen ++ [msg.frame_id] ∧
            ∀ i ∈ seen ++ [msg.frame_id], 0 ≤ i ∧ s1._first_received_frame ≤ i ∧
              i ≤ s1._last_received_frame) := by
        right
        rcases hinv with ⟨hs, hf, hl⟩ | ⟨hf, hl, hall⟩
        · subst hs
          rw [a, b, hf, hl]
          simp [hid]
        · have hf0 := (hall _ hf).1
          have hl0 := (hall _ hl).1
          have hfl := (hall _ hf).2.2
          rw [a, b]
          have n1 : ¬ s._first_received_frame < 0 := by omega
          have n2 : ¬ s._last_received_frame < 0 := by omega
          rw [if_neg n1, if_neg n2]
          refine ⟨?_, ?_, ?_⟩
          · split_ifs
            · simp
            · simp [hf]
          · split_ifs
            · simp
            · simp [hl]
          · intro i hi
            rcases List.mem_append.mp hi with hi | hi
            · obtain ⟨c1, c2, c3⟩ := hall i hi
              refine ⟨c1, ?_, ?_⟩ <;> split_ifs <;> omega
            · have : i = msg.frame_id := by simpa using hi
              subst this
              refine ⟨hid, ?_, ?_⟩ <;> split_ifs <;> omega
      have := ih s1 (seen ++ [msg.frame_id]) hinv' hrange' hnn'
      have hfil : (List.filter (fun p : endpoint × message F S =>
            decide (p.2.cmd = MessageType.Frame ∧ (p.2.side : Int) ≠ s._side))
            ((ep, msg) :: rest)) =
          (ep, msg) :: List.filter (fun p : endpoint × message F S =>
            decide (p.2.cmd = MessageType.Frame ∧ (p.2.side : Int) ≠ s._side)) rest :=
        List.filter_cons_of_pos (by simpa using hc)
      rw [hfil, List.map_cons]
      rw [k1] at this
      simpa [List.append_assoc] using this
    · obtain ⟨a, b⟩ := k5 (fun h => hc ⟨h.1, h.2.1⟩)
      have hinv' : (seen = [] ∧ s1._first_received_frame = -1 ∧
            s1._last_received_frame = -1) ∨
          (s1._first_received_frame ∈ seen ∧ s1._last_received_frame ∈ seen ∧
            ∀ i ∈ seen, 0 ≤ i ∧ s1._first_received_frame ≤ i ∧
              i ≤ s1._last_received_frame) := by
        rw [a, b]; exact hinv
      have := ih s1 seen hinv' hrange' hnn'
      have hfil : (List.filter (fun p : endpoint × message F S =>
            decide (p.2.cmd = MessageType.Frame ∧ (p.2.side : Int) ≠ s._side))
            ((ep, msg) :: rest)) =
          List.filter (fun p : endpoint × message F S =>
            decide (p.2.cmd = MessageType.Frame ∧ (p.2.side : Int) ≠ s._side)) rest :=
        List.filter_cons_of_neg (by simpa using hc)
      rw [hfil]
      rw [k1] at this
      exact this

/-- C9: starting from a session with `_first_received_frame = _last_received_frame = -1`
(as `clear` leaves them), after every prefix of every sequence of messages handled by
`recv_hdl`, whatever `frame_id` the `Frame` messages carry,
`_first_received_frame <= _last_received_frame`.  When moreover every message names a
side that is a row of the tables, every call returns; and when the `Frame` messages
received from other sides carry non-negative ids, then once there is one,
`_first_received_frame` and `_last_received_frame` are the minimum and the maximum of
the ids received (and still -1 before). -/
theorem recv_hdl_first_le_last (s : session F S) (msgs : List (endpoint × message F S))
    (h1 : s._first_received_frame = -1) (h2 : s._last_received_frame = -1) :
    (∀ k, (s.recv_hdl_run (msgs.take k)).2._first_received_frame ≤
          (s.recv_hdl_run (msgs.take k)).2._last_received_frame) ∧
    ((∀ p ∈ msgs,
        (p.2.cmd = MessageType.Frame → (p.2.side : Int) < s._frame_table.length) ∧
        (p.2.cmd = MessageType.Data → (p.2.side : Int) < s._data_table.length)) →
      (∀ p ∈ msgs, p.2.cmd = MessageType.Frame → (p.2.side : Int) ≠ s._side →
        0 ≤ p.2.frame_id) →
      (s.recv_hdl_run msgs).1 = outcome.ret () ∧
      ((msgs.filter (fun p => decide (p.2.cmd = MessageType.Frame ∧
            (p.2.side : Int) ≠ s._side))).map (fun p => p.2.frame_id) = [] →
        (s.recv_hdl_run msgs).2._first_received_frame = -1 ∧
        (s.recv_hdl_run msgs).2._last_received_frame = -1) ∧
      ((msgs.filter (fun p => decide (p.2.cmd = MessageType.Frame ∧
            (p.2.side : Int) ≠ s._side))).map (fun p => p.2.frame_id) ≠ [] →
        (s.recv_hdl_run msgs).2._first_received_frame ∈
          (msgs.filter (fun p => decide (p.2.cmd = MessageType.Frame ∧
            (p.2.side : Int) ≠ s._side))).map (fun p => p.2.frame_id) ∧
        (s.recv_hdl_run msgs).2._last_received_frame ∈
          (msgs.filter (fun p => decide (p.2.cmd = MessageType.Frame ∧
            (p.2.side : Int) ≠ s._side))).map (fun p => p.2.frame_id) ∧
        ∀ i ∈ (msgs.filter (fun p => decide (p.2.cmd = MessageType.Frame ∧
            (p.2.side : Int) ≠ s._side))).map (fun p => p.2.frame_id),
          (s.recv_hdl_run msgs).2._first_received_frame ≤ i ∧
            i ≤ (s.recv_hdl_run msgs).2._last_received_frame)) := by
  refine ⟨fun k => recv_hdl_run_le s _ (by omega), ?_⟩
  intro hrange hnn
  have h := recv_hdl_run_inv s msgs [] (Or.inl ⟨rfl, h1, h2⟩) hrange hnn
  simp only [List.nil_append] at h
  obtain ⟨hret, hcases⟩ := h
  refine ⟨hret, ?_, ?_⟩
  · intro hnil
    rcases hcases with ⟨_, a, b⟩ | ⟨a, _, _⟩
    · exact ⟨a, b⟩
    · rw [hnil] at a
      exact absurd a (List.not_mem_nil _)
  · intro hne
    rcases hcases with ⟨a, _, _⟩ | ⟨a, b, c⟩
    · exact absurd a hne
    · exact ⟨a, b, fun i hi => (c i hi).2⟩

theorem recv_hdl_first_le_last_witness :
    demo_host3._first_received_frame = -1 ∧ demo_host3._last_received_frame = -1 ∧
      (demo_host3.recv_hdl_run (demo_frames.take 1)).2._first_received_frame ≤
        (demo_host3.recv_hdl_run (demo_frames.take 1)).2._last_received_frame ∧
      (demo_host3.recv_hdl_run demo_frames).1 = outcome.ret () ∧
      (demo_host3.recv_hdl_run demo_frames).2._first_received_frame = 3 ∧
      (demo_host3.recv_hdl_run demo_frames).2._last_received_frame = 5 := by
  have h := recv_hdl_first_le_last demo_host3 demo_frames (by decide) (by decide)
  exact ⟨by decide, by decide, h.1 1, (h.2 (by decide) (by decide)).1, by decide, by decide⟩

/-- A negative id is taken for "nothing received yet": after the ids -3 and 5 both
numbers are 5, so the minimum of the received ids is lost.  This is why the minimum /
maximum part of C9 is about non-negative ids. -/
theorem recv_hdl_negative_id :
    (demo_host3.recv_hdl_run demo_frames_negative).1 = outcome.ret () ∧
    (demo_host3.recv_hdl_run demo_frames_negative).2._first_received_frame = 5 ∧
    (demo_host3.recv_hdl_run demo_frames_negative).2._last_received_frame = 5 := by
  decide

/-! ### Invalid state -/

/-- The six operations that test `_current_state` first: called while
`_current_state == None` each throws "invalid state", for every argument, and leaves the
session as it was. -/
theorem invalid_state_checked_ops [Inhabited F] [Inhabited S] (s : session F S)
    (h : s._current_state = MessageType.None) (frame f : F) (side n timeout : Int)
    (data : message_data) :
    s.set frame = (outcome.threw "invalid state", s) ∧
    ((s.get side f n timeout).result = outcome.threw "invalid state" ∧
      (s.get side f n timeout).s = s ∧ (s.get side f n timeout).out = f) ∧
    ((s.get_data side data timeout).result = outcome.threw "invalid state" ∧
      (s.get_data side data timeout).s = s ∧ (s.get_data side data timeout).out = data) ∧
    s.queue_data data = (outcome.threw "invalid state", s) ∧
    s.reannounce_delay = (outcome.threw "invalid state", s) ∧
    s.clear_queue = (outcome.threw "invalid state", s) := by
  simp [session.set, session.get, session.get_data, session.queue_data,
    session.reannounce_delay, session.clear_queue, h]

/-- C10 (the code differs): `send_end_session_request` does not test `_current_state`.
On a new session object (`_current_state == None`) it returns normally and sets
`_end_session_request`, where the claim asks for the "invalid state" error and an
unchanged session. -/
theorem send_end_session_request_unchecked :
    (session.ctor : session Nat Nat)._current_state = MessageType.None ∧
    ((session.ctor : session Nat Nat).send_end_session_request).1 = outcome.ret () ∧
    ((session.ctor : session Nat Nat).send_end_session_request).2._end_session_request = true ∧
    (session.ctor : session Nat Nat)._end_session_request = false ∧
    ((session.ctor : session Nat Nat).send_end_session_request).2 ≠
      (session.ctor : session Nat Nat) := by
  decide

/-! ### The handshake on the host -/

/-- C6 (the code differs): a host waiting for one joiner (`players = 2`,
`_current_state = Wait`, nothing received yet) that handles a single `Delay` message
moves to `Ready` with an empty roster: `_eps.size() == 0`, not 2.  Its side is 0. -/
theorem create_ready_without_roster :
    demo_create2._current_state = MessageType.Wait ∧ demo_create2._players_needed = 2 ∧
    (demo_create2.create_recv_run demo_chk
        [(demo_clock, 0, demo_X, demo_delay 3)])._current_state = MessageType.Ready ∧
    (demo_create2.create_recv_run demo_chk
        [(demo_clock, 0, demo_X, demo_delay 3)])._eps.length = 0 ∧
    (demo_create2.create_recv_run demo_chk
        [(demo_clock, 0, demo_X, demo_delay 3)])._side = 0 ∧
    (demo_create2.create_recv_run demo_chk
        [(demo_clock, 0, demo_X, demo_delay 3)])._connection_sem = 1 := by
  decide

/-- C7 (the code differs): a joiner that measured a round trip of 8160 ms computes
`calculate_delay(8160) = 256`, and the `uint8_t` field of its `Delay` message holds 0;
the host of the two-player session takes the mean 0 as its delay and broadcasts
`Delay(0)`, and the joiner handling that message stores delay 0. -/
theorem handshake_delay_zero :
    calculate_delay 8160 = 256 ∧
    (join_handler_delay_msg demo_join2 (fun _ => 8160)).delay = 0 ∧
    ((demo_create2.create_recv_run demo_chk
        [(demo_clock, 0, demo_A, demo_join),
         (demo_clock, 0, demo_A, join_handler_delay_msg demo_join2 (fun _ => 8160))])._current_state
      = MessageType.Ready) ∧
    ((demo_create2.create_recv_run demo_chk
        [(demo_clock, 0, demo_A, demo_join),
         (demo_clock, 0, demo_A, join_handler_delay_msg demo_join2 (fun _ => 8160))])._delay
      = 0) ∧
    ((queue_calls (demo_create2.create_recv_run demo_chk
        [(demo_clock, 0, demo_A, demo_join),
         (demo_clock, 0, demo_A, join_handler_delay_msg demo_join2 (fun _ => 8160))])._async).map
        (fun p => (p.1, p.2.cmd, p.2.delay))
      = [(demo_A, MessageType.Info, 0), (demo_H, MessageType.Delay, 0),
         (demo_A, MessageType.Delay, 0)]) ∧
    ((demo_join2.join_recv_handler demo_chk demo_H (demo_delay 0)).2._delay = 0 ∧
      (demo_join2.join_recv_handler demo_chk demo_H (demo_delay 0)).2._current_state
        = MessageType.Ready) := by
  decide

/-- Below 8160 ms the `uint8_t` field holds the computed delay: the joiner reports
`rtt / 32 + 1`, which is at least 1. -/
theorem reported_delay_small_rtt (rtt : Nat) (h : rtt < 8160) :
    ((message.delay_of (calculate_delay rtt) : message Nat Nat).delay : Int) =
      calculate_delay rtt ∧
    calculate_delay rtt = ((rtt / 32 + 1 : Nat) : Int) ∧
    1 ≤ (message.delay_of (calculate_delay rtt) : message Nat Nat).delay := by
  have h1 : rtt % 2 ^ 32 = rtt := Nat.mod_eq_of_lt (by omega)
  have h2 : ((((rtt / 32 + 1 : Nat) : Int) % 256).toNat : Int) = ((rtt / 32 + 1 : Nat) : Int) := by
    omega
  have h3 : 1 ≤ (((rtt / 32 + 1 : Nat) : Int) % 256).toNat := by omega
  simp only [message.delay_of, calculate_delay, h1]
  exact ⟨h2, trivial, h3⟩

theorem ready_loop_length (time_ms : Nat → Nat) (needed : Nat) (j : Nat)
    (l : List (endpoint × peer_info)) (rl : List endpoint) (h : rl.length < needed) :
    (ready_loop time_ms needed j l rl).length ≤ needed := by
  induction l generalizing j rl with
  | nil => exact Nat.le_of_lt h
  | cons kv rest ih =>
    obtain ⟨k, pi⟩ := kv
    unfold ready_loop
    simp only
    split_ifs with h1 h2 h3
    · simp only [List.length_append, List.length_singleton] at h2 ⊢
      omega
    · exact ih _ _ (by omega)
    · omega
    · exact ih _ _ h

theorem info_queue_loop_fields (msg : message F S) (i : Nat) (l : List endpoint)
    (s : session F S) :
    (info_queue_loop msg i l s)._side = s._side ∧
    (info_queue_loop msg i l s)._eps = s._eps ∧
    (info_queue_loop msg i l s)._players_needed = s._players_needed := by
  induction l generalizing i s with
  | nil => exact ⟨rfl, rfl, rfl⟩
  | cons e rest ih =>
    simpa [info_queue_loop, session.queue] using ih (i + 1) (s.queue e { msg with side := i % 256 })

/-- What every run of `create_recv_handler` on the host keeps: the side is 0, the number
of players wanted is unchanged, and the roster is either still empty or has exactly
that many entries. -/
theorem create_recv_handler_roster [Inhabited F] [Inhabited S] (chk : S → S → Bool)
    (time_ms : Nat → Nat) (seed : Nat) (s : session F S) (ep : endpoint) (msg : message F S)
    (hN : 2 ≤ s._players_needed) (hside : s._side = 0)
    (heps : s._eps = [] ∨ s._eps.length = s._players_needed) :
    (s.create_recv_handler chk time_ms seed ep msg)._side = 0 ∧
    (s.create_recv_handler chk time_ms seed ep msg)._players_needed = s._players_needed ∧
    ((s.create_recv_handler chk time_ms seed ep msg)._eps = [] ∨
      (s.create_recv_handler chk time_ms seed ep msg)._eps.length = s._players_needed) := by
  have hjoin : (s.create_recv_join chk time_ms seed ep msg).1._side = 0 ∧
      (s.create_recv_join chk time_ms seed ep msg).1._players_needed = s._players_needed ∧
      ((s.create_recv_join chk time_ms seed ep msg).1._eps = [] ∨
        (s.create_recv_join chk time_ms seed ep msg).1._eps.length = s._players_needed) := by
    have hrl : ∀ st : List (endpoint × peer_info),
        s._players_needed ≤ (ready_loop time_ms s._players_needed 1 st [msg.host_ep]).length →
        (ready_loop time_ms s._players_needed 1 st [msg.host_ep]).length = s._players_needed := by
      intro st h
      have := ready_loop_length time_ms s._players_needed 1 st [msg.host_ep]
        (by simp only [List.length_singleton]; omega)
      omega
    unfold session.create_recv_join
    dsimp only
    split_ifs with h1 h2 h3 h4
    · simp [session.send_ep, session.queue, hside, heps]
    · simp [foldl_send_ep_eq, session.queue, info_queue_loop_fields]
      exact Or.inr (hrl _ h3)
    · simp [hside, heps]
    · simp [foldl_send_ep_eq, hside, heps]
    · simp [hside, heps]
  have hdelay : ∀ t : session F S, t._side = 0 →
      (t._eps = [] ∨ t._eps.length = t._players_needed) →
      (t.create_recv_delay ep msg)._side = 0 ∧
      (t.create_recv_delay ep msg)._players_needed = t._players_needed ∧
      ((t.create_recv_delay ep msg)._eps = [] ∨
        (t.create_recv_delay ep msg)._eps.length = t._players_needed) := by
    intro t ht he
    unfold session.create_recv_delay
    simp only
    split_ifs <;> simp [foldl_queue_eq, ht, he]
  unfold session.create_recv_handler
  simp only
  obtain ⟨j1, j2, j3⟩ := hjoin
  by_cases hJ : msg.cmd = MessageType.Join
  · have hP : ¬ msg.cmd = MessageType.Ping := by rw [hJ]; decide
    have hD : ¬ msg.cmd = MessageType.Delay := by rw [hJ]; decide
    simp only [hJ, if_true,
      eq_false (by decide : ¬ MessageType.Join = MessageType.Ping),
      eq_false (by decide : ¬ MessageType.Join = MessageType.Delay), if_false]
    split_ifs <;> exact ⟨j1, j2, j3⟩
  · simp only [hJ, if_false, Bool.false_eq_true]
    by_cases hP : msg.cmd = MessageType.Ping
    · have hD : ¬ msg.cmd = MessageType.Delay := by rw [hP]; decide
      simp only [hP, if_true] at hD ⊢
      rw [if_neg (by decide)]
      exact ⟨hside, rfl, heps⟩
    · simp only [hP, if_false]
      by_cases hD : msg.cmd = MessageType.Delay
      · rw [if_pos hD]
        exact hdelay s hside heps
      · rw [if_neg hD]
        exact ⟨hside, rfl, heps⟩

/-- The part of the roster invariant that the host does keep: from the start of
`create(N, ...)` with `N >= 2`, after any sequence of messages handled by
`create_recv_handler` the side is 0 and the roster is either empty or has exactly `N`
entries.  (The empty roster in state `Ready` is what `create_ready_without_roster`
exhibits.) -/
theorem create_recv_run_roster [Inhabited F] [Inhabited S] (chk : S → S → Bool)
    (s : session F S) (msgs : List ((Nat → Nat) × Nat × endpoint × message F S))
    (hN : 2 ≤ s._players_needed) (hside : s._side = 0)
    (heps : s._eps = [] ∨ s._eps.length = s._players_needed) :
    (s.create_recv_run chk msgs)._side = 0 ∧
    (s.create_recv_run chk msgs)._players_needed = s._players_needed ∧
    ((s.create_recv_run chk msgs)._eps = [] ∨
      (s.create_recv_run chk msgs)._eps.length = s._players_needed) := by
  induction msgs generalizing s with
  | nil => exact ⟨hside, rfl, heps⟩
  | cons m rest ih =>
    obtain ⟨time_ms, seed, ep, msg⟩ := m
    obtain ⟨a, b, c⟩ := create_recv_handler_roster chk time_ms seed s ep msg hN hside heps
    have := ih (s.create_recv_handler chk time_ms seed ep msg) (by rw [b]; exact hN) a
      (by rw [b]; exact c)
    rw [b] at this
    exact this

/-! ### Delay negotiation -/

theorem endpoint_lt_irrefl (a : endpoint) : a.lt a = false := by
  simp [endpoint.lt]

theorem endpoint_lt_trans (a b c : endpoint) (h1 : a.lt b = true) (h2 : b.lt c = true) :
    a.lt c = true := by
  simp only [endpoint.lt, Bool.or_eq_true, Bool.and_eq_true, decide_eq_true_eq] at *
  omega

theorem endpoint_lt_total (a b : endpoint) (h1 : a ≠ b) (h2 : a.lt b = false) :
    b.lt a = true := by
  obtain ⟨a1, a2⟩ := a
  obtain ⟨b1, b2⟩ := b
  have hne : ¬ (a1 = b1 ∧ a2 = b2) := by
    intro h; apply h1; rw [h.1, h.2]
  simp only [endpoint.lt, Bool.or_eq_false_iff, Bool.and_eq_false_iff, Bool.or_eq_true,
    Bool.and_eq_true, decide_eq_true_eq, decide_eq_false_iff_not] at *
  omega

theorem mem_map_set {V : Type} (k : endpoint) (v : V) (l : List (endpoint × V))
    (x : endpoint × V) (h : x ∈ map_set k v l) : x = (k, v) ∨ x ∈ l := by
  induction l with
  | nil => simpa [map_set] using h
  | cons kv rest ih =>
    obtain ⟨k', v'⟩ := kv
    unfold map_set at h
    split_ifs at h with h1 h2
    · rcases List.mem_cons.mp h with h | h
      · exact Or.inl h
      · exact Or.inr (List.mem_cons_of_mem _ h)
    · rcases List.mem_cons.mp h with h | h
      · exact Or.inl h
      · exact Or.inr h
    · rcases List.mem_cons.mp h with h | h
      · exact Or.inr (by rw [h]; exact List.mem_cons_self _ _)
      · rcases ih h with h | h
        · exact Or.inl h
        · exact Or.inr (List.mem_cons_of_mem _ h)

theorem map_set_sorted {V : Type} (k : endpoint) (v : V) (l : List (endpoint × V))
    (h : map_sorted l) : map_sorted (map_set k v l) := by
  induction l with
  | nil => simp [map_set, map_sorted]
  | cons kv rest ih =>
    obtain ⟨k', v'⟩ := kv
    unfold map_sorted at h ih ⊢
    rw [List.pairwise_cons] at h
    obtain ⟨hhead, htail⟩ := h
    unfold map_set
    split_ifs with h1 h2
    · subst h1
      exact List.pairwise_cons.mpr ⟨hhead, htail⟩
    · refine List.pairwise_cons.mpr ⟨?_, List.pairwise_cons.mpr ⟨hhead, htail⟩⟩
      intro x hx
      rcases List.mem_cons.mp hx with hx | hx
      · rw [hx]; exact h2
      · exact endpoint_lt_trans _ _ _ h2 (hhead x hx)
    · refine List.pairwise_cons.mpr ⟨?_, ih htail⟩
      intro x hx
      rcases mem_map_set k v rest x hx with hx | hx
      · rw [hx]
        exact endpoint_lt_total k k' h1 (by simpa using h2)
      · exact hhead x hx

theorem map_sorted_nodup {V : Type} (l : List (endpoint × V)) (h : map_sorted l) :
    (l.map Prod.fst).Nodup := by
  unfold map_sorted at h
  rw [List.Nodup, List.pairwise_map]
  refine h.imp ?_
  intro a b hab heq
  rw [heq, endpoint_lt_irrefl] at hab
  exact Bool.noConfusion hab

theorem map_find_of_mem {V : Type} (l : List (endpoint × V)) (e : endpoint) (v : V)
    (hn : (l.map Prod.fst).Nodup) (h : (e, v) ∈ l) : map_find l e = some v := by
  induction l with
  | nil => exact absurd h (List.not_mem_nil _)
  | cons kv rest ih =>
    obtain ⟨k', v'⟩ := kv
    rw [List.map_cons, List.nodup_cons] at hn
    rcases List.mem_cons.mp h with h | h
    · have h1 : e = k' := congrArg Prod.fst h
      have h2 : v = v' := congrArg Prod.snd h
      subst h1; subst h2
      simp [map_find]
    · have hne : ¬ k' = e := by
        intro hk
        apply hn.1
        rw [hk]
        exact List.mem_map.mpr ⟨(e, v), h, rfl⟩
      simp only [map_find, hne, if_false]
      exact ih hn.2 h

theorem mem_of_map_find {V : Type} (l : List (endpoint × V)) (e : endpoint) (v : V)
    (h : map_find l e = some v) : (e, v) ∈ l := by
  induction l with
  | nil => simp [map_find] at h
  | cons kv rest ih =>
    obtain ⟨k', v'⟩ := kv
    unfold map_find at h
    split_ifs at h with h1
    · have : v' = v := by simpa using h
      rw [h1, this]
      exact List.mem_cons_self _ _
    · exact List.mem_cons_of_mem _ (ih h)

theorem delay_loop_spec (n1 : Nat) (l : List (endpoint × peer_info)) (d : Int) (k : Nat)
    (hk : 1 ≤ k) (hkn : k ≤ n1) :
    delay_loop n1 l d ((n1 : Int) - k) =
      if k ≤ (l.filter (fun kv => decide (kv.2.state = MessageType.Delay))).length then
        ((d + (((l.filter (fun kv => decide (kv.2.state = MessageType.Delay))).take k).map
          (fun kv => kv.2.delay)).sum) / (n1 : Int), (n1 : Int))
      else
        (d + ((l.filter (fun kv => decide (kv.2.state = MessageType.Delay))).map
          (fun kv => kv.2.delay)).sum,
         (n1 : Int) - k +
          ((l.filter (fun kv => decide (kv.2.state = MessageType.Delay))).length : Int)) := by
  induction l generalizing d k with
  | nil =>
    have : ¬ k ≤ 0 := by omega
    simp [delay_loop, this]
  | cons kv rest ih =>
    obtain ⟨e, pi⟩ := kv
    by_cases hs : pi.state = MessageType.Delay
    · have hfil : List.filter (fun kv : endpoint × peer_info =>
          decide (kv.2.state = MessageType.Delay)) ((e, pi) :: rest) =
          (e, pi) :: List.filter (fun kv : endpoint × peer_info =>
            decide (kv.2.state = MessageType.Delay)) rest :=
        List.filter_cons_of_pos (by simpa using hs)
      rw [hfil]
      by_cases hk1 : k = 1
      · subst hk1
        have h1 : (n1 : Int) - ((1 : Nat) : Int) + 1 = (n1 : Int) := by omega
        simp [delay_loop, hs, h1]
      · have hne : ¬ ((n1 : Int) - (k : Int) + 1 = (n1 : Int)) := by omega
        have hk' : (n1 : Int) - (k : Int) + 1 = (n1 : Int) - ((k - 1 : Nat) : Int) := by omega
        have := ih (d + pi.delay) (k - 1) (by omega) (by omega)
        simp only [delay_loop, hs, if_true, hne, if_false]
        rw [hk', this]
        obtain ⟨j, hj⟩ : ∃ j, k = j + 1 := ⟨k - 1, by omega⟩
        subst hj
        simp only [Nat.add_sub_cancel, List.length_cons, Nat.add_le_add_iff_right,
          List.take_succ_cons, List.map_cons, List.sum_cons]
        split_ifs
        · rw [Int.add_assoc]
        · refine Prod.ext ?_ ?_
          · simp only; rw [Int.add_assoc]
          · simp only; push_cast; omega
    · have hfil : List.filter (fun kv : endpoint × peer_info =>
          decide (kv.2.state = MessageType.Delay)) ((e, pi) :: rest) =
          List.filter (fun kv : endpoint × peer_info =>
            decide (kv.2.state = MessageType.Delay)) rest :=
        List.filter_cons_of_neg (by simpa using hs)
      rw [hfil]
      simp only [delay_loop, hs, if_false]
      exact ih d k hk hkn

theorem sum_bounds (l : List Int) (h : ∀ x ∈ l, 0 ≤ x ∧ x ≤ 255) :
    0 ≤ l.sum ∧ l.sum ≤ 255 * (l.length : Int) := by
  induction l with
  | nil => simp
  | cons a rest ih =>
    have ha := h a (List.mem_cons_self _ _)
    have := ih (fun x hx => h x (List.mem_cons_of_mem _ hx))
    simp only [List.sum_cons, List.length_cons]
    push_cast
    omega

theorem create_recv_delay_ready [Inhabited F] [Inhabited S] (s : session F S) (ep : endpoint)
    (msg : message F S) (hN2 : 2 ≤ s._players_needed) (hN32 : s._players_needed < 2 ^ 32)
    (hst : s._current_state ≠ MessageType.Ready)
    (hlen : s._players_needed - 1 ≤
      (delay_entries (record_delay s._states ep msg.delay)).length) :
    s.create_recv_delay ep msg =
      { s with
        _states := record_delay s._states ep msg.delay,
        _delay := mean_delay (record_delay s._states ep msg.delay) (s._players_needed - 1),
        _current_state := MessageType.Ready,
        _connection_sem := semaphore_post s._connection_sem,
        _async := s._async ++ s._eps.map (fun e => transport_call.queue e (message.delay_of (mean_delay (record_delay s._states ep msg.delay) (s._players_needed - 1)))) } := by
  have hn1 : (s._players_needed + 2 ^ 32 - 1) % 2 ^ 32 = s._players_needed - 1 := by omega
  have hspec := delay_loop_spec (s._players_needed - 1)
    (map_set ep ⟨MessageType.Delay, 0, (msg.delay : Int)⟩ s._states) 0
    (s._players_needed - 1) (by omega) (le_refl _)
  simp only [record_delay, delay_entries] at hlen
  rw [if_pos hlen] at hspec
  simp only [sub_self, zero_add] at hspec
  simp only [session.create_recv_delay, hn1, hspec, if_true, hst, ne_eq, not_false_eq_true,
    foldl_queue_eq, record_delay, mean_delay, delay_entries]

theorem create_recv_delay_not_ready [Inhabited F] [Inhabited S] (s : session F S)
    (ep : endpoint) (msg : message F S) (hN2 : 2 ≤ s._players_needed)
    (hN32 : s._players_needed < 2 ^ 32)
    (hlen : ¬ s._players_needed - 1 ≤
      (delay_entries (record_delay s._states ep msg.delay)).length) :
    s.create_recv_delay ep msg =
      { s with _states := record_delay s._states ep msg.delay } := by
  have hn1 : (s._players_needed + 2 ^ 32 - 1) % 2 ^ 32 = s._players_needed - 1 := by omega
  have hspec := delay_loop_spec (s._players_needed - 1)
    (map_set ep ⟨MessageType.Delay, 0, (msg.delay : Int)⟩ s._states) 0
    (s._players_needed - 1) (by omega) (le_refl _)
  have hne : ¬ (((delay_entries (record_delay s._states ep msg.delay)).length : Int) =
      ((s._players_needed - 1 : Nat) : Int)) := by omega
  simp only [record_delay, delay_entries] at hlen hne
  rw [if_neg hlen] at hspec
  simp only [sub_self, zero_add] at hspec
  simp only [session.create_recv_delay, hn1, hspec, hne, if_false, record_delay]

theorem create_recv_handler_delay [Inhabited F] [Inhabited S] (chk : S → S → Bool)
    (time_ms : Nat → Nat) (seed : Nat) (s : session F S) (ep : endpoint) (msg : message F S)
    (hcmd : msg.cmd = MessageType.Delay) :
    s.create_recv_handler chk time_ms seed ep msg = s.create_recv_delay ep msg := by
  have h1 : ¬ msg.cmd = MessageType.Join := by rw [hcmd]; decide
  have h2 : ¬ msg.cmd = MessageType.Ping := by rw [hcmd]; decide
  simp only [session.create_recv_handler, h1, h2, if_false, Bool.false_eq_true]
  rw [if_pos hcmd]

theorem reported_of_mem_delay_entries (st : List (endpoint × peer_info))
    (hk : (st.map Prod.fst).Nodup) (kv : endpoint × peer_info) (h : kv ∈ delay_entries st) :
    reported_delay st kv.1 = some kv.2.delay := by
  obtain ⟨hm, hs⟩ := List.mem_filter.mp h
  have hs' : kv.2.state = MessageType.Delay := by simpa using hs
  have := map_find_of_mem st kv.1 kv.2 hk hm
  simp [reported_delay, this, hs']

theorem mem_delay_entries_of_reported (st : List (endpoint × peer_info)) (e : endpoint)
    (h : (reported_delay st e).isSome) : e ∈ (delay_entries st).map Prod.fst := by
  unfold reported_delay at h
  cases hf : map_find st e with
  | none => simp [hf] at h
  | some pi =>
    rw [hf] at h
    by_cases hs : pi.state = MessageType.Delay
    · refine List.mem_map.mpr ⟨(e, pi), ?_, rfl⟩
      exact List.mem_filter.mpr ⟨mem_of_map_find st e pi hf, by simpa using hs⟩
    · simp [hs] at h

/-- C8 (amended): delay negotiation on the host.  The host, not yet `Ready`, with a
roster of `N = _players_needed >= 2` endpoints whose joiners `_eps[1..]` are distinct,
handles a `Delay` message; provided every endpoint that its peer map records in state
`Delay` is a joiner of the roster, it moves to `Ready` exactly when every one of the
`N-1` joiners has reported, and then its delay and the `delay` field of the `Delay`
message it queues to every `_eps[i]` both equal the sum of the delays those joiners
reported divided by `N-1`. -/
theorem delay_negotiation [Inhabited F] [Inhabited S] (chk : S → S → Bool)
    (time_ms : Nat → Nat) (seed : Nat) (s : session F S) (ep : endpoint) (msg : message F S)
    (hcmd : msg.cmd = MessageType.Delay) (hd : msg.delay < 256)
    (hN2 : 2 ≤ s._players_needed) (hN32 : s._players_needed < 2 ^ 32)
    (hN : s._eps.length = s._players_needed)
    (hst : s._current_state ≠ MessageType.Ready)
    (hsorted : map_sorted s._states)
    (hnodup : (s._eps.drop 1).Nodup)
    (hroster : ∀ kv ∈ delay_entries (record_delay s._states ep msg.delay),
      kv.1 ∈ s._eps.drop 1)
    (hrange : ∀ kv ∈ delay_entries s._states, 0 ≤ kv.2.delay ∧ kv.2.delay ≤ 255) :
    ((s.create_recv_handler chk time_ms seed ep msg)._current_state = MessageType.Ready ↔
      ∀ e ∈ s._eps.drop 1,
        (reported_delay (record_delay s._states ep msg.delay) e).isSome) ∧
    ((s.create_recv_handler chk time_ms seed ep msg)._current_state = MessageType.Ready →
      (s.create_recv_handler chk time_ms seed ep msg)._delay =
        ((s._eps.drop 1).map (fun e =>
          (reported_delay (record_delay s._states ep msg.delay) e).getD 0)).sum /
            ((s._players_needed : Int) - 1) ∧
      queue_calls (s.create_recv_handler chk time_ms seed ep msg)._async =
        queue_calls s._async ++ s._eps.map (fun e =>
          (e, message.delay_of (s.create_recv_handler chk time_ms seed ep msg)._delay)) ∧
      ((message.delay_of (s.create_recv_handler chk time_ms seed ep msg)._delay
          : message F S).delay : Int) =
        (s.create_recv_handler chk time_ms seed ep msg)._delay) := by
  rw [create_recv_handler_delay chk time_ms seed s ep msg hcmd]
  have hst_sorted : map_sorted (record_delay s._states ep msg.delay) :=
    map_set_sorted _ _ _ hsorted
  have hkeys := map_sorted_nodup _ hst_sorted
  have hDk : ((delay_entries (record_delay s._states ep msg.delay)).map Prod.fst).Nodup :=
    List.Nodup.sublist ((List.filter_sublist _).map Prod.fst) hkeys
  have hsub : (delay_entries (record_delay s._states ep msg.delay)).map Prod.fst ⊆
      s._eps.drop 1 := by
    intro e he
    obtain ⟨kv, hkv, rfl⟩ := List.mem_map.mp he
    exact hroster kv hkv
  have hjl : (s._eps.drop 1).length = s._players_needed - 1 := by
    rw [List.length_drop, hN]
  have hDle : (delay_entries (record_delay s._states ep msg.delay)).length ≤
      s._players_needed - 1 := by
    have := (List.subperm_of_subset hDk hsub).length_le
    rwa [List.length_map, hjl] at this
  have key : s._players_needed - 1 ≤
        (delay_entries (record_delay s._states ep msg.delay)).length ↔
      ∀ e ∈ s._eps.drop 1,
        (reported_delay (record_delay s._states ep msg.delay) e).isSome := by
    constructor
    · intro hlen e he
      have hperm := (List.subperm_of_subset hDk hsub).perm_of_length_le
        (by rw [List.length_map, hjl]; exact hlen)
      obtain ⟨kv, hkv, rfl⟩ := List.mem_map.mp (hperm.symm.subset he)
      rw [reported_of_mem_delay_entries _ hkeys kv hkv]
      rfl
    · intro hall
      have hsub' : s._eps.drop 1 ⊆
          (delay_entries (record_delay s._states ep msg.delay)).map Prod.fst :=
        fun e he => mem_delay_entries_of_reported _ e (hall e he)
      have := (List.subperm_of_subset hnodup hsub').length_le
      rwa [List.length_map, hjl] at this
  by_cases hlen : s._players_needed - 1 ≤
      (delay_entries (record_delay s._states ep msg.delay)).length
  · rw [create_recv_delay_ready s ep msg hN2 hN32 hst hlen]
    refine ⟨⟨fun _ => key.mp hlen, fun _ => rfl⟩, fun _ => ⟨?_, ?_, ?_⟩⟩
    · have hperm := (List.subperm_of_subset hDk hsub).perm_of_length_le
        (by rw [List.length_map, hjl]; exact hlen)
      have htake : (delay_entries (record_delay s._states ep msg.delay)).take
          (s._players_needed - 1) = delay_entries (record_delay s._states ep msg.delay) :=
        List.take_of_length_le hDle
      have hmap : (delay_entries (record_delay s._states ep msg.delay)).map
            (fun kv => kv.2.delay) =
          ((delay_entries (record_delay s._states ep msg.delay)).map Prod.fst).map
            (fun e => (reported_delay (record_delay s._states ep msg.delay) e).getD 0) := by
        rw [List.map_map]
        apply List.map_congr_left
        intro kv hkv
        simp [reported_of_mem_delay_entries _ hkeys kv hkv]
      have hcast : ((s._players_needed - 1 : Nat) : Int) = (s._players_needed : Int) - 1 := by
        omega
      simp only [mean_delay, htake, hmap, hcast]
      rw [(hperm.map _).sum_eq]
    · simp only [queue_calls_append, queue_calls_map_queue]
    · have hb : ∀ x ∈ ((delay_entries (record_delay s._states ep msg.delay)).take
          (s._players_needed - 1)).map (fun kv => kv.2.delay), 0 ≤ x ∧ x ≤ 255 := by
        intro x hx
        obtain ⟨kv, hkv, rfl⟩ := List.mem_map.mp hx
        have hkv' := List.mem_of_mem_take hkv
        obtain ⟨hm, hs⟩ := List.mem_filter.mp hkv'
        rcases mem_map_set _ _ _ _ hm with h | h
        · rw [h]; simp only; omega
        · exact hrange kv (List.mem_filter.mpr ⟨h, hs⟩)
      obtain ⟨b0, b1⟩ := sum_bounds _ hb
      have hl : ((((delay_entries (record_delay s._states ep msg.delay)).take
          (s._players_needed - 1)).map (fun kv => kv.2.delay)).length : Int) ≤
          ((s._players_needed - 1 : Nat) : Int) := by
        rw [List.length_map, List.length_take]
        have := Nat.min_le_left (s._players_needed - 1)
          (delay_entries (record_delay s._states ep msg.delay)).length
        exact_mod_cast this
      have hpos : (0 : Int) < ((s._players_needed - 1 : Nat) : Int) := by omega
      have m0 : 0 ≤ mean_delay (record_delay s._states ep msg.delay)
          (s._players_needed - 1) := Int.ediv_nonneg b0 (by omega)
      have m1 : mean_delay (record_delay s._states ep msg.delay)
          (s._players_needed - 1) ≤ 255 := by
        apply Int.ediv_le_of_le_mul hpos
        nlinarith
      simp only [message.delay_of]
      omega
  · rw [create_recv_delay_not_ready s ep msg hN2 hN32 hlen]
    refine ⟨⟨fun h => absurd h hst, fun h => absurd (key.mpr h) hlen⟩, fun h => absurd h hst⟩

theorem delay_negotiation_witness :
    demo_ping3._current_state ≠ MessageType.Ready ∧ demo_ping3._players_needed = 3 ∧
    demo_ping3._eps = [demo_H, demo_A, demo_B] ∧
    (demo_ping3.create_recv_handler demo_chk demo_clock 0 demo_B
        (demo_delay 6))._current_state = MessageType.Ready ∧
    (demo_ping3.create_recv_handler demo_chk demo_clock 0 demo_B (demo_delay 6))._delay =
      ((demo_ping3._eps.drop 1).map (fun e =>
        (reported_delay (record_delay demo_ping3._states demo_B (demo_delay 6).delay)
          e).getD 0)).sum / ((demo_ping3._players_needed : Int) - 1) ∧
    (demo_ping3.create_recv_handler demo_chk demo_clock 0 demo_B (demo_delay 6))._delay = 5 := by
  have h := delay_negotiation demo_chk demo_clock 0 demo_ping3 demo_B (demo_delay 6)
    (by decide) (by decide) (by decide) (by decide) (by decide) (by decide)
    (by unfold map_sorted; decide) (by decide) (by decide) (by decide)
  have hr : (demo_ping3.create_recv_handler demo_chk demo_clock 0 demo_B
      (demo_delay 6))._current_state = MessageType.Ready := h.1.mpr (by decide)
  exact ⟨by decide, by decide, by decide, hr, (h.2 hr).1, by decide⟩

/-- C8 (counterexample): the host of a three-player session with roster `[H, A, B]`,
to which only joiner `A` has reported (delay 4), handles a `Delay(10)` from an endpoint
`X` outside the roster: it moves to `Ready` with delay 7 although joiner `B` has not
reported. -/
theorem delay_negotiation_outsider :
    demo_ping3._eps = [demo_H, demo_A, demo_B] ∧
    demo_ping3._players_needed = 3 ∧
    demo_ping3._current_state = MessageType.Ping ∧
    reported_delay demo_ping3._states demo_A = some 4 ∧
    reported_delay demo_ping3._states demo_B = none ∧
    (demo_ping3.create_recv_handler demo_chk demo_clock 0 demo_X
        (demo_delay 10))._current_state = MessageType.Ready ∧
    reported_delay (demo_ping3.create_recv_handler demo_chk demo_clock 0 demo_X
        (demo_delay 10))._states demo_B = none ∧
    (demo_ping3.create_recv_handler demo_chk demo_clock 0 demo_X (demo_delay 10))._delay = 7 ∧
    ¬ ((demo_ping3.create_recv_handler demo_chk demo_clock 0 demo_X
          (demo_delay 10))._current_state = MessageType.Ready ↔
        ∀ e ∈ demo_ping3._eps.drop 1,
          (reported_delay (demo_ping3.create_recv_handler demo_chk demo_clock 0 demo_X
            (demo_delay 10))._states e).isSome) := by
  decide

/-! ### Shutdown -/

/-- C11: `shutdown` never fails and is idempotent.  For every session `s`, `shutdown`
returns normally and leaves the cleared state: `_current_state` None, `_frame` 0,
`_data_index` 0, `_delay` 0, `_side` 0, empty `_eps`, empty frame and data tables,
first and last received frame -1, `_end_session_request` false, `_last_error` empty,
and the connection semaphore at 1; a second `shutdown` changes nothing. -/
theorem shutdown_idempotent (s : session F S) :
    s.shutdown.1 = outcome.ret () ∧
    (s.shutdown.2._current_state = MessageType.None ∧ s.shutdown.2._frame = 0 ∧
      s.shutdown.2._data_index = 0 ∧ s.shutdown.2._delay = 0 ∧ s.shutdown.2._side = 0 ∧
      s.shutdown.2._eps = [] ∧ s.shutdown.2._frame_table = [] ∧
      s.shutdown.2._data_table = [] ∧ s.shutdown.2._first_received_frame = -1 ∧
      s.shutdown.2._last_received_frame = -1 ∧
      s.shutdown.2._end_session_request = false ∧ s.shutdown.2._last_error = "" ∧
      s.shutdown.2._connection_sem = 1 ∧ s.shutdown.2._shutdown = true) ∧
    s.shutdown.2.shutdown = s.shutdown := by
  refine ⟨rfl, ⟨rfl, rfl, rfl, rfl, rfl, rfl, rfl, rfl, rfl, rfl, rfl, rfl, ?_, rfl⟩, ?_⟩
  · simp [session.shutdown, session.clear, semaphore_post]
  · simp [session.shutdown, session.clear, semaphore_post]

/-! ### Messages of the own side -/

/-- C17: for every session and every message of any kind whose `side` equals the local
`_side`, `recv_hdl` returns at once: the whole session is unchanged, and since the calls
on the transport are part of it, nothing is queued and nothing is sent. -/
theorem recv_hdl_own_side (s : session F S) (ep : endpoint) (msg : message F S)
    (h : (msg.side : Int) = s._side) :
    s.recv_hdl ep msg = (outcome.ret (), s) := by
  simp [session.recv_hdl, h]

theorem recv_hdl_own_side_witness :
    (demo_own_frame.side : Int) = demo_host3._side ∧
      demo_host3.recv_hdl demo_B demo_own_frame = (outcome.ret (), demo_host3) :=
  ⟨by decide, recv_hdl_own_side demo_host3 demo_B demo_own_frame (by decide)⟩

/-! ### The header byte and the 24-bit frame id -/

theorem header_byte_general (cmd side : Nat) :
    header_byte cmd side = (cmd &&& 0x1F) ||| ((side &&& 0x07) <<< 5) ∧
    header_byte cmd side < 256 ∧
    header_byte cmd side &&& 0x1F = cmd &&& 0x1F ∧
    header_byte cmd side >>> 5 = side &&& 0x07 := by
  have hc : cmd &&& 0x1F < 2 ^ 5 := Nat.and_lt_two_pow cmd (by norm_num)
  have hs : side &&& 0x07 < 2 ^ 3 := Nat.and_lt_two_pow side (by norm_num)
  unfold header_byte
  generalize cmd &&& 0x1F = c at hc ⊢
  generalize side &&& 0x07 = x at hs ⊢
  have hc' : c < 32 := by omega
  have hx' : x < 8 := by omega
  clear hc hs
  interval_cases c <;> interval_cases x <;> decide

theorem serialize_eps_isSome (eps : List endpoint) (us : List (List Nat))
    (h : eps.length ≤ us.length) : (serialize_eps eps us).isSome := by
  induction eps generalizing us with
  | nil => rfl
  | cons e es ih =>
    cases us with
    | nil => simp at h
    | cons u us =>
      have := ih us (by simpa using h)
      cases hs : serialize_eps es us with
      | none => rw [hs] at this; exact Bool.noConfusion this
      | some tl => simp [serialize_eps, hs]

theorem serialize_head {T S : Type} (fc : archive_ops T) (sc : archive_ops S)
    (m : message T S) (bytes : List Nat) (h : m.serialize fc sc = some bytes) :
    ∃ payload, bytes = header_byte m.cmd m.side :: payload := by
  unfold message.serialize at h
  simp only at h
  split_ifs at h
  · exact ⟨_, (Option.some.inj h).symm⟩
  · cases hw : write_raw m.data.p m.data.data_length with
    | none => rw [hw] at h; exact Option.noConfusion h
    | some raw => rw [hw] at h; exact ⟨_, (Option.some.inj h).symm⟩
  · exact ⟨_, (Option.some.inj h).symm⟩
  · exact ⟨_, (Option.some.inj h).symm⟩
  · exact ⟨_, (Option.some.inj h).symm⟩
  · cases hw : serialize_eps m.eps m.usernames with
    | none => rw [hw] at h; exact Option.noConfusion h
    | some body => rw [hw] at h; exact ⟨_, (Option.some.inj h).symm⟩
  · exact ⟨_, (Option.some.inj h).symm⟩
  · exact ⟨_, (Option.some.inj h).symm⟩

theorem serialize_isSome {T S : Type} (fc : archive_ops T) (sc : archive_ops S)
    (m : message T S) (hd : m.data.data_length ≤ m.data.p.length)
    (hu : m.eps.length ≤ m.usernames.length) : (m.serialize fc sc).isSome := by
  have h1 : write_raw m.data.p m.data.data_length = some (m.data.p.take m.data.data_length) := by
    simp [write_raw, hd]
  have h2 := serialize_eps_isSome m.eps m.usernames hu
  cases hs : serialize_eps m.eps m.usernames with
  | none => rw [hs] at h2; exact Bool.noConfusion h2
  | some body =>
    unfold message.serialize
    simp only [h1, hs]
    split_ifs <;> rfl

theorem deserialize_header {T S : Type} (fc : archive_ops T) (sc : archive_ops S)
    (m0 m' : message T S) (b : Nat) (rest rest' : List Nat) (hb : b < 256)
    (h : message.deserialize fc sc m0 (b :: rest) = some (m', rest')) :
    m'.cmd = b &&& 0x1F ∧ (m'.cmd ≠ MessageType.Info → m'.side = b >>> 5) := by
  simp only [message.deserialize, get_le_one, Nat.mod_eq_of_lt hb] at h
  split_ifs at h with h1 h2 h3 h4 h5 h6 h7
  all_goals (repeat' split at h)
  all_goals first
    | exact Option.noConfusion h
    | (have h' := Option.some.inj h
       have hm : _ = m' := congrArg Prod.fst h'
       subst hm
       first
         | exact ⟨rfl, fun _ => rfl⟩
         | exact ⟨rfl, fun hne => absurd h6 hne⟩)

/-- C15: the header byte.  Whenever `serialize` writes a message, the first byte is
`(cmd & 0x1F) | ((side & 0x07) << 5)` (and it does write whenever the data buffer holds
`data_length` bytes and there is a user name for every endpoint); for `cmd` in 0..10
and `side` in 0..7 the packing is injective, with `byte & 0x1F = cmd` and
`byte >> 5 = side`; and `deserialize` sets `cmd = byte & 0x1F` and, for every kind but
`Info`, `side = byte >> 5`. -/
theorem header_byte_packing {T S : Type} (fc : archive_ops T) (sc : archive_ops S) :
    (∀ (m : message T S) (bytes : List Nat), m.serialize fc sc = some bytes →
      bytes.head? = some ((m.cmd &&& 0x1F) ||| ((m.side &&& 0x07) <<< 5))) ∧
    (∀ m : message T S, m.data.data_length ≤ m.data.p.length →
      m.eps.length ≤ m.usernames.length → (m.serialize fc sc).isSome) ∧
    (∀ cmd side cmd' side' : Nat, cmd ≤ 10 → side < 8 → cmd' ≤ 10 → side' < 8 →
      (cmd &&& 0x1F) ||| ((side &&& 0x07) <<< 5) =
        (cmd' &&& 0x1F) ||| ((side' &&& 0x07) <<< 5) →
      cmd = cmd' ∧ side = side') ∧
    (∀ cmd side : Nat, cmd ≤ 10 → side < 8 →
      ((cmd &&& 0x1F) ||| ((side &&& 0x07) <<< 5)) &&& 0x1F = cmd ∧
      ((cmd &&& 0x1F) ||| ((side &&& 0x07) <<< 5)) >>> 5 = side) ∧
    (∀ (m0 m' : message T S) (b : Nat) (rest rest' : List Nat), b < 256 →
      message.deserialize fc sc m0 (b :: rest) = some (m', rest') →
      m'.cmd = b &&& 0x1F ∧ (m'.cmd ≠ MessageType.Info → m'.side = b >>> 5)) := by
  have hdec : ∀ cmd side : Nat, cmd ≤ 10 → side < 8 →
      ((cmd &&& 0x1F) ||| ((side &&& 0x07) <<< 5)) &&& 0x1F = cmd ∧
      ((cmd &&& 0x1F) ||| ((side &&& 0x07) <<< 5)) >>> 5 = side := by
    intro cmd side hc hs
    obtain ⟨_, h2, h3⟩ := header_byte_decode cmd side hc hs
    rw [(header_byte_general cmd side).1] at h2 h3
    exact ⟨h2, h3⟩
  refine ⟨?_, fun m hd hu => serialize_isSome fc sc m hd hu, ?_, hdec, ?_⟩
  · intro m bytes h
    obtain ⟨payload, hp⟩ := serialize_head fc sc m bytes h
    rw [hp, (header_byte_general m.cmd m.side).1]
    rfl
  · intro cmd side cmd' side' hc hs hc' hs' heq
    obtain ⟨a1, a2⟩ := hdec cmd side hc hs
    obtain ⟨b1, b2⟩ := hdec cmd' side' hc' hs'
    rw [heq] at a1 a2
    exact ⟨a1.symm.trans b1, a2.symm.trans b2⟩
  · intro m0 m' b rest rest' hb h
    exact deserialize_header fc sc m0 m' b rest rest' hb h

theorem header_byte_packing_witness :
    demo_frame_msg.serialize byte_ops byte_ops = some [97, 112, 17, 1, 7] ∧
    ([97, 112, 17, 1, 7] : List Nat).head? =
      some ((demo_frame_msg.cmd &&& 0x1F) ||| ((demo_frame_msg.side &&& 0x07) <<< 5)) ∧
    ((1 : Nat) &&& 0x1F) ||| (((3 : Nat) &&& 0x07) <<< 5) = 97 ∧
    (97 : Nat) &&& 0x1F = 1 ∧ (97 : Nat) >>> 5 = 3 := by
  have h : demo_frame_msg.serialize byte_ops byte_ops = some [97, 112, 17, 1, 7] := by decide
  exact ⟨h, (header_byte_packing byte_ops byte_ops).1 demo_frame_msg _ h, by decide,
    by decide, by decide⟩

/-- C16: the 24-bit frame id.  For every `frame_id` (negative values and values from
`2^24` on included) a `Frame` message is written as the header byte, the three bytes
`frame_id & 0xFF`, `(frame_id >> 8) & 0xFF`, `(frame_id >> 16) & 0xFF` in this order
(least significant first) and the frame; decoding yields `frame_id mod 2^24`, which
lies in `0 .. 2^24 - 1`. -/
theorem frame_id_24_bit {T S : Type} (fc : archive_ops T) (sc : archive_ops S)
    (hfc : fc.lawful) (m m0 : message T S) (rest : List Nat)
    (hcmd : m.cmd = MessageType.Frame) :
    m.serialize fc sc = some (header_byte m.cmd m.side ::
      (m.frame_id % 256).toNat :: ((m.frame_id / 2 ^ 8) % 256).toNat ::
      ((m.frame_id / 2 ^ 16) % 256).toNat :: fc.put m.frame) ∧
    ((m.frame_id % 256).toNat < 256 ∧ ((m.frame_id / 2 ^ 8) % 256).toNat < 256 ∧
      ((m.frame_id / 2 ^ 16) % 256).toNat < 256) ∧
    (((m.frame_id % 256).toNat + 256 * ((m.frame_id / 2 ^ 8) % 256).toNat +
      65536 * ((m.frame_id / 2 ^ 16) % 256).toNat : Nat) : Int) = m.frame_id % 2 ^ 24 ∧
    ∃ m', message.deserialize fc sc m0 (header_byte m.cmd m.side ::
        (m.frame_id % 256).toNat :: ((m.frame_id / 2 ^ 8) % 256).toNat ::
        ((m.frame_id / 2 ^ 16) % 256).toNat :: (fc.put m.frame ++ rest)) = some (m', rest) ∧
      m'.cmd = MessageType.Frame ∧ m'.frame = m.frame ∧
      m'.frame_id = m.frame_id % 2 ^ 24 ∧ 0 ≤ m'.frame_id ∧ m'.frame_id < 2 ^ 24 := by
  have ha0 : 0 ≤ m.frame_id % 256 := Int.emod_nonneg _ (by norm_num)
  have hb0 : 0 ≤ (m.frame_id / 2 ^ 8) % 256 := Int.emod_nonneg _ (by norm_num)
  have hc0 : 0 ≤ (m.frame_id / 2 ^ 16) % 256 := Int.emod_nonneg _ (by norm_num)
  have ha1 : m.frame_id % 256 < 256 := Int.emod_lt_of_pos _ (by norm_num)
  have hb1 : (m.frame_id / 2 ^ 8) % 256 < 256 := Int.emod_lt_of_pos _ (by norm_num)
  have hc1 : (m.frame_id / 2 ^ 16) % 256 < 256 := Int.emod_lt_of_pos _ (by norm_num)
  have hal : (m.frame_id % 256).toNat < 256 := by omega
  have hbl : ((m.frame_id / 2 ^ 8) % 256).toNat < 256 := by omega
  have hcl : ((m.frame_id / 2 ^ 16) % 256).toNat < 256 := by omega
  obtain ⟨_, g2, g3, _⟩ := header_byte_general m.cmd m.side
  have hparts := frame_id_parts m.frame_id
  rw [Nat.mod_eq_of_lt hal, Nat.mod_eq_of_lt hbl, Nat.mod_eq_of_lt hcl] at hparts
  have hm0 : 0 ≤ m.frame_id % 2 ^ 24 := Int.emod_nonneg _ (by norm_num)
  have hm1 : m.frame_id % 2 ^ 24 < 2 ^ 24 := Int.emod_lt_of_pos _ (by norm_num)
  have hw : ∀ tl : List Nat, fc.get (fc.put m.frame ++ tl) = some (m.frame, tl) := hfc m.frame
  refine ⟨?_, ⟨hal, hbl, hcl⟩, ?_, ?_⟩
  · have hbl' : (m.frame_id / 256 % 256).toNat < 256 := by simpa using hbl
    have hcl' : (m.frame_id / 65536 % 256).toNat < 256 := by simpa using hcl
    simp [message.serialize, hcmd, MessageType.Frame, MessageType.Join, MessageType.Data,
      MessageType.Deny, MessageType.Wait, put_le, Nat.mod_eq_of_lt hal,
      Nat.mod_eq_of_lt hbl', Nat.mod_eq_of_lt hcl']
  · push_cast
    omega
  · have g3' : header_byte m.cmd m.side &&& 31 = 1 := by rw [g3, hcmd]; rfl
    have hdes : message.deserialize fc sc m0 (header_byte m.cmd m.side ::
        (m.frame_id % 256).toNat :: ((m.frame_id / 2 ^ 8) % 256).toNat ::
        ((m.frame_id / 2 ^ 16) % 256).toNat :: (fc.put m.frame ++ rest)) =
        some ({ m0 with
                cmd := header_byte m.cmd m.side &&& 31,
                side := header_byte m.cmd m.side >>> 5,
                frame_id := (((m.frame_id % 256).toNat |||
                  (((m.frame_id / 2 ^ 8) % 256).toNat <<< 8) |||
                  (((m.frame_id / 2 ^ 16) % 256).toNat <<< 16) : Nat) : Int),
                frame := m.frame }, rest) := by
      simp only [message.deserialize, get_le_one, Nat.mod_eq_of_lt g2,
        Nat.mod_eq_of_lt hal, Nat.mod_eq_of_lt hbl, Nat.mod_eq_of_lt hcl, hw]
      simp only [g3', MessageType.Frame, MessageType.Join, MessageType.Data,
        MessageType.Deny, MessageType.Wait]
      simp
    exact ⟨_, hdes, g3', rfl, hparts, by rw [hparts]; exact hm0, by rw [hparts]; exact hm1⟩

theorem frame_id_24_bit_witness :
    demo_frame_minus_one.cmd = MessageType.Frame ∧
    demo_frame_minus_one.serialize byte_ops byte_ops = some [65, 255, 255, 255, 7] ∧
    ∃ m', message.deserialize byte_ops byte_ops (message.ctor MessageType.None)
        [65, 255, 255, 255, 7, 9] = some (m', [9]) ∧ m'.frame_id = 16777215 := by
  obtain ⟨h1, _, _, m', h4, _, _, h5, _⟩ :=
    frame_id_24_bit byte_ops byte_ops byte_ops_lawful demo_frame_minus_one
      (message.ctor MessageType.None) [9] (by decide)
  exact ⟨by decide, by decide, m', h4, h5⟩

/-- C14: the wire form of `Data` is not the header byte, the `int64` index, the `u32`
length and the raw bytes alone.  For the blob `[1, 2]` with index 3 of side 1 and 7 in
the `state` field, `serialize` writes those fifteen bytes and then the state byte 7;
`deserialize` fails on the fifteen bytes alone, and with one more byte, 9, after them
it consumes that byte and stores it into `state`, which held the default value
before. -/
theorem data_wire_carries_state :
    demo_data_msg.cmd = MessageType.Data ∧
    demo_data_msg.serialize byte_ops byte_ops = some (demo_data_wire ++ [7]) ∧
    demo_data_msg.serialize byte_ops byte_ops ≠ some demo_data_wire ∧
    message.deserialize byte_ops byte_ops (message.ctor MessageType.None) demo_data_wire
      = none ∧
    (message.deserialize byte_ops byte_ops (message.ctor MessageType.None)
      (demo_data_wire ++ [9])).map (fun r => (r.1.cmd, r.1.frame_id, r.1.data, r.1.state, r.2))
      = some (MessageType.Data, 3, ⟨[1, 2], 2⟩, 9, []) ∧
    (message.ctor MessageType.None : message (Fin 256) (Fin 256)).state = 0 := by
  decide

theorem recv_hdl_delay_stores (s : session F S) (ep : endpoint) (msg : message F S)
    (hc : msg.cmd = MessageType.Delay) (h0 : ¬ (msg.side : Int) = s._side) :
    (s.recv_hdl ep msg).1 = outcome.ret () ∧
    (s.recv_hdl ep msg).2._delay = (msg.delay : Int) := by
  obtain ⟨s1, -, hr⟩ := recv_hdl_unfold s ep msg h0
  have hF : ¬ msg.cmd = MessageType.Frame := by rw [hc]; decide
  have hD : ¬ msg.cmd = MessageType.Data := by rw [hc]; decide
  have hE : ¬ msg.cmd = MessageType.EndSession := by rw [hc]; decide
  have h1 : s1.recv_frame (msg.side : Int) msg = (outcome.ret (), s1) := by
    simp only [session.recv_frame, hF, if_false]
  rw [hr, h1]
  simp only [recv_data_of_not _ _ _ _ hD, recv_end_session_of_not _ _ _ _ hE]
  refine ⟨trivial, ?_⟩
  unfold session.recv_delay
  simp only [hc, if_true]
  split_ifs <;> rfl

/-- C12: `reannounce_delay` does not bring every peer to the announcer's delay.  In the
three-player session the joiner of side 1, whose local delay is 5, announces: the one
`Delay` message it queues (to the host) carries side 0, since `reannounce_delay` never
assigns `msg.side`, and the host (side 0, delay 3) drops it as a message of its own
side, keeping delay 3 and echoing nothing.  In the two-player session the host, whose
local delay is 256, announces: the message carries delay 0 and the joiner that handles
it ends with delay 0. -/
theorem reannounce_delay_diverges :
    (session.connected demo_joiner3 ∧ session.connected demo_host3 ∧
      demo_joiner3._delay = 5 ∧ demo_joiner3._side = 1 ∧ demo_host3._side = 0) ∧
    (demo_joiner3.reannounce_delay.1 = outcome.ret () ∧
      queue_calls demo_joiner3.reannounce_delay.2._async
        = [((⟨1, 7000⟩ : endpoint), message.delay_of 5)] ∧
      (message.delay_of 5 : message Nat Nat).side = 0 ∧
      (message.delay_of 5 : message Nat Nat).delay = 5) ∧
    (demo_host3.recv_hdl ⟨2, 7000⟩ (message.delay_of 5) = (outcome.ret (), demo_host3) ∧
      demo_host3._delay = 3) ∧
    (session.connected (demo_host.delay 256) ∧ session.connected demo_joiner ∧
      (demo_host.delay 256).reannounce_delay.1 = outcome.ret () ∧
      queue_calls (demo_host.delay 256).reannounce_delay.2._async
        = [((⟨2, 7000⟩ : endpoint), message.delay_of 256)] ∧
      (message.delay_of 256 : message Nat Nat).delay = 0 ∧
      (demo_joiner.recv_hdl ⟨1, 7000⟩ (message.delay_of 256)).1 = outcome.ret () ∧
      (demo_joiner.recv_hdl ⟨1, 7000⟩ (message.delay_of 256)).2._delay = 0 ∧
      (demo_host.delay 256).reannounce_delay.2._delay = 256) := by
  refine ⟨⟨?_, ?_, ?_, ?_, ?_⟩, ⟨?_, ?_, ?_, ?_⟩, ⟨?_, ?_⟩, ?_, ?_, ?_, ?_, ?_, ?_, ?_, ?_⟩ <;>
    first | decide | (unfold session.connected; decide)

theorem join_usernames_isSome (es : List endpoint) (us : List (List Nat))
    (um : List (endpoint × List Nat)) (h : es.length ≤ us.length) :
    (join_usernames es us um).isSome := by
  induction es generalizing us um with
  | nil => rfl
  | cons e es ih =>
    cases us with
    | nil => simp at h
    | cons u us =>
      simp only [join_usernames]
      exact ih us _ (by simpa using h)

theorem join_recv_handler_step [Inhabited F] [Inhabited S] (chk : S → S → Bool)
    (s : session F S) (ep : endpoint) (msg : message F S) :
    (s.join_recv_handler chk ep msg).2._host_ep = s._host_ep ∧
    (s.join_recv_handler chk ep msg).2._state = s._state ∧
    (s._current_state = MessageType.Deny →
      ¬ (ep = s._host_ep ∧ msg.cmd = MessageType.Delay) →
      ¬ (ep = s._host_ep ∧ msg.cmd = MessageType.Info ∧ chk s._state msg.state = true) →
      (s.join_recv_handler chk ep msg).2._current_state = MessageType.Deny) := by
  unfold session.join_recv_handler
  by_cases hep : ep = s._host_ep
  · simp only [ne_eq, hep, not_true_eq_false, if_false, true_and]
    by_cases hI : msg.cmd = MessageType.Info
    · have hD : ¬ msg.cmd = MessageType.Deny := by rw [hI]; decide
      have hL : ¬ msg.cmd = MessageType.Delay := by rw [hI]; decide
      have hP : ¬ msg.cmd = MessageType.Ping := by rw [hI]; decide
      simp only [if_pos hI, if_neg hD, if_neg hL, if_neg hP]
      cases join_usernames msg.eps msg.usernames s._username_map with
      | none => refine ⟨?_, ?_, ?_⟩ <;>
            first | rfl | trivial | (intros; first | rfl | trivial)
      | some um =>
        refine ⟨rfl, rfl, fun _ _ h3 => ?_⟩
        have hc : chk s._state msg.state = false := by
          cases hx : chk s._state msg.state with
          | false => rfl
          | true => exact absurd ⟨hI, hx⟩ h3
        simp [hc]
    · simp only [if_neg hI]
      by_cases hD : msg.cmd = MessageType.Deny
      · have hL : ¬ msg.cmd = MessageType.Delay := by rw [hD]; decide
        have hP : ¬ msg.cmd = MessageType.Ping := by rw [hD]; decide
        simp only [if_pos hD, if_neg hL, if_neg hP]
        refine ⟨?_, ?_, ?_⟩ <;>
            first | rfl | trivial | (intros; first | rfl | trivial)
      · by_cases hL : msg.cmd = MessageType.Delay
        · have hP : ¬ msg.cmd = MessageType.Ping := by rw [hL]; decide
          simp only [if_neg hD, if_pos hL, if_neg hP]
          refine ⟨?_, ?_, ?_⟩ <;>
            first | rfl | trivial | (intros; first | rfl | trivial)
        · by_cases hP : msg.cmd = MessageType.Ping
          · simp only [if_neg hD, if_neg hL, if_pos hP]
            refine ⟨?_, ?_, ?_⟩ <;>
            first | rfl | trivial | (intros; first | rfl | trivial)
          · simp only [if_neg hD, if_neg hL, if_neg hP]
            refine ⟨?_, ?_, ?_⟩ <;>
            first | rfl | trivial | (intros; first | rfl | trivial)
  · simp only [ne_eq, hep, not_false_eq_true, if_true]
    refine ⟨?_, ?_, ?_⟩ <;>
            first | rfl | trivial | (intros; first | rfl | trivial)

/-- C18 (counterexample): on a joiner whose state is `Deny`, `join_recv_handler`
handling a `Delay` message of the host sets the state to `Ready`, and handling an `Info`
of the host whose state passes the check sets it to `Info`. -/
theorem join_recv_deny_overwritten :
    demo_denied._current_state = MessageType.Deny ∧
    demo_denied._host_ep = demo_H ∧
    (demo_denied.join_recv_handler demo_chk demo_H (demo_delay 3)).1 = outcome.ret () ∧
    (demo_denied.join_recv_handler demo_chk demo_H (demo_delay 3)).2._current_state
      = MessageType.Ready ∧
    ((demo_denied.join_recv_handler demo_chk demo_H demo_deny).2.join_recv_handler
      demo_chk demo_H (demo_delay 3)).2._current_state = MessageType.Ready ∧
    (demo_denied.join_recv_handler demo_chk demo_H
      (message.ctor MessageType.Info)).2._current_state = MessageType.Info := by
  decide

/-- C18 (amended): `join_recv_handler` sets the state to `Deny` on a `Deny` message of
the host and on an `Info` of the host whose state fails the check; and from the state
`Deny`, a sequence of messages none of which is a `Delay` of the host or an `Info` of
the host whose state passes the check is handled leaving the state at `Deny`. -/
theorem join_recv_deny_kept [Inhabited F] [Inhabited S] (chk : S → S → Bool)
    (s : session F S) (msg : message F S) (msgs : List (endpoint × message F S))
    (hcmd : msg.cmd = MessageType.Deny ∨
      (msg.cmd = MessageType.Info ∧ chk s._state msg.state = false ∧
        msg.eps.length ≤ msg.usernames.length))
    (hlater : ∀ em ∈ msgs, ¬ (em.1 = s._host_ep ∧ (em.2.cmd = MessageType.Delay ∨
      (em.2.cmd = MessageType.Info ∧ chk s._state em.2.state = true)))) :
    (s.join_recv_handler chk s._host_ep msg).1 = outcome.ret () ∧
    (s.join_recv_handler chk s._host_ep msg).2._current_state = MessageType.Deny ∧
    ((s.join_recv_handler chk s._host_ep msg).2.join_recv_run chk msgs).2._current_state
      = MessageType.Deny := by
  have key : ∀ (l : List (endpoint × message F S)) (t : session F S),
      t._host_ep = s._host_ep → t._state = s._state →
      t._current_state = MessageType.Deny →
      (∀ em ∈ l, ¬ (em.1 = s._host_ep ∧ (em.2.cmd = MessageType.Delay ∨
        (em.2.cmd = MessageType.Info ∧ chk s._state em.2.state = true)))) →
      (t.join_recv_run chk l).2._current_state = MessageType.Deny := by
    intro l
    induction l with
    | nil => intro t _ _ h _; exact h
    | cons em rest ih =>
      intro t h1 h2 h3 h4
      obtain ⟨ep, m⟩ := em
      have hem := h4 (ep, m) (List.mem_cons_self _ _)
      obtain ⟨g1, g2, g3⟩ := join_recv_handler_step chk t ep m
      have g4 := g3 h3 (by rw [h1]; exact fun h => hem ⟨h.1, Or.inl h.2⟩)
        (by rw [h1, h2]; exact fun h => hem ⟨h.1, Or.inr h.2⟩)
      simp only [session.join_recv_run]
      cases hr : t.join_recv_handler chk ep m with
      | mk o t1 =>
        rw [hr] at g1 g2 g4
        cases o with
        | ret v =>
          exact ih t1 (g1.trans h1) (g2.trans h2) g4
            (fun em h => h4 em (List.mem_cons_of_mem _ h))
        | threw w => exact g4
        | undefined => exact g4
        | blocks => exact g4
  have first : (s.join_recv_handler chk s._host_ep msg).1 = outcome.ret () ∧
      (s.join_recv_handler chk s._host_ep msg).2._current_state = MessageType.Deny := by
    unfold session.join_recv_handler
    simp only [ne_eq, not_true_eq_false, if_false]
    rcases hcmd with hD | ⟨hI, hc, hlen⟩
    · have hI : ¬ msg.cmd = MessageType.Info := by rw [hD]; decide
      have hL : ¬ msg.cmd = MessageType.Delay := by rw [hD]; decide
      have hP : ¬ msg.cmd = MessageType.Ping := by rw [hD]; decide
      simp only [if_neg hI, if_pos hD, if_neg hL, if_neg hP]
      refine ⟨?_, ?_⟩ <;> first | rfl | trivial
    · have hD : ¬ msg.cmd = MessageType.Deny := by rw [hI]; decide
      have hL : ¬ msg.cmd = MessageType.Delay := by rw [hI]; decide
      have hP : ¬ msg.cmd = MessageType.Ping := by rw [hI]; decide
      simp only [if_pos hI, if_neg hD, if_neg hL, if_neg hP]
      have hsome := join_usernames_isSome msg.eps msg.usernames s._username_map hlen
      cases hj : join_usernames msg.eps msg.usernames s._username_map with
      | none => rw [hj] at hsome; exact absurd hsome (by simp)
      | some um => simp [hc]
  obtain ⟨g1, g2, -⟩ := join_recv_handler_step chk s s._host_ep msg
  exact ⟨first.1, first.2, key msgs _ g1 g2 first.2 hlater⟩

theorem join_recv_deny_kept_witness :
    (demo_join2.join_recv_handler demo_chk demo_H demo_deny).1 = outcome.ret () ∧
    (demo_join2.join_recv_handler demo_chk demo_H demo_deny).2._current_state
      = MessageType.Deny ∧
    ((demo_join2.join_recv_handler demo_chk demo_H demo_deny).2.join_recv_run demo_chk
      [(demo_H, demo_ping), (demo_X, demo_delay 3), (demo_H, demo_deny),
       (demo_H, demo_join)]).2._current_state = MessageType.Deny :=
  join_recv_deny_kept demo_chk demo_join2 demo_deny
    [(demo_H, demo_ping), (demo_X, demo_delay 3), (demo_H, demo_deny), (demo_H, demo_join)]
    (Or.inl (by decide)) (by decide)

/-- C19 (counterexample): a host that has already reached `Ready` handles a `Join` whose
state the check rejects; its state is left at `Ready`, so `create_handler` wakes with
`_current_state == Ready`, the polling loop ends at the first `send()` that returns 0
and `create` returns true. -/
theorem create_mismatch_at_ready :
    demo_ready2._current_state = MessageType.Ready ∧
    demo_join_other.cmd = MessageType.Join ∧
    demo_chk demo_ready2._state demo_join_other.state = false ∧
    (demo_ready2.create_recv_handler demo_chk demo_clock 0 demo_X
      demo_join_other)._current_state = MessageType.Ready ∧
    ((demo_ready2.create_recv_handler demo_chk demo_clock 0 demo_X
      demo_join_other).create_handler_wake 0 5000 demo_clock (fun _ => 0) 1).1
      = outcome.ret true ∧
    (session.create_end ((demo_ready2.create_recv_handler demo_chk demo_clock 0 demo_X
      demo_join_other).create_handler_wake 0 5000 demo_clock (fun _ => 0) 1)).1
      = outcome.ret true := by
  decide

/-- C19 (amended): a host that has not reached `Ready` handles a `Join` whose state the
check rejects.  The handler queues exactly one message, a `Deny` carrying the local
state of the host, to the sender, posts the connection semaphore once, and leaves
`_current_state`, `_eps`, `_side` and `_states` unchanged; `create_handler`, waking
after it, finds a state other than `Ready` and returns false, and `create` returns
false, whatever the timeout, the clock and the acknowledgements are. -/
theorem create_recv_join_mismatch [Inhabited F] [Inhabited S] (chk : S → S → Bool)
    (time_ms : Nat → Nat) (seed : Nat) (s : session F S) (ep : endpoint) (msg : message F S)
    (timeout : Int) (start_time : Nat) (clock : Nat → Nat) (unacked : Nat → Int) (fuel : Nat)
    (hcmd : msg.cmd = MessageType.Join) (hchk : chk s._state msg.state = false)
    (hstate : s._current_state ≠ MessageType.Ready)
    (hsem : s._connection_sem + 1 < 2 ^ 32) :
    queue_calls (s.create_recv_handler chk time_ms seed ep msg)._async =
      queue_calls s._async ++
        [(ep, { (message.ctor MessageType.Deny : message F S) with state := s._state })] ∧
    (s.create_recv_handler chk time_ms seed ep msg)._connection_sem
      = s._connection_sem + 1 ∧
    (s.create_recv_handler chk time_ms seed ep msg)._current_state = s._current_state ∧
    (s.create_recv_handler chk time_ms seed ep msg)._eps = s._eps ∧
    (s.create_recv_handler chk time_ms seed ep msg)._side = s._side ∧
    (s.create_recv_handler chk time_ms seed ep msg)._states = s._states ∧
    ((s.create_recv_handler chk time_ms seed ep msg).create_handler_wake timeout start_time
      clock unacked fuel).1 = outcome.ret false ∧
    ((s.create_recv_handler chk time_ms seed ep msg).create_handler_wake timeout start_time
      clock unacked fuel).2._current_state = s._current_state ∧
    (session.create_end ((s.create_recv_handler chk time_ms seed ep msg).create_handler_wake
      timeout start_time clock unacked fuel)).1 = outcome.ret false := by
  have ht : s.create_recv_handler chk time_ms seed ep msg =
      { s with
        _username_map := map_set ep msg.username s._username_map,
        _async := s._async ++ [transport_call.queue ep
            { (message.ctor MessageType.Deny : message F S) with state := s._state }] ++
          (List.replicate 5 ep).map s.send_call,
        _connection_sem := semaphore_post s._connection_sem } := by
    simp only [session.create_recv_handler, session.create_recv_join, hcmd, hchk,
      foldl_send_ep_eq, session.queue, send_call_def]
    simp
  have hp : semaphore_post s._connection_sem = s._connection_sem + 1 := by
    unfold semaphore_post
    exact Nat.mod_eq_of_lt hsem
  rw [ht]
  have hw : session.create_handler_wake
      ({ s with
        _username_map := map_set ep msg.username s._username_map,
        _async := s._async ++ [transport_call.queue ep
            { (message.ctor MessageType.Deny : message F S) with state := s._state }] ++
          (List.replicate 5 ep).map s.send_call,
        _connection_sem := semaphore_post s._connection_sem } : session F S)
      timeout start_time clock unacked fuel =
      (outcome.ret false, { s with
        _username_map := map_set ep msg.username s._username_map,
        _async := s._async ++ [transport_call.queue ep
            { (message.ctor MessageType.Deny : message F S) with state := s._state }] ++
          (List.replicate 5 ep).map s.send_call,
        _connection_sem := s._connection_sem }) := by
    simp only [session.create_handler_wake, hp]
    simp [hstate]
  rw [hw]
  refine ⟨?_, hp, rfl, rfl, rfl, rfl, rfl, rfl, rfl⟩
  simp only [queue_calls_append, queue_calls_map_send, queue_calls, List.append_nil]

theorem create_recv_join_mismatch_witness :
    queue_calls (demo_create2.create_recv_handler demo_chk demo_clock 0 demo_X
      demo_join_other)._async = [(demo_X, { (message.ctor MessageType.Deny : message Nat Nat)
        with state := 0 })] ∧
    (demo_create2.create_recv_handler demo_chk demo_clock 0 demo_X
      demo_join_other)._connection_sem = 1 ∧
    (demo_create2.create_recv_handler demo_chk demo_clock 0 demo_X
      demo_join_other)._current_state = MessageType.Wait ∧
    (session.create_end ((demo_create2.create_recv_handler demo_chk demo_clock 0 demo_X
      demo_join_other).create_handler_wake 0 5000 demo_clock (fun _ => 0) 1)).1
      = outcome.ret false := by
  obtain ⟨h1, h2, h3, -, -, -, -, -, h9⟩ :=
    create_recv_join_mismatch demo_chk demo_clock 0 demo_create2 demo_X demo_join_other
      0 5000 demo_clock (fun _ => 0) 1 (by decide) (by decide) (by decide) (by decide)
  exact ⟨h1, h2, h3, h9⟩

theorem ready_loop_eq (time_ms : Nat → Nat) (needed : Nat) (j : Nat)
    (l : List (endpoint × peer_info)) (rl : List endpoint) (h : rl.length < needed) :
    ready_loop time_ms needed j l rl =
      rl ++ (fresh_joins time_ms j l).take (needed - rl.length) := by
  induction l generalizing j rl with
  | nil => simp [ready_loop, fresh_joins]
  | cons kv rest ih =>
    obtain ⟨k, pi⟩ := kv
    unfold ready_loop fresh_joins
    simp only
    split_ifs with h1 h2 h3
    · simp only [List.length_append, List.length_singleton] at h2
      have e : needed - rl.length = 1 := by omega
      rw [e]
      simp
    · simp only [List.length_append, List.length_singleton] at h2
      rw [ih (j + 1) (rl ++ [k]) (by simp only [List.length_append, List.length_singleton]; omega)]
      have e : needed - rl.length = (needed - (rl ++ [k]).length) + 1 := by
        simp only [List.length_append, List.length_singleton]; omega
      rw [e, List.take_succ_cons, List.append_assoc]
      rfl
    · omega
    · exact ih (j + 1) rl h

theorem info_queue_loop_async (msg : message F S) (i : Nat) (l : List endpoint)
    (s : session F S) :
    (info_queue_loop msg i l s)._async =
      s._async ++ (l.enumFrom i).map
        (fun p => transport_call.queue p.2 { msg with side := p.1 % 256 }) := by
  induction l generalizing i s with
  | nil => simp [info_queue_loop]
  | cons e rest ih =>
    simp only [info_queue_loop, ih, session.queue, List.enumFrom_cons, List.map_cons,
      List.append_assoc, List.singleton_append]

theorem queue_calls_map_queue_pair {M α : Type} (l : List α) (f : α → endpoint) (g : α → M) :
    queue_calls (l.map (fun p => transport_call.queue (f p) (g p))) =
      l.map (fun p => (f p, g p)) := by
  induction l with
  | nil => rfl
  | cons a rest ih => simp only [List.map_cons, queue_calls, ih]

theorem info_usernames_length (side : Int) (username : List Nat) (i : Nat)
    (l : List endpoint) (um : List (endpoint × List Nat)) :
    (info_usernames side username i l um).1.length = l.length := by
  induction l generalizing i um with
  | nil => rfl
  | cons e rest ih =>
    unfold info_usernames
    split_ifs <;> simp [ih]

theorem create_recv_handler_join [Inhabited F] [Inhabited S] (chk : S → S → Bool)
    (time_ms : Nat → Nat) (seed : Nat) (s : session F S) (ep : endpoint) (msg : message F S)
    (hcmd : msg.cmd = MessageType.Join) :
    s.create_recv_handler chk time_ms seed ep msg =
      (s.create_recv_join chk time_ms seed ep msg).1 := by
  unfold session.create_recv_handler
  simp only [hcmd, if_true,
    eq_false (by decide : ¬ MessageType.Join = MessageType.Ping),
    eq_false (by decide : ¬ MessageType.Join = MessageType.Delay), if_false]
  split_ifs <;> rfl

theorem join_recv_handler_info [Inhabited F] [Inhabited S] (chk : S → S → Bool)
    (j : session F S) (msg : message F S) (hcmd : msg.cmd = MessageType.Info)
    (hlen : msg.eps.length ≤ msg.usernames.length) :
    (j.join_recv_handler chk j._host_ep msg).1 = outcome.ret () ∧
    (j.join_recv_handler chk j._host_ep msg).2._side = (msg.side : Int) ∧
    (j.join_recv_handler chk j._host_ep msg).2._eps = msg.eps := by
  have hD : ¬ msg.cmd = MessageType.Deny := by rw [hcmd]; decide
  have hL : ¬ msg.cmd = MessageType.Delay := by rw [hcmd]; decide
  have hP : ¬ msg.cmd = MessageType.Ping := by rw [hcmd]; decide
  unfold session.join_recv_handler
  simp only [ne_eq, not_true_eq_false, if_false, if_pos hcmd, if_neg hD, if_neg hL, if_neg hP]
  have hsome := join_usernames_isSome msg.eps msg.usernames j._username_map hlen
  cases hj : join_usernames msg.eps msg.usernames j._username_map with
  | none => rw [hj] at hsome; exact absurd hsome (by simp)
  | some um => exact ⟨rfl, rfl, rfl⟩

/-- C20: the host in state `Wait` handles a `Join` that passes the state check and with
which at least `N - 1` entries of its peer map are a `Join` less than 1000 ms old
(`2 <= N <= 256`).  The roster becomes the host endpoint named by the `Join` followed by
the first `N - 1` of those peers, `N` entries in all; the handler queues exactly one
message to each `eps[i]`, `1 <= i < N`, in that order, each being one and the same
`Info` (same `rand_seed`, the value of `time(0)`, same roster, same state, same names)
but for `side`, which is `i`; the sides handed out are `1, ..., N - 1`; and a joiner
that handles such an `Info` from its host takes that side and that roster.  The host
itself moves to `Ping` with side 0. -/
theorem roster_announcement [Inhabited F] [Inhabited S] (chk : S → S → Bool)
    (time_ms : Nat → Nat) (seed : Nat) (s : session F S) (ep : endpoint) (msg : message F S)
    (hcmd : msg.cmd = MessageType.Join) (hchk : chk s._state msg.state = true)
    (hwait : s._current_state = MessageType.Wait)
    (hN : 2 ≤ s._players_needed) (hmax : s._players_needed ≤ 256)
    (hfresh : s._players_needed - 1 ≤ (fresh_joins time_ms 1
      (map_set ep ⟨MessageType.Join, time_ms 0 % 2 ^ 64, 0⟩ s._states)).length) :
    (s.create_recv_handler chk time_ms seed ep msg)._eps =
      msg.host_ep :: (fresh_joins time_ms 1
        (map_set ep ⟨MessageType.Join, time_ms 0 % 2 ^ 64, 0⟩ s._states)).take
          (s._players_needed - 1) ∧
    (s.create_recv_handler chk time_ms seed ep msg)._eps.length = s._players_needed ∧
    (s.create_recv_handler chk time_ms seed ep msg)._current_state = MessageType.Ping ∧
    (s.create_recv_handler chk time_ms seed ep msg)._side = 0 ∧
    ∃ info : message F S,
      info.cmd = MessageType.Info ∧ info.rand_seed = seed % 2 ^ 32 ∧
      info.eps = (s.create_recv_handler chk time_ms seed ep msg)._eps ∧
      info.state = s._state ∧
      queue_calls (s.create_recv_handler chk time_ms seed ep msg)._async =
        queue_calls s._async ++
          (((s.create_recv_handler chk time_ms seed ep msg)._eps.drop 1).enumFrom 1).map
            (fun p => (p.2, { info with side := p.1 })) ∧
      ((((s.create_recv_handler chk time_ms seed ep msg)._eps.drop 1).enumFrom 1).map
        (fun p => ({ info with side := p.1 } : message F S).side)
          = List.range' 1 (s._players_needed - 1)) ∧
      ∀ (chk2 : S → S → Bool) (j : session F S) (i : Nat),
        (j.join_recv_handler chk2 j._host_ep { info with side := i }).1 = outcome.ret () ∧
        (j.join_recv_handler chk2 j._host_ep { info with side := i }).2._side = (i : Int) ∧
        (j.join_recv_handler chk2 j._host_ep { info with side := i }).2._eps =
          (s.create_recv_handler chk time_ms seed ep msg)._eps := by
  have hrl : ready_loop time_ms s._players_needed 1
      (map_set ep ⟨MessageType.Join, time_ms 0 % 2 ^ 64, 0⟩ s._states) [msg.host_ep] =
      msg.host_ep :: (fresh_joins time_ms 1
        (map_set ep ⟨MessageType.Join, time_ms 0 % 2 ^ 64, 0⟩ s._states)).take
          (s._players_needed - 1) := by
    have h := ready_loop_eq time_ms s._players_needed 1
      (map_set ep ⟨MessageType.Join, time_ms 0 % 2 ^ 64, 0⟩ s._states) [msg.host_ep]
      (by simp only [List.length_singleton]; omega)
    simpa using h
  have hlen : (msg.host_ep :: (fresh_joins time_ms 1
        (map_set ep ⟨MessageType.Join, time_ms 0 % 2 ^ 64, 0⟩ s._states)).take
          (s._players_needed - 1)).length = s._players_needed := by
    simp only [List.length_cons, List.length_take]
    omega
  generalize hE : (msg.host_ep :: (fresh_joins time_ms 1
        (map_set ep ⟨MessageType.Join, time_ms 0 % 2 ^ 64, 0⟩ s._states)).take
          (s._players_needed - 1)) = eps at hrl hlen
  have hres : s.create_recv_handler chk time_ms seed ep msg =
      (eps.drop 1).foldl session.send_ep
        { (info_queue_loop
            ({ (message.ctor MessageType.None : message F S) with
                cmd := MessageType.Info, rand_seed := seed % 2 ^ 32, eps := eps,
                state := s._state,
                usernames := (info_usernames s._side s._username 0 eps
                  (map_set ep msg.username s._username_map)).1 })
            1 (eps.drop 1)
            { s with
              _username_map := (info_usernames s._side s._username 0 eps
                  (map_set ep msg.username s._username_map)).2,
              _states := map_set ep ⟨MessageType.Join, time_ms 0 % 2 ^ 64, 0⟩ s._states,
              _eps := eps }) with
          _current_state := MessageType.Ping, _side := 0 } := by
    rw [create_recv_handler_join _ _ _ _ _ _ hcmd]
    unfold session.create_recv_join
    simp only [hchk, hwait, Bool.not_true, Bool.false_eq_true, if_false, if_true, hrl,
      hlen, le_refl]
  rw [hres]
  simp only [foldl_send_ep_eq, info_queue_loop_fields, info_queue_loop_async,
    queue_calls_append, queue_calls_map_send, List.append_nil]
  refine ⟨trivial, hlen, trivial, trivial,
    { (message.ctor MessageType.None : message F S) with
      cmd := MessageType.Info, rand_seed := seed % 2 ^ 32, eps := eps,
      state := s._state,
      usernames := (info_usernames s._side s._username 0 eps
        (map_set ep msg.username s._username_map)).1 }, rfl, rfl, rfl, rfl, ?_, ?_, ?_⟩
  · rw [queue_calls_map_queue_pair]
    congr 1
    apply List.map_congr_left
    rintro ⟨i, e⟩ hp
    have hi := (List.mem_enumFrom hp).2.1
    have hl : (eps.drop 1).length = s._players_needed - 1 := by
      rw [List.length_drop, hlen]
    rw [hl] at hi
    have : i % 256 = i := Nat.mod_eq_of_lt (by omega)
    simp only [this]
  · have hl : (eps.drop 1).length = s._players_needed - 1 := by
      rw [List.length_drop, hlen]
    rw [← hl, ← List.enumFrom_map_fst 1 (eps.drop 1)]
  · intro chk2 j i
    exact join_recv_handler_info chk2 j _ rfl
      (by simp only [info_usernames_length]; exact le_refl _)

theorem roster_announcement_witness :
    (demo_create2.create_recv_handler demo_chk demo_clock 7 demo_A demo_join)._eps
      = [demo_H, demo_A] ∧
    (demo_create2.create_recv_handler demo_chk demo_clock 7 demo_A demo_join)._current_state
      = MessageType.Ping ∧
    ∃ info : message Nat Nat,
      info.rand_seed = 7 ∧ info.eps = [demo_H, demo_A] ∧
      queue_calls (demo_create2.create_recv_handler demo_chk demo_clock 7 demo_A
        demo_join)._async = [(demo_A, { info with side := 1 })] := by
  obtain ⟨h1, -, h3, -, info, -, h6, h7, -, h9, -, -⟩ :=
    roster_announcement demo_chk demo_clock 7 demo_create2 demo_A demo_join
      (by decide) (by decide) (by decide) (by decide) (by decide) (by decide)
  have he : (demo_create2.create_recv_handler demo_chk demo_clock 7 demo_A demo_join)._eps
      = [demo_H, demo_A] := by decide
  rw [he] at h7 h9
  exact ⟨he, h3, info, h6, h7, h9⟩

/-- C13 (the code differs): `queue_data` does not put the side of the sender into the
message.  In the connected three-player session the joiner of side 1 and the host, both
at data index 0, build for the blob `[1, 2]` one and the same message: `cmd`, `data` and
`frame_id` are assigned, `side` is not.  The host handles the joiner's message and then
calls `get_data(1, data, 100)`: for every value of the 3-bit `side` other than 1 (0: the
message is dropped as one of the own side; 2 and 3: the blob is filed under another
side; 4 to 7: the data table is indexed past its end) the handler is undefined or
`get_data` waits and returns false with `data` untouched; only a message that carried
side 1 would be handed back.  The same holds from the host to the joiner of side 1 for
every value other than 0. -/
theorem queue_data_side_unassigned :
    (session.connected demo_joiner3 ∧ session.connected demo_host3 ∧
      demo_joiner3._side = 1 ∧ demo_host3._side = 0 ∧
      demo_joiner3._data_index = 0 ∧ demo_host3._data_index = 0) ∧
    ((demo_joiner3.queue_data ⟨[1, 2], 2⟩).1 = outcome.ret () ∧
      queue_calls (demo_joiner3.queue_data ⟨[1, 2], 2⟩).2._async
        = [((⟨1, 7000⟩ : endpoint), data_msg 0 ⟨[1, 2], 2⟩)] ∧
      (demo_host3.queue_data ⟨[1, 2], 2⟩).1 = outcome.ret () ∧
      queue_calls (demo_host3.queue_data ⟨[1, 2], 2⟩).2._async
        = [((⟨2, 7000⟩ : endpoint), data_msg 0 ⟨[1, 2], 2⟩),
           ((⟨3, 7000⟩ : endpoint), data_msg 0 ⟨[1, 2], 2⟩)] ∧
      (data_msg 0 ⟨[1, 2], 2⟩ : message Nat Nat) = demo_data_arriving 0) ∧
    (([0, 2, 3, 4, 5, 6, 7] : List Nat).all (fun sd => decide
        ((demo_host3.recv_hdl ⟨2, 7000⟩ (demo_data_arriving sd)).1 = outcome.undefined ∨
          (((demo_host3.recv_hdl ⟨2, 7000⟩ (demo_data_arriving sd)).2.get_data 1
              ⟨[], 0⟩ 100).result = outcome.ret false ∧
            ((demo_host3.recv_hdl ⟨2, 7000⟩ (demo_data_arriving sd)).2.get_data 1
              ⟨[], 0⟩ 100).waited = true ∧
            ((demo_host3.recv_hdl ⟨2, 7000⟩ (demo_data_arriving sd)).2.get_data 1
              ⟨[], 0⟩ 100).out = ⟨[], 0⟩))) = true ∧
      demo_host3.recv_hdl ⟨2, 7000⟩ (demo_data_arriving 0) = (outcome.ret (), demo_host3) ∧
      (demo_host3.recv_hdl ⟨2, 7000⟩ (demo_data_arriving 5)).1 = outcome.undefined ∧
      ((demo_host3.recv_hdl ⟨2, 7000⟩ (demo_data_arriving 1)).2.get_data 1
        ⟨[], 0⟩ 100).result = outcome.ret true ∧
      ((demo_host3.recv_hdl ⟨2, 7000⟩ (demo_data_arriving 1)).2.get_data 1
        ⟨[], 0⟩ 100).out = ⟨[1, 2], 2⟩) ∧
    (([1, 2, 3, 4, 5, 6, 7] : List Nat).all (fun sd => decide
        ((demo_joiner3.recv_hdl ⟨1, 7000⟩ (demo_data_arriving sd)).1 = outcome.undefined ∨
          (((demo_joiner3.recv_hdl ⟨1, 7000⟩ (demo_data_arriving sd)).2.get_data 0
              ⟨[], 0⟩ 100).result = outcome.ret false ∧
            ((demo_joiner3.recv_hdl ⟨1, 7000⟩ (demo_data_arriving sd)).2.get_data 0
              ⟨[], 0⟩ 100).waited = true ∧
            ((demo_joiner3.recv_hdl ⟨1, 7000⟩ (demo_data_arriving sd)).2.get_data 0
              ⟨[], 0⟩ 100).out = ⟨[], 0⟩))) = true ∧
      ((demo_joiner3.recv_hdl ⟨1, 7000⟩ (demo_data_arriving 0)).2.get_data 0
        ⟨[], 0⟩ 100).result = outcome.ret true ∧
      ((demo_joiner3.recv_hdl ⟨1, 7000⟩ (demo_data_arriving 0)).2.get_data 0
        ⟨[], 0⟩ 100).out = ⟨[1, 2], 2⟩) := by
  refine ⟨⟨?_, ?_, ?_, ?_, ?_, ?_⟩, ⟨?_, ?_, ?_, ?_, ?_⟩, ⟨?_, ?_, ?_, ?_, ?_⟩, ?_, ?_, ?_⟩ <;>
    first | decide | (unfold session.connected; decide)

/-- C25: a message of any kind from an endpoint other than the host endpoint given to
`join` is dropped by `join_recv_handler`.  `join` stores that endpoint in `_host_ep`;
for every session with that `_host_ep` and every sequence of messages none of which
comes from it, each call of the handler returns with the whole session unchanged
(side, roster, user names, state, delay, semaphore count and the calls made on the
transport, so nothing is queued), and so does the whole run. -/
theorem join_recv_other_endpoint [Inhabited F] [Inhabited S] (chk : S → S → Bool)
    (s0 t : session F S) (host_ep : endpoint) (state : S)
    (msgs : List (endpoint × message F S))
    (ht : t._host_ep = host_ep) (h : ∀ em ∈ msgs, em.1 ≠ host_ep) :
    (s0.join_begin host_ep state)._host_ep = host_ep ∧
    (∀ em ∈ msgs, t.join_recv_handler chk em.1 em.2 = (outcome.ret (), t)) ∧
    t.join_recv_run chk msgs = (outcome.ret (), t) := by
  have one : ∀ (ep : endpoint) (m : message F S), ep ≠ host_ep →
      t.join_recv_handler chk ep m = (outcome.ret (), t) := by
    intro ep m hne
    unfold session.join_recv_handler
    rw [ht, if_pos hne]
  refine ⟨rfl, fun em hem => one em.1 em.2 (h em hem), ?_⟩
  induction msgs with
  | nil => rfl
  | cons em rest ih =>
    obtain ⟨ep, m⟩ := em
    simp only [session.join_recv_run, one ep m (h (ep, m) (List.mem_cons_self _ _))]
    exact ih (fun em hem => h em (List.mem_cons_of_mem _ hem))

theorem join_recv_other_endpoint_witness :
    (demo_join2.join_recv_handler demo_chk demo_X (message.ctor MessageType.Info)
      = (outcome.ret (), demo_join2)) ∧
    demo_join2.join_recv_run demo_chk
      [(demo_X, message.ctor MessageType.Info), (demo_A, demo_deny),
       (demo_B, demo_delay 9), (demo_X, demo_ping)] = (outcome.ret (), demo_join2) := by
  obtain ⟨-, h2, h3⟩ := join_recv_other_endpoint demo_chk demo_join2 demo_join2 demo_H 0
    [(demo_X, message.ctor MessageType.Info), (demo_A, demo_deny),
     (demo_B, demo_delay 9), (demo_X, demo_ping)] (by decide) (by decide)
  exact ⟨h2 (demo_X, message.ctor MessageType.Info) (List.mem_cons_self _ _), h3⟩

theorem send_count_host (sent : Nat → Int) (i : Nat) (l : List endpoint) (n : Int)
    (hi : 1 ≤ i) :
    send_count 0 sent i l n = n + ((List.range' i l.length).map sent).sum := by
  induction l generalizing i n with
  | nil => simp [send_count]
  | cons e rest ih =>
    have h1 : ¬ (i = 1 ∧ (0 : Int) ≠ 0) := fun h => h.2 rfl
    have h2 : ¬ ((i : Int) = 0) := by omega
    simp only [send_count, if_neg h1, if_neg h2, ih (i + 1) (n + sent i) (by omega),
      List.length_cons, List.range'_succ, List.map_cons, List.sum_cons]
    ring

theorem send_targets_host (i : Nat) (l : List endpoint) (hi : 1 ≤ i) :
    send_targets 0 i l = l := by
  induction l generalizing i with
  | nil => rfl
  | cons e rest ih =>
    have h1 : ¬ (i = 1 ∧ (0 : Int) ≠ 0) := fun h => h.2 rfl
    have h2 : ¬ ((i : Int) = 0) := by omega
    simp only [send_targets, if_neg h1, if_neg h2, ih (i + 1) (by omega)]

/-- C21: origin routing.  With the roster `e0 :: rest`, on a joiner (`_side != 0`)
`queue_message` makes exactly one call on the transport, `queue(e0, msg)`, and `send()`
makes exactly one, the flush of `e0`, and returns what that flush returned; on the host
(`_side == 0`) `queue_message` makes exactly the calls `queue(e, msg)` for the endpoints
`e` of `rest` in order, once each, and `send()` flushes exactly the same endpoints in
order and returns the sum of what the flushes of `eps[1]`, ..., `eps[n-1]` returned. -/
theorem origin_routing (s : session F S) (msg : message F S) (sent : Nat → Int)
    (e0 : endpoint) (rest : List endpoint) (heps : s._eps = e0 :: rest) :
    (s._side ≠ 0 →
      s.queue_message msg =
        (outcome.ret (), { s with _async := s._async ++ [transport_call.queue e0 msg] }) ∧
      s.send = { s with _async := s._async ++ [s.send_call e0] } ∧
      send_targets s._side 0 s._eps = [e0] ∧
      send_count s._side sent 0 s._eps 0 = sent 0) ∧
    (s._side = 0 →
      s.queue_message msg =
        (outcome.ret (), { s with
          _async := s._async ++ rest.map (fun e => transport_call.queue e msg) }) ∧
      s.send = { s with _async := s._async ++ rest.map s.send_call } ∧
      send_targets s._side 0 s._eps = rest ∧
      send_count s._side sent 0 s._eps 0 = ((List.range' 1 rest.length).map sent).sum) := by
  constructor
  · intro hs
    have ht : send_targets s._side 0 s._eps = [e0] := by
      rw [heps]
      have h1 : ¬ ((0 : Nat) = 1 ∧ s._side ≠ 0) := fun h => absurd h.1 (by decide)
      have h2 : ¬ (((0 : Nat) : Int) = s._side) := fun h => hs h.symm
      cases rest with
      | nil => simp only [send_targets, if_neg h1, if_neg h2]
      | cons e1 rest1 =>
        simp only [send_targets, if_neg h1, if_neg h2, zero_add, true_and, if_pos hs]
    refine ⟨?_, ?_, ht, ?_⟩
    · simp only [session.queue_message, if_pos hs, heps]
    · rw [send_eq, ht]
      rfl
    · rw [heps]
      have h1 : ¬ ((0 : Nat) = 1 ∧ s._side ≠ 0) := fun h => absurd h.1 (by decide)
      have h2 : ¬ (((0 : Nat) : Int) = s._side) := fun h => hs h.symm
      cases rest with
      | nil => simp only [send_count, if_neg h1, if_neg h2, zero_add]
      | cons e1 rest1 =>
        simp only [send_count, if_neg h1, if_neg h2, zero_add, true_and, if_pos hs]
  · intro hs
    have ht : send_targets s._side 0 s._eps = rest := by
      rw [heps, hs]
      have h1 : ¬ ((0 : Nat) = 1 ∧ (0 : Int) ≠ 0) := fun h => h.2 rfl
      simp only [send_targets, if_neg h1, Nat.cast_zero, if_true, zero_add]
      exact send_targets_host 1 rest (le_refl 1)
    refine ⟨?_, ?_, ht, ?_⟩
    · have hn : ¬ s._side ≠ 0 := fun h => h hs
      simp only [session.queue_message, if_neg hn, heps, List.drop_succ_cons, List.drop_zero]
    · rw [send_eq, ht]
    · rw [heps, hs]
      have h1 : ¬ ((0 : Nat) = 1 ∧ (0 : Int) ≠ 0) := fun h => h.2 rfl
      simp only [send_count, if_neg h1, Nat.cast_zero, if_true, zero_add]
      rw [send_count_host sent 1 rest 0 (le_refl 1), zero_add]

theorem origin_routing_witness :
    queue_calls (demo_joiner.queue_message demo_ping).2._async
      = [((⟨1, 7000⟩ : endpoint), demo_ping)] ∧
    queue_calls (demo_host3.queue_message demo_ping).2._async
      = [((⟨2, 7000⟩ : endpoint), demo_ping), ((⟨3, 7000⟩ : endpoint), demo_ping)] ∧
    send_count demo_host3._side (fun i => (i : Int) + 10) 0 demo_host3._eps 0 = 11 + 12 ∧
    send_count demo_joiner._side (fun i => (i : Int) + 10) 0 demo_joiner._eps 0 = 10 := by
  obtain ⟨hj, -⟩ := origin_routing demo_joiner demo_ping (fun i => (i : Int) + 10)
    ⟨1, 7000⟩ [⟨2, 7000⟩] (by decide)
  obtain ⟨-, hh⟩ := origin_routing demo_host3 demo_ping (fun i => (i : Int) + 10)
    ⟨1, 7000⟩ [⟨2, 7000⟩, ⟨3, 7000⟩] (by decide)
  obtain ⟨j1, -, -, j4⟩ := hj (by decide)
  obtain ⟨k1, -, -, k4⟩ := hh (by decide)
  refine ⟨?_, ?_, ?_, ?_⟩
  · rw [j1]; decide
  · rw [k1]; decide
  · rw [k4]; decide
  · rw [j4]; decide

theorem queue_message_flag (s : session F S) (msg : message F S) :
    (s.queue_message msg).2._end_session_request = s._end_session_request := by
  unfold session.queue_message
  split_ifs
  · cases s._eps <;> rfl
  · rfl

theorem send_flag (s : session F S) :
    s.send._end_session_request = s._end_session_request := by
  rw [send_eq]

theorem echo_loop_flag (side : Int) (msg : message F S) (i : Nat) (l : List endpoint)
    (s : session F S) :
    (echo_loop side msg i l s)._end_session_request = s._end_session_request := by
  induction l generalizing i s with
  | nil => rfl
  | cons e rest ih =>
    by_cases h : (i : Int) = side
    · simpa [echo_loop, h] using ih (i + 1) s
    · simpa [echo_loop, h, session.queue, session.send_ep]
        using ih (i + 1) ((s.queue e msg).send_ep e)

theorem recv_frame_flag (s : session F S) (side : Int) (msg : message F S) :
    (s.recv_frame side msg).2._end_session_request = s._end_session_request := by
  unfold session.recv_frame
  by_cases h : msg.cmd = MessageType.Frame
  · rw [if_pos h]
    cases vec_at s._frame_table side <;> rfl
  · rw [if_neg h]

theorem recv_data_flag (s : session F S) (ep : endpoint) (side : Int) (msg : message F S) :
    (s.recv_data ep side msg).2._end_session_request = s._end_session_request := by
  unfold session.recv_data
  by_cases h : msg.cmd = MessageType.Data
  · rw [if_pos h]
    cases vec_at s._data_table side with
    | none => rfl
    | some row => simp only []; split_ifs <;> rfl
  · rw [if_neg h]

theorem recv_delay_flag (s : session F S) (ep : endpoint) (side : Int) (msg : message F S) :
    (s.recv_delay ep side msg)._end_session_request = s._end_session_request := by
  unfold session.recv_delay
  by_cases h : msg.cmd = MessageType.Delay
  · by_cases hc : s._side = 0 ∨ side = 0
    · simp [h, hc, session.send_ep]
    · simp [h, hc]
  · rw [if_neg h]

theorem recv_end_session_flag (s : session F S) (ep : endpoint) (side : Int)
    (msg : message F S) :
    (s.recv_end_session ep side msg)._end_session_request =
      (if msg.cmd = MessageType.EndSession then true else s._end_session_request) := by
  unfold session.recv_end_session
  by_cases h : msg.cmd = MessageType.EndSession
  · by_cases hc : s._side = 0 ∨ side = 0
    · simp [h, hc, session.send_ep]
    · simp [h, hc]
  · rw [if_neg h, if_neg h]

theorem recv_hdl_flag (s : session F S) (ep : endpoint) (msg : message F S) :
    (s._end_session_request = true → (s.recv_hdl ep msg).2._end_session_request = true) ∧
    (msg.cmd = MessageType.EndSession → (msg.side : Int) ≠ s._side →
      (s.recv_hdl ep msg).1 = outcome.ret () ∧
      (s.recv_hdl ep msg).2._end_session_request = true) := by
  by_cases h0 : (msg.side : Int) = s._side
  · refine ⟨fun h => ?_, fun _ h => absurd h0 h⟩
    simp only [session.recv_hdl, if_pos h0]
    exact h
  · have hs1 : (if s._side = 0 ∧ (msg.side : Int) ≠ 0
        then echo_loop (msg.side : Int) msg 1 (s._eps.drop 1) s else s)._end_session_request
        = s._end_session_request := by
      split_ifs
      · exact echo_loop_flag _ _ _ _ _
      · rfl
    unfold session.recv_hdl
    simp only [if_neg h0]
    generalize (if s._side = 0 ∧ (msg.side : Int) ≠ 0
        then echo_loop (msg.side : Int) msg 1 (s._eps.drop 1) s else s) = s1 at hs1
    constructor
    · intro h
      have f1 := recv_frame_flag s1 (msg.side : Int) msg
      cases hf : s1.recv_frame (msg.side : Int) msg with
      | mk o s2 =>
        rw [hf] at f1
        have f2 := recv_data_flag s2 ep (msg.side : Int) msg
        cases o with
        | ret v =>
          simp only []
          cases hd : s2.recv_data ep (msg.side : Int) msg with
          | mk o2 s3 =>
            rw [hd] at f2
            simp only [] at f1 f2
            cases o2 with
            | ret v2 =>
              simp only [recv_end_session_flag, recv_delay_flag, f2, f1, hs1, h, ite_self]
            | threw w => simp only [f2, f1, hs1, h]
            | undefined => simp only [f2, f1, hs1, h]
            | blocks => simp only [f2, f1, hs1, h]
        | threw w => simp only [] at f1 ⊢; rw [f1, hs1, h]
        | undefined => simp only [] at f1 ⊢; rw [f1, hs1, h]
        | blocks => simp only [] at f1 ⊢; rw [f1, hs1, h]
    · intro hcmd _
      have hF : ¬ msg.cmd = MessageType.Frame := by rw [hcmd]; decide
      have hD : ¬ msg.cmd = MessageType.Data := by rw [hcmd]; decide
      have h1 : s1.recv_frame (msg.side : Int) msg = (outcome.ret (), s1) := by
        simp only [session.recv_frame, hF, if_false]
      rw [h1]
      simp only [recv_data_of_not _ _ _ _ hD, recv_end_session_flag, if_pos hcmd, and_self]

theorem queue_send_flag (t : session F S) (m : message F S) :
    (match t.queue_message m with
      | (outcome.ret _, s2) => (outcome.ret (), s2.send)
      | r => r).2._end_session_request = t._end_session_request := by
  have q := queue_message_flag t m
  cases hq : t.queue_message m with
  | mk o t2 =>
    rw [hq] at q
    cases o <;> simp only [send_flag] <;> exact q

theorem set_flag [Inhabited F] [Inhabited S] (s : session F S) (frame : F) :
    (s.set frame).2._end_session_request = s._end_session_request := by
  unfold session.set
  by_cases h : s._current_state = MessageType.None
  · rw [if_pos h]
  · rw [if_neg h]
    simp only []
    cases vec_at s._frame_table s._side with
    | none => rfl
    | some row => exact queue_send_flag _ _

theorem get_flag [Inhabited F] (s : session F S) (side : Int) (f : F) (frame timeout : Int) :
    (s.get side f frame timeout).s._end_session_request = s._end_session_request := by
  unfold session.get
  by_cases h1 : s._current_state = MessageType.None
  · rw [if_pos h1]
  · rw [if_neg h1]
    by_cases h2 : frame < s._delay
    · rw [if_pos h2]
    · rw [if_neg h2]
      cases vec_at s._frame_table side with
      | none => rfl
      | some row => simp only []; split_ifs <;> rfl

theorem get_data_flag (s : session F S) (side : Int) (data : message_data) (timeout : Int) :
    (s.get_data side data timeout).s._end_session_request = s._end_session_request := by
  unfold session.get_data
  by_cases h1 : s._current_state = MessageType.None
  · rw [if_pos h1]
  · rw [if_neg h1]
    cases vec_at s._data_table side with
    | none => rfl
    | some row => simp only []; split_ifs <;> rfl

theorem after_flag [Inhabited F] [Inhabited S] (s : session F S) (op : session_op F S)
    (h : s._end_session_request = true) : (s.after op)._end_session_request = true := by
  cases op with
  | set frame => simp only [session.after, set_flag, h]
  | get side f frame timeout => simp only [session.after, get_flag, h]
  | get_data side data timeout => simp only [session.after, get_data_flag, h]
  | queue_data data =>
    simp only [session.after, session.queue_data]
    split_ifs
    · exact h
    · rw [queue_message_flag]; exact h
  | reannounce_delay =>
    simp only [session.after, session.reannounce_delay]
    split_ifs
    · exact h
    · exact (queue_send_flag _ _).trans h
  | clear_queue =>
    simp only [session.after, session.clear_queue]
    split_ifs <;> exact h
  | send_end_session_request =>
    simp only [session.after, session.send_end_session_request]
    exact queue_send_flag _ _
  | next_frame => exact h
  | delay d => exact h
  | send => simp only [session.after, send_flag, h]
  | recv_hdl ep msg => exact (recv_hdl_flag s ep msg).1 h

/-- C23: `EndSession`.  In a connected session, `recv_hdl` handling an `EndSession`
message whose side is not the local side returns with `_end_session_request` true; on
the host the `queue` calls it makes are exactly one with that message for every
`_eps[i]`, `1 <= i < n`, other than the side of the message, and on a joiner it makes
none.  `send_end_session_request` returns with the flag true and queues exactly one
`EndSession` message to every recipient (`_eps[0]` on a joiner, `_eps[1..]` on the
host).  And from any session whose flag is true, every sequence of `set`, `get`,
`get_data`, `queue_data`, `reannounce_delay`, `clear_queue`,
`send_end_session_request`, `next_frame`, `delay(d)`, `send` and `recv_hdl` calls,
with any arguments, leaves the flag true; `clear()` is what resets it. -/
theorem end_session_flag [Inhabited F] [Inhabited S] (s t : session F S) (ep : endpoint)
    (msg : message F S) (ops : List (session_op F S))
    (hc : s.connected) (hcmd : msg.cmd = MessageType.EndSession)
    (hside : (msg.side : Int) ≠ s._side) (ht : t._end_session_request = true) :
    ((s.recv_hdl ep msg).1 = outcome.ret () ∧
      (s.recv_hdl ep msg).2._end_session_request = true ∧
      (s._side = 0 → queue_calls (s.recv_hdl ep msg).2._async =
        queue_calls s._async ++
          (s._eps.enum.filter (fun p => decide (1 ≤ p.1 ∧ (p.1 : Int) ≠ msg.side))).map
            (fun p => (p.2, msg))) ∧
      (s._side ≠ 0 → queue_calls (s.recv_hdl ep msg).2._async = queue_calls s._async)) ∧
    (s.send_end_session_request.1 = outcome.ret () ∧
      s.send_end_session_request.2._end_session_request = true ∧
      queue_calls s.send_end_session_request.2._async = queue_calls s._async ++
        (if s._side ≠ 0 then s._eps.take 1 else s._eps.drop 1).map
          (fun e => (e, (message.ctor MessageType.EndSession : message F S)))) ∧
    (t.after_all ops)._end_session_request = true ∧
    t.clear._end_session_request = false := by
  obtain ⟨-, -, -, hs0, hs1, -⟩ := hc
  refine ⟨⟨((recv_hdl_flag s ep msg).2 hcmd hside).1, ((recv_hdl_flag s ep msg).2 hcmd hside).2,
    ?_, ?_⟩, ?_, ?_, rfl⟩
  · intro hz
    have hm : (msg.side : Int) ≠ 0 := by rw [← hz]; exact hside
    have : (msg.side : Int) ≠ s._side ∧ s._side = 0 ∧ (msg.side : Int) ≠ 0 := ⟨hside, hz, hm⟩
    rw [recv_hdl_queue_calls, if_pos this, echo_loop_queue_calls, enum_filter_from_one]
  · intro hz
    have : ¬ ((msg.side : Int) ≠ s._side ∧ s._side = 0 ∧ (msg.side : Int) ≠ 0) :=
      fun h => hz h.2.1
    rw [recv_hdl_queue_calls, if_neg this]
  · by_cases hz : s._side = 0
    · cases he : s._eps with
      | nil =>
        simp [session.send_end_session_request, session.queue_message, send_eq, hz, he,
          queue_calls_append, queue_calls_map_send, queue_calls]
      | cons e0 rest =>
        simp [session.send_end_session_request, session.queue_message, send_eq, hz, he,
          queue_calls_append, queue_calls_map_queue, queue_calls_map_send]
    · obtain ⟨e0, rest, he⟩ : ∃ e0 rest, s._eps = e0 :: rest := by
        cases h : s._eps with
        | nil => rw [h] at hs1; simp at hs1; omega
        | cons e0 rest => exact ⟨e0, rest, rfl⟩
      simp [session.send_end_session_request, session.queue_message, send_eq, hz, he,
        queue_calls_append, queue_calls_map_send, queue_calls]
  · unfold session.after_all
    induction ops generalizing t with
    | nil => exact ht
    | cons op rest ih => exact ih (t.after op) (after_flag t op ht)

theorem end_session_flag_witness :
    (demo_host3.recv_hdl ⟨2, 7000⟩ demo_end_session).2._end_session_request = true ∧
    queue_calls (demo_host3.recv_hdl ⟨2, 7000⟩ demo_end_session).2._async
      = [((⟨3, 7000⟩ : endpoint), demo_end_session)] ∧
    queue_calls demo_host3.send_end_session_request.2._async
      = [((⟨2, 7000⟩ : endpoint), message.ctor MessageType.EndSession),
         ((⟨3, 7000⟩ : endpoint), message.ctor MessageType.EndSession)] ∧
    ((demo_host3.recv_hdl ⟨2, 7000⟩ demo_end_session).2.after_all
      [session_op.set 5, session_op.next_frame, session_op.recv_hdl ⟨2, 7000⟩ demo_ping,
       session_op.get 1 0 9 100, session_op.delay 4])._end_session_request = true := by
  obtain ⟨⟨-, h2, h3, -⟩, ⟨-, -, h7⟩, h8, -⟩ :=
    end_session_flag demo_host3 (demo_host3.recv_hdl ⟨2, 7000⟩ demo_end_session).2
      ⟨2, 7000⟩ demo_end_session
      [session_op.set 5, session_op.next_frame, session_op.recv_hdl ⟨2, 7000⟩ demo_ping,
       session_op.get 1 0 9 100, session_op.delay 4]
      (by unfold session.connected; decide) (by decide) (by decide) (by decide)
  refine ⟨h2, ?_, ?_, h8⟩
  · rw [h3 (by decide)]; decide
  · rw [h7]; decide

theorem get_found [Inhabited F] (s : session F S) (side : Int) (f v : F) (n timeout : Int)
    (row : List (Int × F)) (hc : s._current_state ≠ MessageType.None) (hn : s._delay ≤ n)
    (hrow : vec_at s._frame_table side = some row) (hv : um_find row n = some v) :
    s.get side f n timeout =
      ⟨outcome.ret true,
        { s with _frame_table := vec_set s._frame_table side (um_erase row (n - 1)) },
        v, false⟩ := by
  have hn' : ¬ n < s._delay := by omega
  simp [session.get, hc, hn', hrow, hv, um_index_of_find row n v hv]

theorem get_prologue [Inhabited F] (s : session F S) (side : Int) (f : F) (n timeout : Int)
    (hc : s._current_state ≠ MessageType.None) (hn : n < s._delay) :
    s.get side f n timeout = ⟨outcome.ret true, s, f, false⟩ := by
  simp [session.get, hc, hn]

theorem get_run_found [Inhabited F] (side : Int) (f0 : F) (timeout : Int) (vs : List F)
    (s : session F S) (row : List (Int × F)) (n : Int)
    (hc : s._current_state ≠ MessageType.None) (hn : s._delay ≤ n)
    (hrow : vec_at s._frame_table side = some row)
    (hvs : ∀ (i : Nat) (v : F), vs[i]? = some v → um_find row (n + (i : Int)) = some v) :
    (s.get_run side f0 timeout n vs.length).1
      = vs.map (fun v => (outcome.ret true, v, false)) ∧
    ∃ row', vec_at (s.get_run side f0 timeout n vs.length).2._frame_table side = some row' ∧
      ∀ k : Int, um_find row' k =
        if n - 1 ≤ k ∧ k < n + (vs.length : Int) - 1 then none else um_find row k := by
  induction vs generalizing s row n with
  | nil =>
    simp only [List.length_nil, session.get_run, List.map_nil, Nat.cast_zero, add_zero]
    refine ⟨trivial, row, hrow, fun k => ?_⟩
    rw [if_neg (by omega)]
  | cons v rest ih =>
    have hv := hvs 0 v (by simp)
    rw [Nat.cast_zero, add_zero] at hv
    simp only [List.length_cons, session.get_run, get_found s side f0 v n timeout row hc hn
      hrow hv, List.map_cons]
    obtain ⟨h1, row', h3, h4⟩ := ih
      ({ s with _frame_table := vec_set s._frame_table side (um_erase row (n - 1)) })
      (um_erase row (n - 1)) (n + 1) hc (by show s._delay ≤ n + 1; omega)
      (vec_at_set_self _ _ _ _ hrow)
      (by
        intro i v' hi
        have := hvs (i + 1) v' (by simpa using hi)
        rw [um_find_erase, if_neg (by omega)]
        rw [show n + 1 + (i : Int) = n + ((i + 1 : Nat) : Int) by push_cast; ring]
        exact this)
    refine ⟨by rw [h1], row', h3, fun k => ?_⟩
    rw [h4 k, um_find_erase]
    push_cast
    by_cases c1 : k = n - 1
    · rw [if_neg (by omega), if_pos c1, if_pos (by omega)]
    · by_cases c2 : n + 1 - 1 ≤ k ∧ k < n + 1 + (rest.length : Int) - 1
      · rw [if_pos c2, if_pos (by omega)]
      · rw [if_neg c2, if_neg c1, if_neg (by omega)]

/-- C22 (counterexample): the host of a two-player session with delay 3 has stored its
own frames for the consecutive ticks 1, 2, 3 and 4 (published at the ticks 0 to 3).
The calls `get(0, 3)` and `get(0, 4)` both return true with the frames 12 and 13, and
afterwards row 0 of the frame table still holds the entry of key 1, which is less
than 4. -/
theorem frame_below_delay_kept :
    (session.connected demo_host_ticks ∧ demo_host_ticks._delay = 3 ∧
      demo_host_ticks._side = 0 ∧
      vec_at demo_host_ticks._frame_table 0 = some [(4, 13), (3, 12), (2, 11), (1, 10)]) ∧
    (demo_host_ticks.get_run 0 0 100 3 2).1
      = [(outcome.ret true, 12, false), (outcome.ret true, 13, false)] ∧
    vec_at (demo_host_ticks.get_run 0 0 100 3 2).2._frame_table 0
      = some [(4, 13), (1, 10)] ∧
    (vec_at (demo_host_ticks.get_run 0 0 100 3 2).2._frame_table 0).map
      (fun row => um_find row 1) = some (some 10) := by
  refine ⟨⟨?_, ?_, ?_, ?_⟩, ?_, ?_, ?_⟩ <;>
    first | decide | (unfold session.connected; decide)

/-- C22 (amended): garbage collection of consumed frames.  In a connected session, for a
side whose row of the frame table holds no entry with a key below `_delay - 1` and
holds the frames `vs` under the consecutive keys `_delay`, `_delay + 1`, ..., `m`, the
calls `get(side, n)` for `n = _delay, ..., m` in order all return true without waiting
and hand back the frames of `vs` in order; afterwards the row holds no entry with a
key less than `m`, and its entries with a key of `m` or more are as before. -/
theorem get_collects [Inhabited F] (s : session F S) (side : Int) (f0 : F) (timeout : Int)
    (vs : List F) (row : List (Int × F))
    (hc : s._current_state ≠ MessageType.None)
    (hrow : vec_at s._frame_table side = some row)
    (hold : ∀ k : Int, k < s._delay - 1 → um_find row k = none)
    (hvs : ∀ (i : Nat) (v : F), vs[i]? = some v →
      um_find row (s._delay + (i : Int)) = some v) :
    (s.get_run side f0 timeout s._delay vs.length).1
      = vs.map (fun v => (outcome.ret true, v, false)) ∧
    ∃ row', vec_at (s.get_run side f0 timeout s._delay vs.length).2._frame_table side
        = some row' ∧
      (∀ k : Int, k < s._delay + (vs.length : Int) - 1 → um_find row' k = none) ∧
      (∀ k : Int, s._delay + (vs.length : Int) - 1 ≤ k → um_find row' k = um_find row k) := by
  obtain ⟨h1, row', h2, h3⟩ :=
    get_run_found side f0 timeout vs s row s._delay hc (le_refl _) hrow hvs
  refine ⟨h1, row', h2, fun k hk => ?_, fun k hk => ?_⟩
  · rw [h3 k]
    by_cases c : s._delay - 1 ≤ k
    · rw [if_pos ⟨c, hk⟩]
    · rw [if_neg (fun h => c h.1)]
      exact hold k (by omega)
  · rw [h3 k, if_neg (by omega)]

theorem get_collects_witness :
    (demo_host.get_run 1 0 100 3 2).1
      = [(outcome.ret true, 30, false), (outcome.ret true, 40, false)] ∧
    ∃ row', vec_at (demo_host.get_run 1 0 100 3 2).2._frame_table 1 = some row' ∧
      (∀ k : Int, k < 4 → um_find row' k = none) ∧ um_find row' 4 = some 40 := by
  obtain ⟨h1, row', h2, h3, h4⟩ :=
    get_collects demo_host 1 0 100 [30, 40] [(4, 40), (3, 30)] (by decide) (by decide)
      (by
        intro k hk
        have hk' : k < 2 := hk
        simp only [um_find]
        rw [if_neg (by omega), if_neg (by omega)])
      (by
        intro i v hi
        match i, hi with
        | 0, hi =>
          simp only [List.getElem?_cons_zero, Option.some.injEq] at hi
          subst hi; decide
        | 1, hi =>
          simp only [List.getElem?_cons_succ, List.getElem?_cons_zero,
            Option.some.injEq] at hi
          subst hi; decide
        | (j + 2), hi => simp at hi)
  exact ⟨h1, row', h2, fun k hk => h3 k hk, (h4 4 (by decide)).trans (by decide)⟩

theorem set_fields [Inhabited F] [Inhabited S] (s : session F S) (frame : F)
    (row : List (Int × F)) (hst : s._current_state ≠ MessageType.None)
    (hrow : vec_at s._frame_table s._side = some row)
    (hne : s._side ≠ 0 → s._eps ≠ []) :
    ∃ s1 : session F S, s.set frame = (outcome.ret (), s1) ∧
      s1._current_state = s._current_state ∧ s1._side = s._side ∧ s1._eps = s._eps ∧
      s1._delay = s._delay ∧ s1._frame = s._frame ∧
      s1._frame_table = vec_set s._frame_table s._side
        (um_set row (if s._side = 0 then s._frame + 1 else s._frame + s._delay) frame) := by
  obtain ⟨msg, tail, hset, -⟩ := set_eq s frame row hst hrow hne
  exact ⟨_, hset, rfl, rfl, rfl, rfl, rfl, rfl⟩

theorem get_found_fields [Inhabited F] (s : session F S) (side : Int) (f v : F)
    (n timeout : Int) (row : List (Int × F)) (hc : s._current_state ≠ MessageType.None)
    (hn : s._delay ≤ n) (hrow : vec_at s._frame_table side = some row)
    (hv : um_find row n = some v) :
    ∃ s2 : session F S, s.get side f n timeout = ⟨outcome.ret true, s2, v, false⟩ ∧
      s2._current_state = s._current_state ∧ s2._side = s._side ∧ s2._eps = s._eps ∧
      s2._delay = s._delay ∧ s2._frame = s._frame ∧
      s2._frame_table = vec_set s._frame_table side (um_erase row (n - 1)) :=
  ⟨_, get_found s side f v n timeout row hc hn hrow hv, rfl, rfl, rfl, rfl, rfl, rfl⟩

theorem lockstep_tick [Inhabited F] [Inhabited S] (s : session F S) (f0 v frame : F)
    (timeout : Int) (rest : List F) (row : List (Int × F))
    (hst : s._current_state ≠ MessageType.None)
    (hne : s._side ≠ 0 → s._eps ≠ [])
    (hrow : vec_at s._frame_table s._side = some row)
    (hd : 1 ≤ s._delay)
    (hv : s._delay ≤ s._frame → um_find row s._frame = some v) :
    ∃ (s3 : session F S) (row3 : List (Int × F)),
      s.lockstep_run f0 timeout (frame :: rest) =
        ((outcome.ret true, (if s._frame < s._delay then f0 else v), false) ::
          (s3.lockstep_run f0 timeout rest).1, (s3.lockstep_run f0 timeout rest).2) ∧
      s3._current_state = s._current_state ∧ s3._side = s._side ∧ s3._eps = s._eps ∧
      s3._delay = s._delay ∧ s3._frame = s._frame + 1 ∧
      vec_at s3._frame_table s3._side = some row3 ∧
      ∀ k : Int, um_find row3 k =
        if k = (if s._side = 0 then s._frame + 1 else s._frame + s._delay) then some frame
        else if s._delay ≤ s._frame ∧ k = s._frame - 1 then none
        else um_find row k := by
  obtain ⟨s1, hset, e1, e2, e3, e4, e5, e6⟩ := set_fields s frame row hst hrow hne
  have hrow1 : vec_at s1._frame_table s1._side = some
      (um_set row (if s._side = 0 then s._frame + 1 else s._frame + s._delay) frame) := by
    rw [e6, e2]
    exact vec_at_set_self _ _ _ _ hrow
  have hst1 : s1._current_state ≠ MessageType.None := by rw [e1]; exact hst
  by_cases hp : s._frame < s._delay
  · have hget := get_prologue s1 s1._side f0 s1._frame timeout hst1 (by rw [e5, e4]; exact hp)
    refine ⟨s1.next_frame, _, ?_, e1, e2, e3, e4, ?_, hrow1, fun k => ?_⟩
    · simp only [session.lockstep_run, hset, hget, if_pos hp]
    · show s1._frame + 1 = s._frame + 1
      rw [e5]
    · rw [um_find_set]
      have : ¬ (s._delay ≤ s._frame ∧ k = s._frame - 1) := fun h => by omega
      rw [if_neg this]
  · have hdf : s._delay ≤ s._frame := by omega
    have hne1 : s._frame ≠ (if s._side = 0 then s._frame + 1 else s._frame + s._delay) := by
      split_ifs <;> omega
    have hv1 : um_find (um_set row (if s._side = 0 then s._frame + 1
        else s._frame + s._delay) frame) s1._frame = some v := by
      rw [um_find_set, e5, if_neg hne1]
      exact hv hdf
    obtain ⟨s2, hget, g1, g2, g3, g4, g5, g6⟩ :=
      get_found_fields s1 s1._side f0 v s1._frame timeout _ hst1 (by rw [e5, e4]; exact hdf)
        hrow1 hv1
    have hrow2 : vec_at s2._frame_table s2._side = some (um_erase
        (um_set row (if s._side = 0 then s._frame + 1 else s._frame + s._delay) frame)
        (s1._frame - 1)) := by
      rw [g6, g2]
      exact vec_at_set_self _ _ _ _ hrow1
    refine ⟨s2.next_frame, _, ?_, g1.trans e1, g2.trans e2, g3.trans e3, g4.trans e4, ?_,
      hrow2, fun k => ?_⟩
    · simp only [session.lockstep_run, hset, hget, if_neg hp]
    · show s2._frame + 1 = s._frame + 1
      rw [g5, e5]
    · rw [um_find_erase, um_find_set, e5]
      by_cases c1 : k = (if s._side = 0 then s._frame + 1 else s._frame + s._delay)
      · have c2 : ¬ k = s._frame - 1 := by
          rw [c1]; split_ifs <;> omega
        rw [if_neg c2, if_pos c1, if_pos c1]
      · rw [if_neg c1, if_neg c1]
        by_cases c2 : k = s._frame - 1
        · rw [if_pos c2, if_pos ⟨hdf, c2⟩]
        · rw [if_neg c2, if_neg (fun h => c2 h.2)]

theorem lockstep_run_spec [Inhabited F] [Inhabited S] (f0 : F) (timeout : Int) (off : Nat)
    (rest pre : List F) (s : session F S) (row : List (Int × F))
    (hst : s._current_state ≠ MessageType.None)
    (hne : s._side ≠ 0 → s._eps ≠ [])
    (hrow : vec_at s._frame_table s._side = some row)
    (hframe : s._frame = (pre.length : Int))
    (hoff : (off : Int) = if s._side = 0 then 1 else s._delay)
    (hd : 1 ≤ s._delay)
    (hinv : ∀ (j : Nat) (v : F), pre[j]? = some v → pre.length ≤ j + off →
      um_find row ((j + off : Nat) : Int) = some v) :
    (s.lockstep_run f0 timeout rest).1 =
      (List.range rest.length).map (fun i => (outcome.ret true,
        (if ((pre.length + i : Nat) : Int) < s._delay then f0
         else (pre ++ rest).getD (pre.length + i - off) f0), false)) := by
  induction rest generalizing pre s row with
  | nil => rfl
  | cons frame rest ih =>
    have hoff1 : 1 ≤ off := by split_ifs at hoff <;> omega
    have hoff2 : (off : Int) ≤ s._delay := by split_ifs at hoff <;> omega
    have hdest : (if s._side = 0 then s._frame + 1 else s._frame + s._delay)
        = ((pre.length + off : Nat) : Int) := by
      rw [hframe]
      push_cast
      split_ifs at hoff ⊢ <;> omega
    have hvx : ∃ v : F, (s._delay ≤ s._frame → um_find row s._frame = some v) ∧
        (s._delay ≤ s._frame → (pre ++ frame :: rest).getD (pre.length - off) f0 = v) := by
      by_cases hdf : s._delay ≤ s._frame
      · have hlt : pre.length - off < pre.length := by
          rw [hframe] at hdf
          omega
        have hge : off ≤ pre.length := by
          rw [hframe] at hdf
          omega
        refine ⟨pre.get ⟨pre.length - off, hlt⟩, fun _ => ?_, fun _ => ?_⟩
        · have := hinv (pre.length - off) (pre.get ⟨pre.length - off, hlt⟩)
            (by simp [List.getElem?_eq_getElem hlt]) (by omega)
          rw [hframe]
          rw [show ((pre.length - off + off : Nat) : Int) = (pre.length : Int) by
            rw [Nat.sub_add_cancel hge]] at this
          exact this
        · rw [List.getD_eq_getElem?_getD, List.getElem?_append_left hlt,
            List.getElem?_eq_getElem hlt]
          rfl
      · exact ⟨f0, fun h => absurd h hdf, fun h => absurd h hdf⟩
    obtain ⟨v, hv, hvd⟩ := hvx
    obtain ⟨s3, row3, hrun, e1, e2, e3, e4, e5, hrow3, hfind⟩ :=
      lockstep_tick s f0 v frame timeout rest row hst hne hrow hd hv
    rw [hrun]
    have ih' := ih (pre ++ [frame]) s3 row3 (by rw [e1]; exact hst)
      (by rw [e2, e3]; exact hne) hrow3
      (by rw [e5, hframe]; simp)
      (by rw [e2, e4]; exact hoff) (by rw [e4]; exact hd)
      (by
        intro j w hj hle
        rw [hfind, hdest]
        simp only [List.length_append, List.length_singleton] at hle
        by_cases cj : j = pre.length
        · rw [if_pos (by rw [cj])]
          rw [cj, List.getElem?_append_right (le_refl _)] at hj
          simp only [Nat.sub_self, List.getElem?_cons_zero, Option.some.injEq] at hj
          rw [hj]
        · have hjl : j < pre.length := by
            have := (List.getElem?_eq_some.mp hj).1
            simp only [List.length_append, List.length_singleton] at this
            omega
          rw [if_neg (by push_cast; omega)]
          rw [if_neg (by rw [hframe]; push_cast; omega)]
          rw [List.getElem?_append_left hjl] at hj
          exact hinv j w hj (by omega))
    simp only [List.length_cons, List.range_succ_eq_map, List.map_cons, List.map_map]
    rw [ih']
    refine congrArg₂ _ ?_ ?_
    · simp only [add_zero, Nat.cast_inj]
      rw [← hframe]
      by_cases hp : s._frame < s._delay
      · rw [if_pos hp, if_pos hp]
      · rw [if_neg hp, if_neg hp, hvd (by omega)]
    · apply List.map_congr_left
      intro i _
      simp only [Function.comp, List.length_append, List.length_singleton, e4,
        List.append_assoc, List.singleton_append, Nat.add_assoc, Nat.add_comm 1 i,
        Nat.succ_eq_add_one]

/-- C24: own-side lockstep never blocks.  In a connected session whose tick counter is 0
and whose delay `d` is at least 1, the simulator runs the loop `set(frame);
get(_side, f, _frame, timeout); next_frame();` over any list of frames, one per tick.
At every tick `t` the `get` returns true without waiting; for `t < d` it leaves the
caller's object as it was, and for `t >= d` it hands back the frame that the loop
published for tick `t`: the frame of tick `t - 1` on the host, which stores at `t + 1`,
and the frame of tick `t - d` on a joiner, which stores at `t + d`. -/
theorem lockstep_own_side [Inhabited F] [Inhabited S] (s : session F S) (f0 : F)
    (timeout : Int) (frames : List F)
    (hc : s.connected) (hframe : s._frame = 0) (hd : 1 ≤ s._delay) :
    (s.lockstep_run f0 timeout frames).1 =
      (List.range frames.length).map (fun (t : Nat) => (outcome.ret true,
        (if (t : Int) < s._delay then f0
         else frames.getD (t - (if s._side = 0 then 1 else s._delay.toNat : Nat)) f0),
        false)) := by
  obtain ⟨hst, hft, -, hs0, hs1, -⟩ := hc
  obtain ⟨row, hrow⟩ := vec_at_some_of_lt s._frame_table s._side hs0 (by omega)
  have hne : s._side ≠ 0 → s._eps ≠ [] := by
    intro _ h
    rw [h] at hs1
    simp at hs1
    omega
  have h := lockstep_run_spec f0 timeout (if s._side = 0 then 1 else s._delay.toNat)
    frames [] s row hst hne hrow (by rw [hframe]; rfl)
    (by split_ifs <;> first | (simp; done) | (simp; omega)) hd
    (by intro j v hj; simp at hj)
  simpa using h

theorem lockstep_own_side_witness :
    (({ demo_host with _frame := 0 } : session Nat Nat).lockstep_run 0 100
      [10, 11, 12, 13, 14]).1
      = [(outcome.ret true, 0, false), (outcome.ret true, 0, false),
         (outcome.ret true, 0, false), (outcome.ret true, 12, false),
         (outcome.ret true, 13, false)] ∧
    (({ demo_joiner with _frame := 0 } : session Nat Nat).lockstep_run 0 100
      [10, 11, 12, 13, 14]).1
      = [(outcome.ret true, 0, false), (outcome.ret true, 0, false),
         (outcome.ret true, 0, false), (outcome.ret true, 10, false),
         (outcome.ret true, 11, false)] := by
  have h1 := lockstep_own_side ({ demo_host with _frame := 0 } : session Nat Nat) 0 100
    [10, 11, 12, 13, 14] (by unfold session.connected; decide) (by decide) (by decide)
  have h2 := lockstep_own_side ({ demo_joiner with _frame := 0 } : session Nat Nat) 0 100
    [10, 11, 12, 13, 14] (by unfold session.connected; decide) (by decide) (by decide)
  refine ⟨?_, ?_⟩
  · rw [h1]; decide
  · rw [h2]; decide

end shoryu
